import Mathlib

/-!
Verification development for the lexel lexing library (single header `lexel.h`).

The C code is shallowly embedded as follows.

* The source text between the lexer's `start` and `end` pointers is a `List Char`;
  pointers into the source become `Nat` indices (`start` = 0, `end` = `src.length`).
* C `int` values (token types, error codes, bases, line/column) are `Int`.
* Configuration strings (`const char *`) are `List Char`; configuration lists
  (`NULL`-terminated arrays) are Lean lists, with the empty list standing for a
  `NULL` (disabled) list — every configuration consumer in the C code treats the
  two identically.  Parallel arrays are indexed with `List.getD`.
  Configuration strings are assumed NUL-free (a C string cannot contain `'\x00'`).
* The configuration fields of `struct lxl_lexer` are grouped into `lxl_config`;
  the engine never writes them.  The three hook pointers default to `NULL` and are
  not representable as data, so hook invocations (no-ops for `NULL`) are omitted.
* Every byte dereference (`*p` in C) goes through `lxl_read_byte`.  Reading at an
  index `≥ src.length` returns `'\x00'` (the terminator of a NUL-terminated
  source) and bumps one of two instrumentation counters, `at_end_reads`
  (index = `src.length`, i.e. the byte at `end`) and `past_end_reads`
  (index > `src.length`).  These two ghost fields have no C counterpart; they are
  updated exactly at the dereference sites and never read by the engine.
  When the C code dereferences the same address several times in a row
  (e.g. `*lexer->current` inside the `check_chars` loop) the embedding reads it
  once and reuses the byte.
* C loops without a structurally decreasing argument (`skip_whitespace`,
  `skip_line`, `skip_block_comment`, `lex_string`, `lex_integer`, `lex_symbolic`,
  `lex_word`) are defined with explicit fuel; exhausted fuel yields `none`
  (the corresponding C execution would not have terminated within that many
  iterations).  The wrappers supply the canonical fuel `lxl_fuel`, which is
  shown sufficient for well-formed configurations.
* `lxl_lexer__rewind_to`/`advance_to` convert a `ptrdiff_t` distance to `size_t`;
  the C code asserts the distance is non-negative, and a negative distance is
  modelled as 0 (`Int.toNat`).
* Functions of the header that are never reached from `lxl_lexer_next_token`,
  `lxl_lexer_reset` or the string-view API (e.g. `lxl_lexer__check_int_prefix`,
  `lxl_lexer__rewind`, the builder and region allocator) are not embedded.

All state-passing functions return `result × lxl_lexer` (checks leave the cursor
where it was but may record reads).
-/

set_option linter.unusedVariables false

/-- The line and column position within text (`struct lxl_location`). -/
structure lxl_location where
  line : Int
  column : Int
deriving DecidableEq, Repr

/-- Lexer status (`enum lxl_lexer_status`). -/
inductive lxl_lexer_status where
  | LXL_LSTS_READY
  | LXL_LSTS_LEXING
  | LXL_LSTS_FINISHED
  | LXL_LSTS_FINISHED_ABNORMAL
deriving DecidableEq, Repr

/-- Word lexing rule (`enum lxl_word_lexing_rule`). -/
inductive lxl_word_lexing_rule where
  | LXL_LEX_SYMBOLIC
  | LXL_LEX_WORD
deriving DecidableEq, Repr

/-- String kind (`enum lxl_string_type`). -/
inductive lxl_string_type where
  | LXL_STRING_LINE
  | LXL_STRING_MULTILINE
deriving DecidableEq, Repr

/-- A pair of delimiters for strings and block comments (`struct lxl_delim_pair`). -/
structure lxl_delim_pair where
  opener : List Char
  closer : List Char
deriving DecidableEq, Repr

/-- A lexical token (`struct lxl_token`); `start`/`end` pointers are indices. -/
structure lxl_token where
  start : Nat
  end_ : Nat
  loc : lxl_location
  token_type : Int
deriving DecidableEq, Repr

/-- Error codes (`enum lxl_lex_error`), as `Int` constants. -/
def LXL_LERR_OK : Int := 0
def LXL_LERR_GENERIC : Int := -16
def LXL_LERR_EOF : Int := -17
def LXL_LERR_UNCLOSED_COMMENT : Int := -18
def LXL_LERR_UNCLOSED_STRING : Int := -19
def LXL_LERR_INVALID_INTEGER : Int := -20
def LXL_LERR_INVALID_FLOAT : Int := -21

/-- Token magic values (`enum lxl__token_mvs`). -/
def LXL_TOKENS_END : Int := -1
def LXL_TOKEN_UNINIT : Int := -2
def LXL_TOKENS_END_ABNORMAL : Int := -3
def LXL_TOKEN_LINE_ENDING : Int := -4
def LXL_TOKEN_NO_TOKEN : Int := -5

/-- `LXL_WHITESPACE_CHARS_NO_LF`: space, tab, CR, form feed, vertical tab. -/
def LXL_WHITESPACE_CHARS_NO_LF : List Char := [' ', '\t', '\r', '\x0C', '\x0B']

/-- `LXL_WHITESPACE_CHARS`: the above plus line feed. -/
def LXL_WHITESPACE_CHARS : List Char := LXL_WHITESPACE_CHARS_NO_LF ++ ['\n']

/-- `LXL_DIGITS`. -/
def LXL_DIGITS : List Char := ("0123456789").toList

/-- `LXL_BASIC_MIXED_LATIN_CHARS`. -/
def LXL_BASIC_MIXED_LATIN_CHARS : List Char :=
  ("AaBbCcDdEeFfGgHhIiJjKkLlMmNnOoPpQqRrSsTtUuVvWwXxYyZz").toList

/-- The configuration fields of `struct lxl_lexer` (caller-owned, read-only for
the engine).  Hook pointers are omitted (modelled as `NULL`). -/
structure lxl_config where
  line_comment_openers : List (List Char)
  nestable_comment_delims : List lxl_delim_pair
  unnestable_comment_delims : List lxl_delim_pair
  line_string_delims : List lxl_delim_pair
  multiline_string_delims : List lxl_delim_pair
  string_escape_chars : List Char
  line_string_types : List Int
  multiline_string_types : List Int
  digit_separators : List Char
  number_signs : List (List Char)
  integer_prefixes : List (List Char)
  integer_bases : List Int
  integer_suffixes : List (List Char)
  default_int_type : Int
  default_int_base : Int
  float_prefixes : List (List Char)
  float_bases : List Int
  exponent_markers : List (List Char)
  exponent_signs : List (List Char)
  radix_separators : List (List Char)
  float_suffixes : List (List Char)
  default_float_type : Int
  default_float_base : Int
  default_exponent_marker : List Char
  puncts : List (List Char)
  punct_types : List Int
  keywords : List (List Char)
  keyword_types : List Int
  default_word_type : Int
  word_lexing_rule : lxl_word_lexing_rule
  line_ending_type : Int
  emit_line_endings : Bool
  collect_line_endings : Bool
deriving DecidableEq, Repr

/-- The main lexer object (`struct lxl_lexer`).  `src` is the byte range between
the C `start` and `end` pointers; `current` and `token_start` are indices into
it.  `at_end_reads`/`past_end_reads` are ghost instrumentation counters (see the
file header). -/
structure lxl_lexer where
  src : List Char
  current : Nat
  token_start : Nat
  pos : lxl_location
  cfg : lxl_config
  previous_token_type : Int
  error : Int
  status : lxl_lexer_status
  at_end_reads : Nat
  past_end_reads : Nat
deriving DecidableEq, Repr

/-- A byte dereference `*p` at index `i`.  In-range reads return the byte;
reads at `end` return the NUL terminator of a NUL-terminated source and bump
`at_end_reads`; reads strictly past `end` bump `past_end_reads`. -/
def lxl_read_byte (l : lxl_lexer) (i : Nat) : Char × lxl_lexer :=
  if h : i < l.src.length then (l.src.get ⟨i, h⟩, l)
  else if i = l.src.length then
    ('\x00', { l with at_end_reads := l.at_end_reads + 1 })
  else
    ('\x00', { l with past_end_reads := l.past_end_reads + 1 })

/-- `lxl_lexer__head_length`. -/
def lxl_lexer__head_length (l : lxl_lexer) : Int := (l.current : Int)

/-- `lxl_lexer__tail_length`. -/
def lxl_lexer__tail_length (l : lxl_lexer) : Int :=
  (l.src.length : Int) - (l.current : Int)

/-- `lxl_lexer__length_from`. -/
def lxl_lexer__length_from (l : lxl_lexer) (start_point : Nat) : Int :=
  (l.current : Int) - (start_point : Int)

/-- `lxl_lexer__length_to`. -/
def lxl_lexer__length_to (l : lxl_lexer) (end_point : Nat) : Int :=
  (end_point : Int) - (l.current : Int)

/-- `lxl_lexer__is_at_end`. -/
def lxl_lexer__is_at_end (l : lxl_lexer) : Bool :=
  l.src.length ≤ l.current

/-- `lxl_lexer__is_at_start`. -/
def lxl_lexer__is_at_start (l : lxl_lexer) : Bool :=
  l.current = 0

/-- `lxl_lexer__advance`.  Returns the consumed byte, or `'\x00'` at end.
The C code dereferences `current` twice (`*lexer->current` and
`lexer->current[-1]`); the embedding reads the byte once. -/
def lxl_lexer__advance (l : lxl_lexer) : Char × lxl_lexer :=
  if lxl_lexer__is_at_end l then ('\x00', l)
  else
    let (c, l1) := lxl_read_byte l l.current
    let l2 :=
      if c ≠ '\n' then { l1 with pos := { l1.pos with column := l1.pos.column + 1 } }
      else { l1 with pos := { line := l1.pos.line + 1, column := 0 } }
    (c, { l2 with current := l2.current + 1 })

/-- The loop of `lxl_lexer__recalc_column`: scan backwards from index `p`
until the start or a line feed, counting bytes.  The loop condition
`p != lexer->start && *p != '\n'` tests `p != start` first, so index 0 is
never dereferenced. -/
def lxl_recalc_column_loop : lxl_lexer → Nat → Int → Int × lxl_lexer
  | l, 0, col => (col, l)
  | l, p + 1, col =>
    let (c, l1) := lxl_read_byte l (p + 1)
    if c = '\n' then (col, l1)
    else lxl_recalc_column_loop l1 p (col + 1)

/-- `lxl_lexer__recalc_column`. -/
def lxl_lexer__recalc_column (l : lxl_lexer) : lxl_lexer :=
  let (col, l1) := lxl_recalc_column_loop l l.current 0
  { l1 with pos := { l1.pos with column := col } }

/-- The loop of `lxl_lexer__advance_by`: `n` times, stop with `false` at end,
else `++current` and increment `line` if the byte at the *new* `current` is a
line feed (the source counts line transitions one byte late). -/
def lxl_advance_by_loop : lxl_lexer → Nat → Bool × lxl_lexer
  | l, 0 => (true, l)
  | l, n + 1 =>
    if lxl_lexer__is_at_end l then (false, l)
    else
      let l1 := { l with current := l.current + 1 }
      let (c, l2) := lxl_read_byte l1 l1.current
      let l3 :=
        if c = '\n' then { l2 with pos := { l2.pos with line := l2.pos.line + 1 } }
        else l2
      lxl_advance_by_loop l3 n

/-- `lxl_lexer__advance_by`.  On success the column is recalculated; the early
`return false` skips the recalculation. -/
def lxl_lexer__advance_by (l : lxl_lexer) (n : Nat) : Bool × lxl_lexer :=
  match lxl_advance_by_loop l n with
  | (true, l1) => (true, lxl_lexer__recalc_column l1)
  | (false, l1) => (false, l1)

/-- `lxl_lexer__advance_to`. -/
def lxl_lexer__advance_to (l : lxl_lexer) (future : Nat) : Bool × lxl_lexer :=
  lxl_lexer__advance_by l (lxl_lexer__length_to l future).toNat

/-- The loop of `lxl_lexer__rewind_by`. -/
def lxl_rewind_by_loop : lxl_lexer → Nat → Bool × lxl_lexer
  | l, 0 => (true, l)
  | l, n + 1 =>
    if lxl_lexer__is_at_start l then (false, l)
    else
      let l1 := { l with current := l.current - 1 }
      let (c, l2) := lxl_read_byte l1 l1.current
      let l3 :=
        if c = '\n' then { l2 with pos := { l2.pos with line := l2.pos.line - 1 } }
        else l2
      lxl_rewind_by_loop l3 n

/-- `lxl_lexer__rewind_by`. -/
def lxl_lexer__rewind_by (l : lxl_lexer) (n : Nat) : Bool × lxl_lexer :=
  match lxl_rewind_by_loop l n with
  | (true, l1) => (true, lxl_lexer__recalc_column l1)
  | (false, l1) => (false, l1)

/-- `lxl_lexer__rewind_to`. -/
def lxl_lexer__rewind_to (l : lxl_lexer) (prev : Nat) : Bool × lxl_lexer :=
  lxl_lexer__rewind_by l (lxl_lexer__length_from l prev).toNat

/-- `lxl_lexer__unlex`: rewind to the start of the current token. -/
def lxl_lexer__unlex (l : lxl_lexer) : lxl_lexer :=
  (lxl_lexer__rewind_to l l.token_start).2

/-- `lxl_lexer__can_emit_line_ending`. -/
def lxl_lexer__can_emit_line_ending (l : lxl_lexer) : Bool :=
  if !l.cfg.emit_line_endings then false
  else if l.previous_token_type = LXL_TOKEN_LINE_ENDING then !l.cfg.collect_line_endings
  else true

/-- The character-set loop of `lxl_lexer__check_chars`. -/
def lxl_chars_member : List Char → Char → Bool
  | [], _ => false
  | c :: rest, b => if b = c then true else lxl_chars_member rest b

/-- `lxl_lexer__check_chars`: does the current byte belong to the set `chars`?
The C loop dereferences `*lexer->current` once per candidate; with an empty
(or `NULL`) set it performs no dereference at all. -/
def lxl_lexer__check_chars (l : lxl_lexer) (chars : List Char) : Bool × lxl_lexer :=
  match chars with
  | [] => (false, l)
  | _ =>
    let (c, l1) := lxl_read_byte l l.current
    (lxl_chars_member chars c, l1)

/-- `memcmp(lexer->current + off, s, |s|) == 0`, reading the source through
`lxl_read_byte` and stopping at the first mismatch. -/
def lxl_memcmp_at : lxl_lexer → Nat → List Char → Bool × lxl_lexer
  | l, _, [] => (true, l)
  | l, i, c :: rest =>
    let (b, l1) := lxl_read_byte l i
    if b = c then lxl_memcmp_at l1 (i + 1) rest else (false, l1)

/-- `lxl_lexer__check_string`: literal prefix match, guarded by the remaining
length (no byte is read when fewer than `|s|` bytes remain). -/
def lxl_lexer__check_string (l : lxl_lexer) (s : List Char) : Bool × lxl_lexer :=
  if (s.length : Int) > lxl_lexer__tail_length l then (false, l)
  else lxl_memcmp_at l l.current s

/-- `lxl_lexer__check_strings`: first match in a list of strings. -/
def lxl_lexer__check_strings : lxl_lexer → List (List Char) → Bool × lxl_lexer
  | l, [] => (false, l)
  | l, s :: rest =>
    match lxl_lexer__check_string l s with
    | (true, l1) => (true, l1)
    | (false, l1) => lxl_lexer__check_strings l1 rest

/-- `lxl_lexer__check_whitespace` (line feed counts as whitespace exactly when
a line-ending token cannot be emitted here). -/
def lxl_lexer__check_whitespace (l : lxl_lexer) : Bool × lxl_lexer :=
  if !lxl_lexer__can_emit_line_ending l then
    lxl_lexer__check_chars l LXL_WHITESPACE_CHARS
  else
    lxl_lexer__check_chars l LXL_WHITESPACE_CHARS_NO_LF

/-- `lxl_lexer__check_whitespace_with_lf`. -/
def lxl_lexer__check_whitespace_with_lf (l : lxl_lexer) : Bool × lxl_lexer :=
  lxl_lexer__check_chars l LXL_WHITESPACE_CHARS

/-- `lxl_lexer__check_line_comment`. -/
def lxl_lexer__check_line_comment (l : lxl_lexer) : Bool × lxl_lexer :=
  lxl_lexer__check_strings l l.cfg.line_comment_openers

/-- The opener loop shared by `check_nestable_comment`/`check_unnestable_comment`. -/
def lxl_check_delim_openers : lxl_lexer → List lxl_delim_pair → Bool × lxl_lexer
  | l, [] => (false, l)
  | l, d :: rest =>
    match lxl_lexer__check_string l d.opener with
    | (true, l1) => (true, l1)
    | (false, l1) => lxl_check_delim_openers l1 rest

/-- `lxl_lexer__check_nestable_comment`. -/
def lxl_lexer__check_nestable_comment (l : lxl_lexer) : Bool × lxl_lexer :=
  lxl_check_delim_openers l l.cfg.nestable_comment_delims

/-- `lxl_lexer__check_unnestable_comment`. -/
def lxl_lexer__check_unnestable_comment (l : lxl_lexer) : Bool × lxl_lexer :=
  lxl_check_delim_openers l l.cfg.unnestable_comment_delims

/-- `lxl_lexer__check_block_comment`. -/
def lxl_lexer__check_block_comment (l : lxl_lexer) : Bool × lxl_lexer :=
  match lxl_lexer__check_nestable_comment l with
  | (true, l1) => (true, l1)
  | (false, l1) => lxl_lexer__check_unnestable_comment l1

/-- The delimiter-pair loop of `check_string_opener`, returning the index of
the first pair whose opener (as a character set) matches. -/
def lxl_check_string_opener_loop : lxl_lexer → List lxl_delim_pair → Nat → Option Nat × lxl_lexer
  | l, [], _ => (none, l)
  | l, d :: rest, i =>
    match lxl_lexer__check_chars l d.opener with
    | (true, l1) => (some i, l1)
    | (false, l1) => lxl_check_string_opener_loop l1 rest (i + 1)

/-- `lxl_lexer__check_string_opener` (the matching pair is returned by index). -/
def lxl_lexer__check_string_opener (l : lxl_lexer) (string_type : lxl_string_type) :
    Option Nat × lxl_lexer :=
  let string_delims := match string_type with
    | .LXL_STRING_LINE => l.cfg.line_string_delims
    | .LXL_STRING_MULTILINE => l.cfg.multiline_string_delims
  lxl_check_string_opener_loop l string_delims 0

/-- The digit set for a base: the first `base` decimal digits for `base ≤ 10`,
else all ten digits plus the first `2*(base-10)` mixed-case letters. -/
def lxl_digits_for (base : Int) : List Char :=
  let end_digit_index : Int := if base ≤ 10 then base else 10 + 2 * (base - 10)
  (LXL_DIGITS ++ LXL_BASIC_MIXED_LATIN_CHARS).take end_digit_index.toNat

/-- `lxl_lexer__check_digit` (base 0 means disabled and matches nothing). -/
def lxl_lexer__check_digit (l : lxl_lexer) (base : Int) : Bool × lxl_lexer :=
  if base = 0 then (false, l)
  else lxl_lexer__check_chars l (lxl_digits_for base)

/-- `lxl_lexer__check_digit_separator`. -/
def lxl_lexer__check_digit_separator (l : lxl_lexer) : Bool × lxl_lexer :=
  match l.cfg.digit_separators with
  | [] => (false, l)
  | seps => lxl_lexer__check_chars l seps

/-- `lxl_lexer__check_radix_separator`. -/
def lxl_lexer__check_radix_separator (l : lxl_lexer) : Bool × lxl_lexer :=
  lxl_lexer__check_strings l l.cfg.radix_separators

/-- The punct loop of `check_punct`, by index. -/
def lxl_check_punct_loop : lxl_lexer → List (List Char) → Nat → Option Nat × lxl_lexer
  | l, [], _ => (none, l)
  | l, p :: rest, i =>
    match lxl_lexer__check_string l p with
    | (true, l1) => (some i, l1)
    | (false, l1) => lxl_check_punct_loop l1 rest (i + 1)

/-- `lxl_lexer__check_punct`. -/
def lxl_lexer__check_punct (l : lxl_lexer) : Option Nat × lxl_lexer :=
  lxl_check_punct_loop l l.cfg.puncts 0

/-- `lxl_lexer__check_reserved`. -/
def lxl_lexer__check_reserved (l : lxl_lexer) : Bool × lxl_lexer :=
  match lxl_lexer__check_whitespace_with_lf l with
  | (true, l1) => (true, l1)
  | (false, l1) =>
  match lxl_lexer__check_line_comment l1 with
  | (true, l2) => (true, l2)
  | (false, l2) =>
  match lxl_lexer__check_block_comment l2 with
  | (true, l3) => (true, l3)
  | (false, l3) =>
  match lxl_lexer__check_string_opener l3 .LXL_STRING_LINE with
  | (some _, l4) => (true, l4)
  | (none, l4) =>
  match lxl_lexer__check_string_opener l4 .LXL_STRING_MULTILINE with
  | (some _, l5) => (true, l5)
  | (none, l5) =>
  match lxl_lexer__check_punct l5 with
  | (some _, l6) => (true, l6)
  | (none, l6) => (false, l6)

/-- `lxl_lexer__match_chars`. -/
def lxl_lexer__match_chars (l : lxl_lexer) (chars : List Char) : Bool × lxl_lexer :=
  match lxl_lexer__check_chars l chars with
  | (true, l1) => (true, (lxl_lexer__advance l1).2)
  | (false, l1) => (false, l1)

/-- `lxl_lexer__match_string`. -/
def lxl_lexer__match_string (l : lxl_lexer) (s : List Char) : Bool × lxl_lexer :=
  match lxl_lexer__check_string l s with
  | (true, l1) => lxl_lexer__advance_by l1 s.length
  | (false, l1) => (false, l1)

/-- `lxl_lexer__match_strings`. -/
def lxl_lexer__match_strings : lxl_lexer → List (List Char) → Bool × lxl_lexer
  | l, [] => (false, l)
  | l, s :: rest =>
    match lxl_lexer__match_string l s with
    | (true, l1) => (true, l1)
    | (false, l1) => lxl_lexer__match_strings l1 rest

/-- `lxl_lexer__match_digit`. -/
def lxl_lexer__match_digit (l : lxl_lexer) (base : Int) : Bool × lxl_lexer :=
  match lxl_lexer__check_digit l base with
  | (false, l1) => (false, l1)
  | (true, l1) => (true, (lxl_lexer__advance l1).2)

/-- `lxl_lexer__match_digit_separator`. -/
def lxl_lexer__match_digit_separator (l : lxl_lexer) : Bool × lxl_lexer :=
  match lxl_lexer__check_digit_separator l with
  | (false, l1) => (false, l1)
  | (true, l1) => (true, (lxl_lexer__advance l1).2)

/-- `lxl_lexer__match_number_sign`. -/
def lxl_lexer__match_number_sign (l : lxl_lexer) : Bool × lxl_lexer :=
  lxl_lexer__match_strings l l.cfg.number_signs

/-- `lxl_lexer__match_radix_separator`. -/
def lxl_lexer__match_radix_separator (l : lxl_lexer) : Bool × lxl_lexer :=
  lxl_lexer__match_strings l l.cfg.radix_separators

/-- `lxl_lexer__match_exponent_sign`. -/
def lxl_lexer__match_exponent_sign (l : lxl_lexer) : Bool × lxl_lexer :=
  lxl_lexer__match_strings l l.cfg.exponent_signs

/-- The consuming delimiter-pair loop of `match_string_opener`. -/
def lxl_match_string_opener_loop : lxl_lexer → List lxl_delim_pair → Nat → Option Nat × lxl_lexer
  | l, [], _ => (none, l)
  | l, d :: rest, i =>
    match lxl_lexer__match_chars l d.opener with
    | (true, l1) => (some i, l1)
    | (false, l1) => lxl_match_string_opener_loop l1 rest (i + 1)

/-- `lxl_lexer__match_string_opener` (openers are matched as character sets,
consuming a single byte, exactly as the C code's `match_chars` call does). -/
def lxl_lexer__match_string_opener (l : lxl_lexer) (string_type : lxl_string_type) :
    Option Nat × lxl_lexer :=
  let string_delims := match string_type with
    | .LXL_STRING_LINE => l.cfg.line_string_delims
    | .LXL_STRING_MULTILINE => l.cfg.multiline_string_delims
  lxl_match_string_opener_loop l string_delims 0

/-- The prefix loop of `match_int_prefix`/`match_float_prefix`, returning the
index of the first prefix string that matches (and consuming it). -/
def lxl_match_prefix_loop : lxl_lexer → List (List Char) → Nat → Option Nat × lxl_lexer
  | l, [], _ => (none, l)
  | l, p :: rest, i =>
    match lxl_lexer__match_string l p with
    | (true, l1) => (some i, l1)
    | (false, l1) => lxl_match_prefix_loop l1 rest (i + 1)

/-- `lxl_lexer__match_int_prefix` (returns the base, 0 for no match; a leading
number sign is consumed first and left consumed). -/
def lxl_lexer__match_int_prefix' (l : lxl_lexer) : Int × lxl_lexer :=
  let (_, l1) := lxl_lexer__match_number_sign l
  match lxl_match_prefix_loop l1 l1.cfg.integer_prefixes 0 with
  | (some i, l2) => (l2.cfg.integer_bases.getD i 0, l2)
  | (none, l2) =>
    match lxl_lexer__check_digit l2 l2.cfg.default_int_base with
    | (true, l3) => (l3.cfg.default_int_base, l3)
    | (false, l3) => (0, l3)

/-- `lxl_lexer__match_int_suffix`. -/
def lxl_lexer__match_int_suffix (l : lxl_lexer) : Bool × lxl_lexer :=
  lxl_lexer__match_strings l l.cfg.integer_suffixes

/-- `lxl_lexer__match_float_prefix` (returns the base — 0 for no match — and
the exponent marker written through `OUT_exponent_marker`). -/
def lxl_lexer__match_float_prefix' (l : lxl_lexer) : (Int × List Char) × lxl_lexer :=
  let (_, l1) := lxl_lexer__match_number_sign l
  match lxl_match_prefix_loop l1 l1.cfg.float_prefixes 0 with
  | (some i, l2) => ((l2.cfg.float_bases.getD i 0, l2.cfg.exponent_markers.getD i []), l2)
  | (none, l2) =>
    match lxl_lexer__check_digit l2 l2.cfg.default_float_base with
    | (false, l3) => ((0, []), l3)
    | (true, l3) => ((l3.cfg.default_float_base, l3.cfg.default_exponent_marker), l3)

/-- The consuming punct loop of `match_punct`. -/
def lxl_match_punct_loop : lxl_lexer → List (List Char) → Nat → Option Nat × lxl_lexer
  | l, [], _ => (none, l)
  | l, p :: rest, i =>
    match lxl_lexer__match_string l p with
    | (true, l1) => (some i, l1)
    | (false, l1) => lxl_match_punct_loop l1 rest (i + 1)

/-- `lxl_lexer__match_punct`. -/
def lxl_lexer__match_punct (l : lxl_lexer) : Option Nat × lxl_lexer :=
  lxl_match_punct_loop l l.cfg.puncts 0

/-- The canonical fuel supplied to every embedded loop: comfortably more than
any loop of `lxl_lexer_next_token` can iterate for a well-formed configuration. -/
def lxl_fuel (l : lxl_lexer) : Nat := 2 * l.src.length + 8

/-- The loop of `lxl_lexer__skip_line`: advance until a line feed is next
(not consumed) or `advance` fails. -/
def lxl_skip_line_loop : Nat → lxl_lexer → Option Unit × lxl_lexer
  | 0, l => (none, l)
  | f + 1, l =>
    match lxl_lexer__check_chars l ['\n'] with
    | (true, l1) => (some (), l1)
    | (false, l1) =>
      let (c, l2) := lxl_lexer__advance l1
      if c = '\x00' then (some (), l2)
      else lxl_skip_line_loop f l2

/-- `lxl_lexer__skip_line`. -/
def lxl_lexer__skip_line (l : lxl_lexer) : Option Int × lxl_lexer :=
  let line_start := l.current
  match lxl_skip_line_loop (lxl_fuel l) l with
  | (none, l1) => (none, l1)
  | (some _, l1) => (some (lxl_lexer__length_from l1 line_start), l1)

/-- `lxl_lexer__match_line_comment`. -/
def lxl_lexer__match_line_comment (l : lxl_lexer) : Option Bool × lxl_lexer :=
  match lxl_lexer__check_line_comment l with
  | (false, l1) => (some false, l1)
  | (true, l1) =>
    match lxl_lexer__skip_line l1 with
    | (none, l2) => (none, l2)
    | (some _, l2) => (some true, l2)

/-- The loop/recursion of `lxl_lexer__skip_block_comment` (opener already
consumed).  An iteration matches the closer (done), or — when nestable — a
nested opener followed by a recursive skip whose result `length_from(start)`
(the *head length*, as in the source) is tested against 0, or consumes one
byte; `advance` failing sets `LXL_LERR_UNCLOSED_COMMENT` and breaks. -/
def lxl_skip_block_comment_loop :
    Nat → lxl_lexer → List Char → List Char → Bool → Option Unit × lxl_lexer
  | 0, l, _, _, _ => (none, l)
  | f + 1, l, opener, closer, nestable =>
    match lxl_lexer__match_string l closer with
    | (true, l1) => (some (), l1)
    | (false, l1) =>
      if nestable then
        match lxl_lexer__match_string l1 opener with
        | (true, l2) =>
          match lxl_skip_block_comment_loop f l2 opener closer true with
          | (none, l3) => (none, l3)
          | (some _, l3) =>
            if lxl_lexer__head_length l3 ≤ 0 then
              (some (), { l3 with error := LXL_LERR_UNCLOSED_COMMENT })
            else lxl_skip_block_comment_loop f l3 opener closer nestable
        | (false, l2) =>
          let (c, l3) := lxl_lexer__advance l2
          if c = '\x00' then (some (), { l3 with error := LXL_LERR_UNCLOSED_COMMENT })
          else lxl_skip_block_comment_loop f l3 opener closer nestable
      else
        let (c, l2) := lxl_lexer__advance l1
        if c = '\x00' then (some (), { l2 with error := LXL_LERR_UNCLOSED_COMMENT })
        else lxl_skip_block_comment_loop f l2 opener closer nestable

/-- `lxl_lexer__skip_block_comment`; the returned count is
`length_from(lexer->start)`, i.e. the head length, as in the source. -/
def lxl_lexer__skip_block_comment (l : lxl_lexer) (delims : lxl_delim_pair)
    (nestable : Bool) : Option Int × lxl_lexer :=
  match lxl_skip_block_comment_loop (lxl_fuel l) l delims.opener delims.closer nestable with
  | (none, l1) => (none, l1)
  | (some _, l1) => (some (lxl_lexer__head_length l1), l1)

/-- The delimiter loop of `lxl_lexer__match_nestable_comment`. -/
def lxl_match_nestable_loop : lxl_lexer → List lxl_delim_pair → Option Bool × lxl_lexer
  | l, [] => (some false, l)
  | l, d :: rest =>
    match lxl_lexer__match_string l d.opener with
    | (true, l1) =>
      match lxl_lexer__skip_block_comment l1 d true with
      | (none, l2) => (none, l2)
      | (some _, l2) => (some true, l2)
    | (false, l1) => lxl_match_nestable_loop l1 rest

/-- `lxl_lexer__match_nestable_comment`. -/
def lxl_lexer__match_nestable_comment (l : lxl_lexer) : Option Bool × lxl_lexer :=
  lxl_match_nestable_loop l l.cfg.nestable_comment_delims

/-- The delimiter loop of `lxl_lexer__match_unnestable_comment`. -/
def lxl_match_unnestable_loop : lxl_lexer → List lxl_delim_pair → Option Bool × lxl_lexer
  | l, [] => (some false, l)
  | l, d :: rest =>
    match lxl_lexer__match_string l d.opener with
    | (true, l1) =>
      match lxl_lexer__skip_block_comment l1 d false with
      | (none, l2) => (none, l2)
      | (some _, l2) => (some true, l2)
    | (false, l1) => lxl_match_unnestable_loop l1 rest

/-- `lxl_lexer__match_unnestable_comment`. -/
def lxl_lexer__match_unnestable_comment (l : lxl_lexer) : Option Bool × lxl_lexer :=
  lxl_match_unnestable_loop l l.cfg.unnestable_comment_delims

/-- `lxl_lexer__match_block_comment`. -/
def lxl_lexer__match_block_comment (l : lxl_lexer) : Option Bool × lxl_lexer :=
  match lxl_lexer__match_nestable_comment l with
  | (some true, l1) => (some true, l1)
  | (some false, l1) => lxl_lexer__match_unnestable_comment l1
  | (none, l1) => (none, l1)

/-- The loop of `lxl_lexer__skip_whitespace`: consume a whitespace byte, stop
in front of a line feed that must become its own token, or consume a line or
block comment; stop at the first byte that is none of these. -/
def lxl_skip_whitespace_loop : Nat → lxl_lexer → Option Unit × lxl_lexer
  | 0, l => (none, l)
  | f + 1, l =>
    match lxl_lexer__check_whitespace l with
    | (true, l1) =>
      let (c, l2) := lxl_lexer__advance l1
      if c = '\x00' then (some (), l2)
      else lxl_skip_whitespace_loop f l2
    | (false, l1) =>
      match lxl_lexer__check_string l1 ['\n'] with
      | (true, l2) => (some (), l2)
      | (false, l2) =>
        match lxl_lexer__match_line_comment l2 with
        | (none, l3) => (none, l3)
        | (some true, l3) => lxl_skip_whitespace_loop f l3
        | (some false, l3) =>
          match lxl_lexer__match_block_comment l3 with
          | (none, l4) => (none, l4)
          | (some true, l4) => lxl_skip_whitespace_loop f l4
          | (some false, l4) => (some (), l4)

/-- `lxl_lexer__skip_whitespace`. -/
def lxl_lexer__skip_whitespace (l : lxl_lexer) : Option Int × lxl_lexer :=
  let whitespace_start := l.current
  match lxl_skip_whitespace_loop (lxl_fuel l) l with
  | (none, l1) => (none, l1)
  | (some _, l1) => (some (lxl_lexer__length_from l1 whitespace_start), l1)

/-- `lxl_lexer__start_token`. -/
def lxl_lexer__start_token (l : lxl_lexer) : lxl_token × lxl_lexer :=
  let l1 := if l.status = .LXL_LSTS_READY then { l with status := .LXL_LSTS_LEXING } else l
  let l2 := { l1 with token_start := l1.current }
  ({ start := l2.current, end_ := l2.current, loc := l2.pos, token_type := LXL_TOKEN_UNINIT }, l2)

/-- `lxl_lexer__finish_token`. -/
def lxl_lexer__finish_token (l : lxl_lexer) (token : lxl_token) : lxl_token × lxl_lexer :=
  let t1 := { token with end_ := l.current }
  let (t2, l1) :=
    if l.error ≠ 0 then ({ t1 with token_type := l.error }, { l with error := 0 })
    else (t1, l)
  let l2 := { l1 with previous_token_type := t2.token_type }
  let l3 := if l2.status = .LXL_LSTS_LEXING then { l2 with status := .LXL_LSTS_READY } else l2
  (t2, l3)

/-- `lxl_lexer__create_end_token`. -/
def lxl_lexer__create_end_token (l : lxl_lexer) : lxl_token × lxl_lexer :=
  let (t, l1) := lxl_lexer__start_token l
  let (t2, l2) :=
    if l1.status ≠ .LXL_LSTS_FINISHED_ABNORMAL then
      ({ t with token_type := LXL_TOKENS_END }, { l1 with status := .LXL_LSTS_FINISHED })
    else
      ({ t with token_type := LXL_TOKENS_END_ABNORMAL }, l1)
  lxl_lexer__finish_token l2 t2

/-- `lxl_lexer__create_error_token`. -/
def lxl_lexer__create_error_token (l : lxl_lexer) : lxl_token × lxl_lexer :=
  let (t, l1) := lxl_lexer__start_token l
  let l2 := if l1.error = 0 then { l1 with error := LXL_LERR_GENERIC } else l1
  lxl_lexer__finish_token l2 t

/-- The loop of `lxl_lexer__lex_symbolic` (`count` starts at 0). -/
def lxl_lex_symbolic_loop : Nat → lxl_lexer → Nat → Option Nat × lxl_lexer
  | 0, l, _ => (none, l)
  | f + 1, l, count =>
    if lxl_lexer__is_at_end l then (some count, l)
    else
      match lxl_lexer__check_whitespace l with
      | (true, l1) => (some count, l1)
      | (false, l1) =>
        let (_, l2) := lxl_lexer__advance l1
        lxl_lex_symbolic_loop f l2 (count + 1)

/-- `lxl_lexer__lex_symbolic`. -/
def lxl_lexer__lex_symbolic (l : lxl_lexer) : Option Int × lxl_lexer :=
  match lxl_lex_symbolic_loop (lxl_fuel l) l 0 with
  | (none, l1) => (none, l1)
  | (some n, l1) => (some (n : Int), l1)

/-- The loop of `lxl_lexer__lex_word`. -/
def lxl_lex_word_loop : Nat → lxl_lexer → Nat → Option Nat × lxl_lexer
  | 0, l, _ => (none, l)
  | f + 1, l, count =>
    if lxl_lexer__is_at_end l then (some count, l)
    else
      match lxl_lexer__check_reserved l with
      | (true, l1) => (some count, l1)
      | (false, l1) =>
        let (_, l2) := lxl_lexer__advance l1
        lxl_lex_word_loop f l2 (count + 1)

/-- `lxl_lexer__lex_word`. -/
def lxl_lexer__lex_word (l : lxl_lexer) : Option Int × lxl_lexer :=
  match lxl_lex_word_loop (lxl_fuel l) l 0 with
  | (none, l1) => (none, l1)
  | (some n, l1) => (some (n : Int), l1)

/-- The loop of `lxl_lexer__lex_string`: stop after consuming the closer; on a
string escape character, consume it and then the closer if present, and fall
through to the unconditional `advance` of the loop body; a `'\x00'` from
`advance` (end of input, or a NUL byte) — or a line feed in a line string —
sets `LXL_LERR_UNCLOSED_STRING` and stops. -/
def lxl_lex_string_loop :
    Nat → lxl_lexer → List Char → lxl_string_type → Option Unit × lxl_lexer
  | 0, l, _, _ => (none, l)
  | f + 1, l, closer, string_type =>
    match lxl_lexer__match_string l closer with
    | (true, l1) => (some (), l1)
    | (false, l1) =>
      let (esc, l2) := lxl_lexer__match_chars l1 l1.cfg.string_escape_chars
      let l3 := if esc then (lxl_lexer__match_string l2 closer).2 else l2
      let (c, l4) := lxl_lexer__advance l3
      if c = '\x00' ∨ (c = '\n' ∧ string_type = .LXL_STRING_LINE) then
        (some (), { l4 with error := LXL_LERR_UNCLOSED_STRING })
      else lxl_lex_string_loop f l4 closer string_type

/-- `lxl_lexer__lex_string`. -/
def lxl_lexer__lex_string (l : lxl_lexer) (closer : List Char)
    (string_type : lxl_string_type) : Option Int × lxl_lexer :=
  let start := l.current
  match lxl_lex_string_loop (lxl_fuel l) l closer string_type with
  | (none, l1) => (none, l1)
  | (some _, l1) => (some (lxl_lexer__length_from l1 start), l1)

/-- The loop of `lxl_lexer__lex_integer`, counting real digits. -/
def lxl_lex_integer_loop : Nat → lxl_lexer → Int → Nat → Option Nat × lxl_lexer
  | 0, l, _, _ => (none, l)
  | f + 1, l, base, digit_count =>
    match lxl_lexer__match_digit l base with
    | (true, l1) => lxl_lex_integer_loop f l1 base (digit_count + 1)
    | (false, l1) =>
      match lxl_lexer__match_digit_separator l1 with
      | (true, l2) => lxl_lex_integer_loop f l2 base digit_count
      | (false, l2) => (some digit_count, l2)

/-- `lxl_lexer__lex_integer`: consume a run of digits/separators; with zero
real digits, un-lex (rewind to the start of the *token*) and return 0. -/
def lxl_lexer__lex_integer (l : lxl_lexer) (base : Int) : Option Int × lxl_lexer :=
  let start := l.current
  match lxl_lex_integer_loop (lxl_fuel l) l base 0 with
  | (none, l1) => (none, l1)
  | (some digit_count, l1) =>
    if digit_count = 0 then (some 0, lxl_lexer__unlex l1)
    else (some (lxl_lexer__length_from l1 start), l1)

/-- `lxl_lexer__lex_float`: optional integer part, optional fraction after a
radix separator, optional exponent; with zero digits overall, un-lex and
return 0. -/
def lxl_lexer__lex_float (l : lxl_lexer) (base : Int) (exponent_marker : List Char) :
    Option Int × lxl_lexer :=
  let start := l.current
  match lxl_lexer__lex_integer l base with
  | (none, l1) => (none, l1)
  | (some n1, l1) =>
    match lxl_lexer__match_radix_separator l1 with
    | (rs, l2) =>
      match (if rs then lxl_lexer__lex_integer l2 base else (some 0, l2)) with
      | (none, l3) => (none, l3)
      | (some n2, l3) =>
        match lxl_lexer__match_string l3 exponent_marker with
        | (em, l4) =>
          match (if em then
                   let (_, l5) := lxl_lexer__match_exponent_sign l4
                   lxl_lexer__lex_integer l5 base
                 else (some 0, l4)) with
          | (none, l6) => (none, l6)
          | (some n3, l6) =>
            let digit_length := n1 + n2 + n3
            if digit_length ≤ 0 then (some 0, lxl_lexer__unlex l6)
            else (some (lxl_lexer__length_from l6 start), l6)

/-- The keyword loop of `lxl_lexer__get_word_type`: skip keywords whose length
differs from the word's, compare bytes on a length match. -/
def lxl_get_word_type_loop :
    lxl_lexer → Nat → List (List Char) → Nat → Int × lxl_lexer
  | l, _, [], _ => (l.cfg.default_word_type, l)
  | l, word_start, k :: rest, i =>
    if (k.length : Int) ≠ lxl_lexer__length_from l word_start then
      lxl_get_word_type_loop l word_start rest (i + 1)
    else
      match lxl_memcmp_at l word_start k with
      | (true, l1) => (l1.cfg.keyword_types.getD i 0, l1)
      | (false, l1) => lxl_get_word_type_loop l1 word_start rest (i + 1)

/-- `lxl_lexer__get_word_type`. -/
def lxl_lexer__get_word_type (l : lxl_lexer) (word_start : Nat) : Int × lxl_lexer :=
  match l.cfg.keywords with
  | [] => (l.cfg.default_word_type, l)
  | ks => lxl_get_word_type_loop l word_start ks 0

/-- `lxl_lexer_is_finished`. -/
def lxl_lexer_is_finished (l : lxl_lexer) : Bool :=
  l.status = .LXL_LSTS_FINISHED ∨ l.status = .LXL_LSTS_FINISHED_ABNORMAL

/-- `lxl_lexer_reset`: rewind `current` to the start and make the status
`READY`.  (No other field — position, error, previous token type — is touched.) -/
def lxl_lexer_reset (l : lxl_lexer) : lxl_lexer :=
  { l with current := 0, status := .LXL_LSTS_READY }

/-- The `try_lex_float` tail of the dispatch (shared by the float branch and
the int-to-float re-lex `goto`). -/
def lxl_lex_float_branch (l : lxl_lexer) (token : lxl_token) (base : Int)
    (exponent_marker : List Char) : Option lxl_token × lxl_lexer :=
  match lxl_lexer__lex_float l base exponent_marker with
  | (none, l1) => (none, l1)
  | (some n, l1) =>
    let t := { token with token_type :=
                 if n ≠ 0 then l1.cfg.default_float_type else LXL_LERR_INVALID_FLOAT }
    let (t2, l2) := lxl_lexer__finish_token l1 t
    (some t2, l2)

/-- The tail of the integer branch: optionally consume an integer suffix, then
finish the token with the given type. -/
def lxl_finish_int_branch (l : lxl_lexer) (token : lxl_token) (ty : Int) :
    Option lxl_token × lxl_lexer :=
  let (_, l1) := lxl_lexer__match_int_suffix l
  let (t2, l2) := lxl_lexer__finish_token l1 { token with token_type := ty }
  (some t2, l2)

/-- `lxl_lexer_next_token`: the per-token dispatch engine.  `none` means the
corresponding C execution did not terminate within the canonical fuel. -/
def lxl_lexer_next_token (l : lxl_lexer) : Option lxl_token × lxl_lexer :=
  if lxl_lexer_is_finished l then
    let (t, l1) := lxl_lexer__create_end_token l
    (some t, l1)
  else
    match lxl_lexer__skip_whitespace l with
    | (none, l1) => (none, l1)
    | (some _, l1) =>
      if l1.error ≠ 0 then
        let (t, l2) := lxl_lexer__create_error_token l1
        (some t, l2)
      else if lxl_lexer__is_at_end l1 then
        let (t, l2) := lxl_lexer__create_end_token l1
        (some t, l2)
      else
        let (token, l2) := lxl_lexer__start_token l1
        match lxl_lexer__match_chars l2 ['\n'] with
        | (true, l3) =>
          let (t, l4) := lxl_lexer__finish_token l3
            { token with token_type := l3.cfg.line_ending_type }
          (some t, l4)
        | (false, l3) =>
        match lxl_lexer__match_string_opener l3 .LXL_STRING_LINE with
        | (some i, l4) =>
          match lxl_lexer__lex_string l4
              (l4.cfg.line_string_delims.getD i ⟨[], []⟩).closer .LXL_STRING_LINE with
          | (none, l5) => (none, l5)
          | (some _, l5) =>
            let (t, l6) := lxl_lexer__finish_token l5
              { token with token_type := l5.cfg.line_string_types.getD i 0 }
            (some t, l6)
        | (none, l4) =>
        match lxl_lexer__match_string_opener l4 .LXL_STRING_MULTILINE with
        | (some i, l5) =>
          match lxl_lexer__lex_string l5
              (l5.cfg.multiline_string_delims.getD i ⟨[], []⟩).closer .LXL_STRING_MULTILINE with
          | (none, l6) => (none, l6)
          | (some _, l6) =>
            let (t, l7) := lxl_lexer__finish_token l6
              { token with token_type := l6.cfg.multiline_string_types.getD i 0 }
            (some t, l7)
        | (none, l5) =>
        match lxl_lexer__match_int_prefix' l5 with
        | (ibase, l6) =>
          if ibase ≠ 0 then
            match lxl_lexer__lex_integer l6 ibase with
            | (none, l7) => (none, l7)
            | (some n, l7) =>
              if n ≠ 0 then
                match lxl_lexer__check_radix_separator l7 with
                | (rs, l8) =>
                  if rs ∧ l8.cfg.default_float_base ≠ 0 then
                    let l9 := lxl_lexer__unlex l8
                    match lxl_lexer__match_float_prefix' l9 with
                    | ((fbase, marker), l10) =>
                      if fbase ≠ 0 then lxl_lex_float_branch l10 token fbase marker
                      else lxl_finish_int_branch l10 token LXL_LERR_INVALID_INTEGER
                  else lxl_finish_int_branch l8 token l8.cfg.default_int_type
              else lxl_finish_int_branch l7 token LXL_LERR_INVALID_INTEGER
          else
            match lxl_lexer__match_float_prefix' l6 with
            | ((fbase, marker), l7) =>
              if fbase ≠ 0 then lxl_lex_float_branch l7 token fbase marker
              else
                match lxl_lexer__match_punct l7 with
                | (some i, l8) =>
                  let (t, l9) := lxl_lexer__finish_token l8
                    { token with token_type := l8.cfg.punct_types.getD i 0 }
                  (some t, l9)
                | (none, l8) =>
                  match (match l8.cfg.word_lexing_rule with
                         | .LXL_LEX_SYMBOLIC => lxl_lexer__lex_symbolic l8
                         | .LXL_LEX_WORD => lxl_lexer__lex_word l8) with
                  | (none, l9) => (none, l9)
                  | (some _, l9) =>
                    let (wty, l10) := lxl_lexer__get_word_type l9 token.start
                    let (t, l11) := lxl_lexer__finish_token l10
                      { token with token_type := wty }
                    (some t, l11)

/-- The default configuration installed by `lxl_lexer_new`. -/
def lxl_default_config : lxl_config where
  line_comment_openers := []
  nestable_comment_delims := []
  unnestable_comment_delims := []
  line_string_delims := []
  multiline_string_delims := []
  string_escape_chars := []
  line_string_types := []
  multiline_string_types := []
  digit_separators := []
  number_signs := []
  integer_prefixes := []
  integer_bases := []
  integer_suffixes := []
  default_int_type := LXL_LERR_GENERIC
  default_int_base := 0
  float_prefixes := []
  float_bases := []
  exponent_markers := []
  exponent_signs := [['+'], ['-']]
  radix_separators := [['.']]
  float_suffixes := []
  default_float_type := LXL_LERR_GENERIC
  default_float_base := 0
  default_exponent_marker := ['e']
  puncts := []
  punct_types := []
  keywords := []
  keyword_types := []
  default_word_type := LXL_TOKEN_UNINIT
  word_lexing_rule := .LXL_LEX_SYMBOLIC
  line_ending_type := LXL_TOKEN_LINE_ENDING
  emit_line_endings := false
  collect_line_endings := true

/-- `lxl_lexer_new` (the `(start, end)` form; `src` is the byte range between
the two pointers). -/
def lxl_lexer_new (src : List Char) : lxl_lexer where
  src := src
  current := 0
  token_start := 0
  pos := { line := 0, column := 0 }
  cfg := lxl_default_config
  previous_token_type := LXL_TOKEN_NO_TOKEN
  error := LXL_LERR_OK
  status := .LXL_LSTS_READY
  at_end_reads := 0
  past_end_reads := 0

/-- Iterated calls of `lxl_lexer_next_token`: `k = 0` is the first call;
`none` propagates fuel exhaustion. -/
def lxl_iterate_next : lxl_lexer → Nat → Option (lxl_token × lxl_lexer)
  | l, 0 =>
    match lxl_lexer_next_token l with
    | (some t, l1) => some (t, l1)
    | (none, _) => none
  | l, k + 1 =>
    match lxl_lexer_next_token l with
    | (some _, l1) => lxl_iterate_next l1 k
    | (none, _) => none

/-- A string view (`struct lxl_string_view`): the viewed bytes. -/
structure lxl_string_view where
  chars : List Char
deriving DecidableEq, Repr

/-- `memcmp` over two equally long byte runs, as a three-way comparison
(negative/zero/positive like the C function). -/
def lxl_memcmp_list : List Char → List Char → Int
  | [], _ => 0
  | _, [] => 0
  | a :: as_, b :: bs =>
    if a = b then lxl_memcmp_list as_ bs
    else (a.toNat : Int) - (b.toNat : Int)

/-- `lxl_sv_compare`. -/
def lxl_sv_compare (a b : lxl_string_view) : Int :=
  if a.chars.length = b.chars.length then lxl_memcmp_list a.chars b.chars
  else
    let compare_length := min a.chars.length b.chars.length
    let result1 := lxl_memcmp_list (a.chars.take compare_length) (b.chars.take compare_length)
    if result1 = 0 then (if a.chars.length < b.chars.length then -1 else 1)
    else result1

/-- `lxl_sv_equal`. -/
def lxl_sv_equal (a b : lxl_string_view) : Bool :=
  if a.chars.length ≠ b.chars.length then false
  else lxl_memcmp_list a.chars b.chars = 0

/-! ## Concrete inputs used by the claim theorems -/

/-- The three-byte source `"12."` with default integer and float bases 10 and
otherwise default settings (claim C2's configuration; integer/float token types
are additionally set to 1/2 so that they are distinguishable from sentinels). -/
def lexer_12dot : lxl_lexer :=
  let l := lxl_lexer_new (("12.").toList)
  { l with cfg := { l.cfg with default_int_base := 10, default_float_base := 10,
                               default_int_type := 1, default_float_type := 2 } }

/-- The source `"ab\ncd"` with the single punct `"ab"` of token type 1. -/
def lexer_ab_lf_cd : lxl_lexer :=
  let l := lxl_lexer_new (("ab\ncd").toList)
  { l with cfg := { l.cfg with puncts := [['a', 'b']], punct_types := [1] } }

/-- The source `"\na"` with the default configuration. -/
def lexer_lf_a : lxl_lexer := lxl_lexer_new (("\na").toList)

/-- The state of `lexer_lf_a` after its two tokens (the word `"a"` and the END
token) have been consumed. -/
def lexer_lf_a_done : lxl_lexer :=
  (lxl_lexer_next_token (lxl_lexer_next_token lexer_lf_a).2).2

/-- The four-byte source quote–backslash–quote–quote, with the line-string
delimiter pair `("\"", "\"")` of token type 5 and escape character backslash
(claim C6's configuration). -/
def lexer_esc_closer : lxl_lexer :=
  let l := lxl_lexer_new ['"', '\\', '"', '"']
  { l with cfg := { l.cfg with line_string_delims := [⟨['"'], ['"']⟩],
                               line_string_types := [5], string_escape_chars := ['\\'] } }

/-- The source `"\n\n"` with `emit_line_endings` and `collect_line_endings`
both true and `line_ending_type = 7`. -/
def lexer_two_lf : lxl_lexer :=
  let l := lxl_lexer_new ['\n', '\n']
  { l with cfg := { l.cfg with emit_line_endings := true, collect_line_endings := true,
                               line_ending_type := 7 } }

/-- The number of line-feed bytes strictly before index `i` of `src` — the
line number demanded by the location invariant of the specification (§8.5). -/
def lxl_lf_count_before (src : List Char) (i : Nat) : Nat :=
  ((src.take i).filter (fun c => c = '\n')).length

/-! ## C1 — forward progress after an error token -/

/-- C1: the claim fails on the code.  On the source `"12."` with integer and
float bases 10, `lxl_lexer_next_token` returns an error token (its type,
`LXL_LERR_INVALID_FLOAT`, is ≤ `LXL_LERR_GENERIC`) while `current` at return
equals `current` at entry (both 0): the int-to-float re-lex un-lexes the whole
token when the fractional part has no digits, so no forward progress is made
and repeated calls loop on the same empty error token forever. -/
theorem claim_C1_code_bug :
    (lxl_lexer_next_token lexer_12dot).1 =
      some ⟨0, 0, ⟨0, 0⟩, LXL_LERR_INVALID_FLOAT⟩ ∧
    LXL_LERR_INVALID_FLOAT ≤ LXL_LERR_GENERIC ∧
    lexer_12dot.current = 0 ∧
    (lxl_lexer_next_token lexer_12dot).2.current = 0 := by
  constructor
  · rfl
  · exact ⟨by decide, rfl, rfl⟩

/-! ## C2 — lexing `"12."` as a float with an empty fractional part -/

/-- C2: the claim fails on the code.  With default integer and float bases 10,
the source `"12."` does not produce a float token spanning the three bytes
followed by END: the first call returns an *empty* `LXL_LERR_INVALID_FLOAT`
error token at offset 0 (the inner `lex_integer` for the empty fractional part
un-lexes to the start of the whole token, so `lex_float` reports length 0),
and the second call returns the same error token again instead of END. -/
theorem claim_C2_code_bug :
    (lxl_lexer_next_token lexer_12dot).1 =
      some ⟨0, 0, ⟨0, 0⟩, LXL_LERR_INVALID_FLOAT⟩ ∧
    (lxl_lexer_next_token (lxl_lexer_next_token lexer_12dot).2).1 =
      some ⟨0, 0, ⟨0, 0⟩, LXL_LERR_INVALID_FLOAT⟩ := by
  exact ⟨rfl, rfl⟩

/-! ## C3 — the location invariant -/

/-- C3: the claim fails on the code.  On the source `"ab\ncd"` with the punct
`"ab"`, the second returned token (the word `"cd"`, starting at byte 3) carries
`loc.line = 2`, while the number of line-feed bytes strictly before byte 3 is 1:
`advance_by` counts the line transition for the byte *after* the advanced span
and `skip_whitespace` then counts the same line feed again. -/
theorem claim_C3_code_bug :
    (lxl_iterate_next lexer_ab_lf_cd 1).map Prod.fst =
      some ⟨3, 5, ⟨2, 0⟩, LXL_TOKEN_UNINIT⟩ ∧
    lxl_lf_count_before lexer_ab_lf_cd.src 3 = 1 := by
  exact ⟨rfl, rfl⟩

/-! ## C4 — reset followed by re-lexing -/

/-- C4: the claim fails on the code.  `lxl_lexer_reset` rewinds `current` and
resets the status but leaves `pos` untouched, so re-lexing does not reproduce
the original locations: on `"\na"` the first token of a fresh lexer has
location (1, 0), while after lexing to END and resetting, the first token of
the re-lex has location (2, 0). -/
theorem claim_C4_code_bug :
    (lxl_lexer_next_token lexer_lf_a).1.map lxl_token.loc = some ⟨1, 0⟩ ∧
    lexer_lf_a_done.status = .LXL_LSTS_FINISHED ∧
    (lxl_lexer_next_token (lxl_lexer_reset lexer_lf_a_done)).1.map lxl_token.loc =
      some ⟨2, 0⟩ := by
  exact ⟨rfl, rfl, rfl⟩

/-! ## C6 — escaped closer inside a string -/

/-- C6: the claim fails on the code.  With line-string delimiters
`("\"", "\"")` and escape character backslash, the four-byte input
quote–backslash–quote–quote does *not* lex as a clean string token: after
consuming the escape character and the escaped closer, control falls through
to the unconditional `advance` of the loop body (it does not return to the
closer test), which consumes the real closer; the lexer then runs off the end
and returns an `LXL_LERR_UNCLOSED_STRING` error token spanning all four bytes
instead of a token of the configured line-string type 5. -/
theorem claim_C6_code_bug :
    (lxl_lexer_next_token lexer_esc_closer).1 =
      some ⟨0, 4, ⟨0, 0⟩, LXL_LERR_UNCLOSED_STRING⟩ := by
  exact rfl

/-! ## C8 — no two consecutive line-ending tokens (counterexample part) -/

/-- C8: the claim as stated is false.  `can_emit_line_ending` compares
`previous_token_type` against the *constant* `LXL_TOKEN_LINE_ENDING` (−4), not
against the configured `line_ending_type`; with `line_ending_type = 7` and
`emit_line_endings = collect_line_endings = true`, the source `"\n\n"` yields
two consecutive tokens of type 7, i.e. of `line_ending_type`. -/
theorem claim_C8_counterexample :
    lexer_two_lf.cfg.emit_line_endings = true ∧
    lexer_two_lf.cfg.collect_line_endings = true ∧
    lexer_two_lf.cfg.line_ending_type = 7 ∧
    (lxl_iterate_next lexer_two_lf 0).map (fun p => p.1.token_type) = some 7 ∧
    (lxl_iterate_next lexer_two_lf 1).map (fun p => p.1.token_type) = some 7 := by
  exact ⟨rfl, rfl, rfl, rfl, rfl⟩

/-! ## C5 — reads at the end pointer (counterexample part) -/

/-- C5: the claim as stated is false.  On the empty source (where
`current = end` from the outset) `lxl_lexer_next_token` performs a byte
dereference at index `end`: `skip_whitespace`'s first `check_chars` reads
`*current` unconditionally.  The instrumentation counter `at_end_reads`, which
is bumped exactly by dereferences at index = `end`, is 1 after the call, so
the out-of-bounds branch of a total embedding is reachable. -/
theorem claim_C5_counterexample :
    (lxl_lexer_new []).current = (lxl_lexer_new []).src.length ∧
    (lxl_lexer_next_token (lxl_lexer_new [])).2.at_end_reads = 1 := by
  exact ⟨rfl, rfl⟩

/-- The contents of two equally long byte runs agree exactly when `memcmp`
reports 0. -/
theorem lxl_memcmp_list_eq_zero_iff :
    ∀ xs ys : List Char, xs.length = ys.length → (lxl_memcmp_list xs ys = 0 ↔ xs = ys) := by
  intro xs
  induction xs with
  | nil => intro ys h; cases ys <;> simp_all [lxl_memcmp_list]
  | cons a as ih =>
    intro ys h
    cases ys with
    | nil => simp at h
    | cons b bs =>
      simp only [lxl_memcmp_list]
      by_cases hab : a = b
      · subst hab
        simp only [if_pos]
        rw [ih bs (by simpa using h)]
        simp
      · rw [if_neg hab]
        constructor
        · intro hz
          simp only [Char.toNat] at hz
          exact absurd (Char.eq_of_val_eq (UInt32.ext_iff.mpr (by omega))) hab
        · intro hc; exact absurd (by injection hc) hab

/-! ## C10 — `lxl_sv_equal` agrees with `lxl_sv_compare == 0` -/

/-- C10: for all string views `a` and `b`, `lxl_sv_equal a b` returns true if
and only if `lxl_sv_compare a b` returns 0.  When the lengths are equal both
functions reduce to the same `memcmp`; when they differ, `lxl_sv_equal` is
false and `lxl_sv_compare` returns either a nonzero byte difference or ±1. -/
theorem claim_C10_confirmed (a b : lxl_string_view) :
    lxl_sv_equal a b = true ↔ lxl_sv_compare a b = 0 := by
  unfold lxl_sv_equal lxl_sv_compare
  by_cases h : a.chars.length = b.chars.length
  · simp [h]
  · simp [h]
    split
    · split <;> omega
    · assumption

/-- On a `FINISHED` lexer with a clear error slot, `lxl_lexer_next_token`
returns the END token with an empty span at `current` and changes only
`token_start` and `previous_token_type`. -/
theorem lxl_next_token_finished (l : lxl_lexer)
    (h : l.status = .LXL_LSTS_FINISHED) (he : l.error = 0) :
    lxl_lexer_next_token l =
      (some ⟨l.current, l.current, l.pos, LXL_TOKENS_END⟩,
       { l with token_start := l.current, previous_token_type := LXL_TOKENS_END,
                status := .LXL_LSTS_FINISHED }) := by
  unfold lxl_lexer_next_token lxl_lexer_is_finished lxl_lexer__create_end_token
    lxl_lexer__start_token lxl_lexer__finish_token
  simp [h, he]

/-! ## C7 — END tokens forever once FINISHED -/

/-- C7: once the lexer's status is `FINISHED` (with the error slot clear, as
finalisation always leaves it), every subsequent call of
`lxl_lexer_next_token` — the `k`-th for arbitrary `k` — returns a token of
type `LXL_TOKENS_END` whose span is empty and anchored at the unchanged
`current`, and leaves the status `FINISHED`, the cursor in place and the error
slot clear. -/
theorem claim_C7_confirmed (l : lxl_lexer) (k : Nat)
    (h : l.status = .LXL_LSTS_FINISHED) (he : l.error = 0) :
    (lxl_iterate_next l k).map (fun p => (p.1, p.2.status, p.2.current, p.2.error)) =
      some (⟨l.current, l.current, l.pos, LXL_TOKENS_END⟩,
            .LXL_LSTS_FINISHED, l.current, 0) := by
  induction k generalizing l with
  | zero => simp [lxl_iterate_next, lxl_next_token_finished l h he, he]
  | succ n ih =>
    have hstep := lxl_next_token_finished l h he
    simp only [lxl_iterate_next, hstep]
    simpa using ih { l with token_start := l.current,
                            previous_token_type := LXL_TOKENS_END,
                            status := .LXL_LSTS_FINISHED } rfl he

/-- A concrete lexer whose status is `FINISHED`: the empty source after its
first (END) token. -/
def lexer_finished : lxl_lexer := (lxl_lexer_next_token (lxl_lexer_new [])).2

/-- Witness for C7 at the concrete `lexer_finished` and `k = 2`. -/
theorem claim_C7_witness :
    (lxl_iterate_next lexer_finished 2).map
        (fun p => (p.1, p.2.status, p.2.current, p.2.error)) =
      some (⟨lexer_finished.current, lexer_finished.current, lexer_finished.pos,
             LXL_TOKENS_END⟩, .LXL_LSTS_FINISHED, lexer_finished.current, 0) :=
  claim_C7_confirmed lexer_finished 2 rfl rfl

/-! ## Invariant machinery

`lxl_inv` is the cursor invariant (`current` within the view, error slot clear
or holding an error code).  `lxl_same_but_reads` says a state differs from
another at most in the `at_end_reads` ghost counter (pure check functions).
`lxl_steps` says an engine-internal operation moved the cursor within bounds
and touched neither the source, the configuration, the previous token type,
the status nor the strictly-past-end read counter. -/

def lxl_inv (l : lxl_lexer) : Prop :=
  l.current ≤ l.src.length ∧ (l.error = 0 ∨ l.error ≤ LXL_LERR_GENERIC)

def lxl_same_but_reads (l l' : lxl_lexer) : Prop :=
  l'.src = l.src ∧ l'.current = l.current ∧ l'.token_start = l.token_start ∧
  l'.pos = l.pos ∧ l'.cfg = l.cfg ∧ l'.previous_token_type = l.previous_token_type ∧
  l'.error = l.error ∧ l'.status = l.status ∧ l'.past_end_reads = l.past_end_reads

def lxl_steps (l l' : lxl_lexer) : Prop :=
  l'.src = l.src ∧ l'.cfg = l.cfg ∧ l'.previous_token_type = l.previous_token_type ∧
  l'.status = l.status ∧ l'.past_end_reads = l.past_end_reads ∧
  l'.current ≤ l.src.length ∧ (l'.error = 0 ∨ l'.error ≤ LXL_LERR_GENERIC)

theorem lxl_sbr_refl (l : lxl_lexer) : lxl_same_but_reads l l :=
  ⟨rfl, rfl, rfl, rfl, rfl, rfl, rfl, rfl, rfl⟩

theorem lxl_sbr_trans {l l' l'' : lxl_lexer} (h1 : lxl_same_but_reads l l')
    (h2 : lxl_same_but_reads l' l'') : lxl_same_but_reads l l'' := by
  obtain ⟨a1, a2, a3, a4, a5, a6, a7, a8, a9⟩ := h1
  obtain ⟨b1, b2, b3, b4, b5, b6, b7, b8, b9⟩ := h2
  exact ⟨b1.trans a1, b2.trans a2, b3.trans a3, b4.trans a4, b5.trans a5,
         b6.trans a6, b7.trans a7, b8.trans a8, b9.trans a9⟩

theorem lxl_sbr_steps {l l' : lxl_lexer} (h : lxl_inv l) (hs : lxl_same_but_reads l l') :
    lxl_steps l l' := by
  obtain ⟨a1, a2, a3, a4, a5, a6, a7, a8, a9⟩ := hs
  refine ⟨a1, a5, a6, a8, a9, ?_, ?_⟩
  · rw [a2]; exact h.1
  · rw [a7]; exact h.2

theorem lxl_steps_refl {l : lxl_lexer} (h : lxl_inv l) : lxl_steps l l :=
  ⟨rfl, rfl, rfl, rfl, rfl, h.1, h.2⟩

theorem lxl_steps_inv {l l' : lxl_lexer} (h : lxl_steps l l') : lxl_inv l' := by
  refine ⟨?_, h.2.2.2.2.2.2⟩
  rw [h.1]
  exact h.2.2.2.2.2.1

theorem lxl_steps_trans {l l' l'' : lxl_lexer} (h1 : lxl_steps l l')
    (h2 : lxl_steps l' l'') : lxl_steps l l'' := by
  obtain ⟨a1, a2, a3, a4, a5, a6, a7⟩ := h1
  obtain ⟨b1, b2, b3, b4, b5, b6, b7⟩ := h2
  refine ⟨b1.trans a1, b2.trans a2, b3.trans a3, b4.trans a4, b5.trans a5, ?_, b7⟩
  rw [← a1]; exact b6

theorem lxl_steps_sbr {l l' l'' : lxl_lexer} (h1 : lxl_steps l l')
    (h2 : lxl_same_but_reads l' l'') : lxl_steps l l'' :=
  lxl_steps_trans h1 (lxl_sbr_steps (lxl_steps_inv h1) h2)

/-- The byte at the cursor of a NUL-terminated source. -/
def lxl_peek (l : lxl_lexer) : Char := l.src.getD l.current '\x00'

theorem lxl_read_byte_sbr (l : lxl_lexer) (i : Nat) (hi : i ≤ l.src.length) :
    lxl_same_but_reads l (lxl_read_byte l i).2 := by
  unfold lxl_read_byte
  split
  · exact lxl_sbr_refl l
  · rw [if_pos (by omega)]
    exact ⟨rfl, rfl, rfl, rfl, rfl, rfl, rfl, rfl, rfl⟩

theorem lxl_read_byte_fst (l : lxl_lexer) (i : Nat) :
    (lxl_read_byte l i).1 = l.src.getD i '\x00' := by
  unfold lxl_read_byte
  split
  · next h => exact (List.getD_eq_getElem l.src '\x00' h).symm
  · next h =>
    rw [List.getD_eq_default l.src '\x00' (by omega)]
    split <;> rfl

/-! Read-only (`lxl_same_but_reads`) facts for the check primitives. -/

theorem lxl_check_chars_sbr (l : lxl_lexer) (chars : List Char)
    (h : l.current ≤ l.src.length) :
    lxl_same_but_reads l (lxl_lexer__check_chars l chars).2 := by
  unfold lxl_lexer__check_chars
  split
  · exact lxl_sbr_refl l
  · exact lxl_read_byte_sbr l l.current h

theorem lxl_check_chars_fst (l : lxl_lexer) (chars : List Char) :
    (lxl_lexer__check_chars l chars).1 = lxl_chars_member chars (lxl_peek l) := by
  unfold lxl_lexer__check_chars
  split
  · rfl
  · rw [show (lxl_chars_member _ (lxl_read_byte l l.current).1, (lxl_read_byte l l.current).2).1
        = lxl_chars_member _ (lxl_read_byte l l.current).1 from rfl,
      lxl_read_byte_fst]
    rfl

theorem lxl_memcmp_at_sbr :
    ∀ (s : List Char) (l : lxl_lexer) (i : Nat), i + s.length ≤ l.src.length →
      lxl_same_but_reads l (lxl_memcmp_at l i s).2 := by
  intro s
  induction s with
  | nil => intro l i h; exact lxl_sbr_refl l
  | cons c rest ih =>
    intro l i h
    simp only [lxl_memcmp_at]
    have hrb := lxl_read_byte_sbr l i (by simp at h; omega)
    split
    · exact lxl_sbr_trans hrb (ih (lxl_read_byte l i).2 (i + 1)
        (by rw [hrb.1]; simp at h ⊢; omega))
    · exact hrb

theorem lxl_check_string_sbr (l : lxl_lexer) (s : List Char)
    (h : l.current ≤ l.src.length) :
    lxl_same_but_reads l (lxl_lexer__check_string l s).2 := by
  unfold lxl_lexer__check_string
  split
  · exact lxl_sbr_refl l
  · next hg =>
    apply lxl_memcmp_at_sbr
    unfold lxl_lexer__tail_length at hg
    omega

theorem lxl_check_strings_sbr :
    ∀ (ss : List (List Char)) (l : lxl_lexer), l.current ≤ l.src.length →
      lxl_same_but_reads l (lxl_lexer__check_strings l ss).2 := by
  intro ss
  induction ss with
  | nil => intro l h; exact lxl_sbr_refl l
  | cons s rest ih =>
    intro l h
    simp only [lxl_lexer__check_strings]
    have h1 := lxl_check_string_sbr l s h
    split
    · next heq => rw [heq] at h1; exact h1
    · next heq =>
      rw [heq] at h1
      exact lxl_sbr_trans h1 (ih _ (by rw [h1.1, h1.2.1]; exact h))

theorem lxl_check_whitespace_sbr (l : lxl_lexer) (h : l.current ≤ l.src.length) :
    lxl_same_but_reads l (lxl_lexer__check_whitespace l).2 := by
  unfold lxl_lexer__check_whitespace
  split <;> exact lxl_check_chars_sbr l _ h

theorem lxl_check_whitespace_with_lf_sbr (l : lxl_lexer) (h : l.current ≤ l.src.length) :
    lxl_same_but_reads l (lxl_lexer__check_whitespace_with_lf l).2 :=
  lxl_check_chars_sbr l _ h

theorem lxl_check_line_comment_sbr (l : lxl_lexer) (h : l.current ≤ l.src.length) :
    lxl_same_but_reads l (lxl_lexer__check_line_comment l).2 :=
  lxl_check_strings_sbr _ l h

theorem lxl_check_delim_openers_sbr :
    ∀ (ds : List lxl_delim_pair) (l : lxl_lexer), l.current ≤ l.src.length →
      lxl_same_but_reads l (lxl_check_delim_openers l ds).2 := by
  intro ds
  induction ds with
  | nil => intro l h; exact lxl_sbr_refl l
  | cons d rest ih =>
    intro l h
    simp only [lxl_check_delim_openers]
    have h1 := lxl_check_string_sbr l d.opener h
    split
    · next heq => rw [heq] at h1; exact h1
    · next heq =>
      rw [heq] at h1
      exact lxl_sbr_trans h1 (ih _ (by rw [h1.1, h1.2.1]; exact h))

theorem lxl_check_nestable_comment_sbr (l : lxl_lexer) (h : l.current ≤ l.src.length) :
    lxl_same_but_reads l (lxl_lexer__check_nestable_comment l).2 :=
  lxl_check_delim_openers_sbr _ l h

theorem lxl_check_unnestable_comment_sbr (l : lxl_lexer) (h : l.current ≤ l.src.length) :
    lxl_same_but_reads l (lxl_lexer__check_unnestable_comment l).2 :=
  lxl_check_delim_openers_sbr _ l h

theorem lxl_check_block_comment_sbr (l : lxl_lexer) (h : l.current ≤ l.src.length) :
    lxl_same_but_reads l (lxl_lexer__check_block_comment l).2 := by
  unfold lxl_lexer__check_block_comment
  have h1 := lxl_check_nestable_comment_sbr l h
  split
  · next heq => rw [heq] at h1; exact h1
  · next heq =>
    rw [heq] at h1
    exact lxl_sbr_trans h1 (lxl_check_unnestable_comment_sbr _ (by rw [h1.1, h1.2.1]; exact h))

theorem lxl_check_string_opener_loop_sbr :
    ∀ (ds : List lxl_delim_pair) (l : lxl_lexer) (i : Nat), l.current ≤ l.src.length →
      lxl_same_but_reads l (lxl_check_string_opener_loop l ds i).2 := by
  intro ds
  induction ds with
  | nil => intro l i h; exact lxl_sbr_refl l
  | cons d rest ih =>
    intro l i h
    simp only [lxl_check_string_opener_loop]
    have h1 := lxl_check_chars_sbr l d.opener h
    split
    · next heq => rw [heq] at h1; exact h1
    · next heq =>
      rw [heq] at h1
      exact lxl_sbr_trans h1 (ih _ _ (by rw [h1.1, h1.2.1]; exact h))

theorem lxl_check_string_opener_sbr (l : lxl_lexer) (st : lxl_string_type)
    (h : l.current ≤ l.src.length) :
    lxl_same_but_reads l (lxl_lexer__check_string_opener l st).2 := by
  unfold lxl_lexer__check_string_opener
  exact lxl_check_string_opener_loop_sbr _ l 0 h

theorem lxl_check_digit_sbr (l : lxl_lexer) (base : Int) (h : l.current ≤ l.src.length) :
    lxl_same_but_reads l (lxl_lexer__check_digit l base).2 := by
  unfold lxl_lexer__check_digit
  split
  · exact lxl_sbr_refl l
  · exact lxl_check_chars_sbr l _ h

theorem lxl_check_digit_separator_sbr (l : lxl_lexer) (h : l.current ≤ l.src.length) :
    lxl_same_but_reads l (lxl_lexer__check_digit_separator l).2 := by
  unfold lxl_lexer__check_digit_separator
  split
  · exact lxl_sbr_refl l
  · exact lxl_check_chars_sbr l _ h

theorem lxl_check_radix_separator_sbr (l : lxl_lexer) (h : l.current ≤ l.src.length) :
    lxl_same_but_reads l (lxl_lexer__check_radix_separator l).2 :=
  lxl_check_strings_sbr _ l h

theorem lxl_check_punct_loop_sbr :
    ∀ (ps : List (List Char)) (l : lxl_lexer) (i : Nat), l.current ≤ l.src.length →
      lxl_same_but_reads l (lxl_check_punct_loop l ps i).2 := by
  intro ps
  induction ps with
  | nil => intro l i h; exact lxl_sbr_refl l
  | cons p rest ih =>
    intro l i h
    simp only [lxl_check_punct_loop]
    have h1 := lxl_check_string_sbr l p h
    split
    · next heq => rw [heq] at h1; exact h1
    · next heq =>
      rw [heq] at h1
      exact lxl_sbr_trans h1 (ih _ _ (by rw [h1.1, h1.2.1]; exact h))

theorem lxl_check_punct_sbr (l : lxl_lexer) (h : l.current ≤ l.src.length) :
    lxl_same_but_reads l (lxl_lexer__check_punct l).2 :=
  lxl_check_punct_loop_sbr _ l 0 h

theorem lxl_sbr_le {l l' : lxl_lexer} (h : lxl_same_but_reads l l')
    (hc : l.current ≤ l.src.length) : l'.current ≤ l'.src.length := by
  rw [h.1, h.2.1]; exact hc

theorem lxl_check_reserved_sbr (l : lxl_lexer) (h : l.current ≤ l.src.length) :
    lxl_same_but_reads l (lxl_lexer__check_reserved l).2 := by
  unfold lxl_lexer__check_reserved
  have h1 := lxl_check_whitespace_with_lf_sbr l h
  split
  · next l1 heq => rw [heq] at h1; exact h1
  · next l1 heq =>
    rw [heq] at h1
    have h2 := lxl_check_line_comment_sbr l1 (lxl_sbr_le h1 h)
    split
    · next l2 heq2 => rw [heq2] at h2; exact lxl_sbr_trans h1 h2
    · next l2 heq2 =>
      rw [heq2] at h2
      have h12 := lxl_sbr_trans h1 h2
      have h3 := lxl_check_block_comment_sbr l2 (lxl_sbr_le h12 h)
      split
      · next l3 heq3 => rw [heq3] at h3; exact lxl_sbr_trans h12 h3
      · next l3 heq3 =>
        rw [heq3] at h3
        have h13 := lxl_sbr_trans h12 h3
        have h4 := lxl_check_string_opener_sbr l3 .LXL_STRING_LINE (lxl_sbr_le h13 h)
        split
        · next i4 l4 heq4 => rw [heq4] at h4; exact lxl_sbr_trans h13 h4
        · next l4 heq4 =>
          rw [heq4] at h4
          have h14 := lxl_sbr_trans h13 h4
          have h5 := lxl_check_string_opener_sbr l4 .LXL_STRING_MULTILINE (lxl_sbr_le h14 h)
          split
          · next i5 l5 heq5 => rw [heq5] at h5; exact lxl_sbr_trans h14 h5
          · next l5 heq5 =>
            rw [heq5] at h5
            have h15 := lxl_sbr_trans h14 h5
            have h6 := lxl_check_punct_sbr l5 (lxl_sbr_le h15 h)
            split
            · next i6 l6 heq6 => rw [heq6] at h6; exact lxl_sbr_trans h15 h6
            · next l6 heq6 => rw [heq6] at h6; exact lxl_sbr_trans h15 h6

/-! Cursor-movement facts: `advance`, `advance_by`, `rewind_by`, `recalc_column`. -/

theorem lxl_advance_spec (l : lxl_lexer) (h : l.current ≤ l.src.length) :
    (lxl_lexer__is_at_end l = true ∧ lxl_lexer__advance l = ('\x00', l)) ∨
    (l.current < l.src.length ∧ (lxl_lexer__advance l).1 = lxl_peek l ∧
      (lxl_lexer__advance l).2.current = l.current + 1 ∧
      (lxl_lexer__advance l).2.src = l.src ∧ (lxl_lexer__advance l).2.cfg = l.cfg ∧
      (lxl_lexer__advance l).2.token_start = l.token_start ∧
      (lxl_lexer__advance l).2.previous_token_type = l.previous_token_type ∧
      (lxl_lexer__advance l).2.error = l.error ∧ (lxl_lexer__advance l).2.status = l.status ∧
      (lxl_lexer__advance l).2.past_end_reads = l.past_end_reads ∧
      (lxl_lexer__advance l).2.at_end_reads = l.at_end_reads) := by
  by_cases he : lxl_lexer__is_at_end l = true
  · left
    refine ⟨he, ?_⟩
    unfold lxl_lexer__advance
    rw [if_pos he]
  · right
    have hlt : l.current < l.src.length := by
      simp [lxl_lexer__is_at_end] at he; omega
    have hrb : lxl_read_byte l l.current = (l.src.get ⟨l.current, hlt⟩, l) := by
      unfold lxl_read_byte
      rw [dif_pos hlt]
    have hpk : lxl_peek l = l.src.get ⟨l.current, hlt⟩ := by
      unfold lxl_peek
      exact List.getD_eq_getElem l.src '\x00' hlt
    refine ⟨hlt, ?_⟩
    unfold lxl_lexer__advance
    rw [if_neg he, hrb]
    dsimp only
    split <;> simp_all

theorem lxl_advance_steps (l : lxl_lexer) (h : lxl_inv l) :
    lxl_steps l (lxl_lexer__advance l).2 := by
  rcases lxl_advance_spec l h.1 with ⟨_, heq⟩ | ⟨hlt, _, hc, hs, hcf, _, hp, herr, hst, hper, _⟩
  · rw [heq]; exact lxl_steps_refl h
  · exact ⟨hs, hcf, hp, hst, hper, by omega, herr ▸ h.2⟩

theorem lxl_advance_progress (l : lxl_lexer) (h : l.current ≤ l.src.length)
    (hc : (lxl_lexer__advance l).1 ≠ '\x00') :
    l.current < l.src.length ∧ (lxl_lexer__advance l).2.current = l.current + 1 := by
  rcases lxl_advance_spec l h with ⟨_, heq⟩ | ⟨hlt, _, hcur, _⟩
  · rw [heq] at hc; simp at hc
  · exact ⟨hlt, hcur⟩

theorem lxl_recalc_column_loop_sbr :
    ∀ (p : Nat) (l : lxl_lexer) (col : Int), p ≤ l.src.length →
      lxl_same_but_reads l (lxl_recalc_column_loop l p col).2 := by
  intro p
  induction p with
  | zero => intro l col h; exact lxl_sbr_refl l
  | succ n ih =>
    intro l col h
    simp only [lxl_recalc_column_loop]
    have hrb := lxl_read_byte_sbr l (n + 1) h
    split
    · exact hrb
    · exact lxl_sbr_trans hrb (ih _ _ (by rw [hrb.1]; omega))

theorem lxl_recalc_column_effect (l : lxl_lexer) (h : l.current ≤ l.src.length) :
    (lxl_lexer__recalc_column l).src = l.src ∧
    (lxl_lexer__recalc_column l).current = l.current ∧
    (lxl_lexer__recalc_column l).cfg = l.cfg ∧
    (lxl_lexer__recalc_column l).token_start = l.token_start ∧
    (lxl_lexer__recalc_column l).previous_token_type = l.previous_token_type ∧
    (lxl_lexer__recalc_column l).error = l.error ∧
    (lxl_lexer__recalc_column l).status = l.status ∧
    (lxl_lexer__recalc_column l).past_end_reads = l.past_end_reads := by
  have hs := lxl_recalc_column_loop_sbr l.current l 0 h
  unfold lxl_lexer__recalc_column
  rcases hl : lxl_recalc_column_loop l l.current 0 with ⟨col, l1⟩
  rw [hl] at hs
  obtain ⟨a1, a2, a3, a4, a5, a6, a7, a8, a9⟩ := hs
  exact ⟨a1, a2, a5, a3, a6, a7, a8, a9⟩

theorem lxl_advance_by_loop_steps :
    ∀ (n : Nat) (l : lxl_lexer), lxl_inv l → lxl_steps l (lxl_advance_by_loop l n).2 := by
  intro n
  induction n with
  | zero => intro l h; exact lxl_steps_refl h
  | succ m ih =>
    intro l h
    simp only [lxl_advance_by_loop]
    split
    · exact lxl_steps_refl h
    · next he =>
      have hlt : l.current < l.src.length := by
        simp [lxl_lexer__is_at_end] at he; omega
      have hsbr := lxl_read_byte_sbr { l with current := l.current + 1 } (l.current + 1)
        (by simp; omega)
      rcases hrb : lxl_read_byte { l with current := l.current + 1 } (l.current + 1) with ⟨c, l2⟩
      rw [hrb] at hsbr
      obtain ⟨a1, a2, a3, a4, a5, a6, a7, a8, a9⟩ := hsbr
      simp only at a1 a2 a3 a4 a5 a6 a7 a8 a9
      have hstep : lxl_steps l l2 :=
        ⟨a1, a5, a6, a8, a9, by omega, a7 ▸ h.2⟩
      dsimp only
      split
      · exact lxl_steps_trans hstep (ih _ (lxl_steps_inv hstep))
      · exact lxl_steps_trans hstep (ih _ (lxl_steps_inv hstep))

theorem lxl_advance_by_loop_true :
    ∀ (n : Nat) (l : lxl_lexer), lxl_inv l → (lxl_advance_by_loop l n).1 = true →
      (lxl_advance_by_loop l n).2.current = l.current + n := by
  intro n
  induction n with
  | zero => intro l h _; rfl
  | succ m ih =>
    intro l h ht
    simp only [lxl_advance_by_loop] at ht ⊢
    by_cases he : lxl_lexer__is_at_end l = true
    · rw [if_pos he] at ht; simp at ht
    · rw [if_neg he] at ht ⊢
      have hlt : l.current < l.src.length := by
        simp [lxl_lexer__is_at_end] at he
        have := h.1; omega
      have hsbr := lxl_read_byte_sbr { l with current := l.current + 1 } (l.current + 1)
        (by simp; omega)
      rcases hrb : lxl_read_byte { l with current := l.current + 1 } (l.current + 1) with ⟨c, l2⟩
      rw [hrb] at hsbr ht
      obtain ⟨a1, a2, a3, a4, a5, a6, a7, a8, a9⟩ := hsbr
      simp only at a1 a2 a3 a4 a5 a6 a7 a8 a9
      have hlen : l2.src.length = l.src.length := by rw [a1]
      have hinv2 : lxl_inv l2 := ⟨by omega, a7 ▸ h.2⟩
      dsimp only at ht ⊢
      by_cases hc : c = '\n'
      · rw [if_pos hc] at ht ⊢
        have := ih { l2 with pos := { line := l2.pos.line + 1, column := l2.pos.column } }
          ⟨by simpa using hinv2.1, by simpa using hinv2.2⟩ ht
        simp only at this
        rw [this]; omega
      · rw [if_neg hc] at ht ⊢
        rw [ih l2 hinv2 ht]; omega

theorem lxl_advance_by_loop_some :
    ∀ (n : Nat) (l : lxl_lexer), lxl_inv l → l.current + n ≤ l.src.length →
      (lxl_advance_by_loop l n).1 = true := by
  intro n
  induction n with
  | zero => intro l h _; rfl
  | succ m ih =>
    intro l h hn
    simp only [lxl_advance_by_loop]
    by_cases he : lxl_lexer__is_at_end l = true
    · simp [lxl_lexer__is_at_end] at he; omega
    · rw [if_neg he]
      have hlt : l.current < l.src.length := by omega
      have hsbr := lxl_read_byte_sbr { l with current := l.current + 1 } (l.current + 1)
        (by simp; omega)
      rcases hrb : lxl_read_byte { l with current := l.current + 1 } (l.current + 1) with ⟨c, l2⟩
      rw [hrb] at hsbr
      obtain ⟨a1, a2, a3, a4, a5, a6, a7, a8, a9⟩ := hsbr
      simp only at a1 a2 a3 a4 a5 a6 a7 a8 a9
      have hlen : l2.src.length = l.src.length := by rw [a1]
      have hinv2 : lxl_inv l2 := ⟨by omega, a7 ▸ h.2⟩
      dsimp only
      by_cases hc : c = '\n'
      · rw [if_pos hc]
        exact ih { l2 with pos := { line := l2.pos.line + 1, column := l2.pos.column } }
          ⟨by simpa using hinv2.1, by simpa using hinv2.2⟩ (by simp; omega)
      · rw [if_neg hc]
        exact ih l2 hinv2 (by omega)

theorem lxl_advance_by_steps (l : lxl_lexer) (n : Nat) (h : lxl_inv l) :
    lxl_steps l (lxl_lexer__advance_by l n).2 := by
  unfold lxl_lexer__advance_by
  have hst := lxl_advance_by_loop_steps n l h
  rcases hl : lxl_advance_by_loop l n with ⟨b, l1⟩
  rw [hl] at hst
  cases b
  · exact hst
  · dsimp only
    have hre := lxl_recalc_column_effect l1 (lxl_steps_inv hst).1
    refine lxl_steps_trans hst
      ⟨hre.1, hre.2.2.1, hre.2.2.2.2.1, hre.2.2.2.2.2.2.1, hre.2.2.2.2.2.2.2, ?_, ?_⟩
    · rw [hre.2.1]; exact (lxl_steps_inv hst).1
    · rw [hre.2.2.2.2.2.1]; exact (lxl_steps_inv hst).2

theorem lxl_advance_by_true_current (l : lxl_lexer) (n : Nat) (h : lxl_inv l)
    (ht : (lxl_lexer__advance_by l n).1 = true) :
    (lxl_lexer__advance_by l n).2.current = l.current + n ∧
      l.current + n ≤ l.src.length := by
  unfold lxl_lexer__advance_by at ht ⊢
  have hst := lxl_advance_by_loop_steps n l h
  have hcur := lxl_advance_by_loop_true n l h
  rcases hl : lxl_advance_by_loop l n with ⟨b, l1⟩
  rw [hl] at hst hcur ht
  cases b
  · simp at ht
  · dsimp only
    have hre := lxl_recalc_column_effect l1 (lxl_steps_inv hst).1
    have h1 : l1.current = l.current + n := hcur rfl
    refine ⟨by rw [hre.2.1]; exact h1, ?_⟩
    have h2 : l1.current ≤ l.src.length := hst.2.2.2.2.2.1
    omega

theorem lxl_rewind_by_loop_steps :
    ∀ (n : Nat) (l : lxl_lexer), lxl_inv l → lxl_steps l (lxl_rewind_by_loop l n).2 := by
  intro n
  induction n with
  | zero => intro l h; exact lxl_steps_refl h
  | succ m ih =>
    intro l h
    simp only [lxl_rewind_by_loop]
    split
    · exact lxl_steps_refl h
    · next he =>
      have hpos : 0 < l.current := by
        simp [lxl_lexer__is_at_start] at he; omega
      have hcur := h.1
      have hsbr := lxl_read_byte_sbr { l with current := l.current - 1 } (l.current - 1)
        (by simp; omega)
      rcases hrb : lxl_read_byte { l with current := l.current - 1 } (l.current - 1) with ⟨c, l2⟩
      rw [hrb] at hsbr
      obtain ⟨a1, a2, a3, a4, a5, a6, a7, a8, a9⟩ := hsbr
      simp only at a1 a2 a3 a4 a5 a6 a7 a8 a9
      have hlen : l2.src.length = l.src.length := by rw [a1]
      have hstep : lxl_steps l l2 :=
        ⟨a1, a5, a6, a8, a9, by omega, a7 ▸ h.2⟩
      dsimp only
      split
      · exact lxl_steps_trans hstep (ih _ (lxl_steps_inv hstep))
      · exact lxl_steps_trans hstep (ih _ (lxl_steps_inv hstep))

theorem lxl_rewind_by_steps (l : lxl_lexer) (n : Nat) (h : lxl_inv l) :
    lxl_steps l (lxl_lexer__rewind_by l n).2 := by
  unfold lxl_lexer__rewind_by
  have hst := lxl_rewind_by_loop_steps n l h
  rcases hl : lxl_rewind_by_loop l n with ⟨b, l1⟩
  rw [hl] at hst
  cases b
  · exact hst
  · dsimp only
    have hre := lxl_recalc_column_effect l1 (lxl_steps_inv hst).1
    refine lxl_steps_trans hst
      ⟨hre.1, hre.2.2.1, hre.2.2.2.2.1, hre.2.2.2.2.2.2.1, hre.2.2.2.2.2.2.2, ?_, ?_⟩
    · rw [hre.2.1]; exact (lxl_steps_inv hst).1
    · rw [hre.2.2.2.2.2.1]; exact (lxl_steps_inv hst).2

theorem lxl_rewind_to_steps (l : lxl_lexer) (p : Nat) (h : lxl_inv l) :
    lxl_steps l (lxl_lexer__rewind_to l p).2 :=
  lxl_rewind_by_steps l _ h

theorem lxl_unlex_steps (l : lxl_lexer) (h : lxl_inv l) :
    lxl_steps l (lxl_lexer__unlex l) :=
  lxl_rewind_to_steps l l.token_start h

/-! `lxl_steps` facts for the match primitives. -/

theorem lxl_match_chars_steps (l : lxl_lexer) (chars : List Char) (h : lxl_inv l) :
    lxl_steps l (lxl_lexer__match_chars l chars).2 := by
  unfold lxl_lexer__match_chars
  have h1 := lxl_check_chars_sbr l chars h.1
  split
  · next l1 heq =>
    rw [heq] at h1
    have hs1 : lxl_steps l l1 := lxl_sbr_steps h h1
    exact lxl_steps_trans hs1 (lxl_advance_steps l1 (lxl_steps_inv hs1))
  · next l1 heq => rw [heq] at h1; exact lxl_sbr_steps h h1

theorem lxl_match_string_steps (l : lxl_lexer) (s : List Char) (h : lxl_inv l) :
    lxl_steps l (lxl_lexer__match_string l s).2 := by
  unfold lxl_lexer__match_string
  have h1 := lxl_check_string_sbr l s h.1
  split
  · next l1 heq =>
    rw [heq] at h1
    have hs1 : lxl_steps l l1 := lxl_sbr_steps h h1
    exact lxl_steps_trans hs1 (lxl_advance_by_steps l1 s.length (lxl_steps_inv hs1))
  · next l1 heq => rw [heq] at h1; exact lxl_sbr_steps h h1

theorem lxl_match_string_consumes (l : lxl_lexer) (s : List Char) (h : lxl_inv l)
    (ht : (lxl_lexer__match_string l s).1 = true) :
    (lxl_lexer__match_string l s).2.current = l.current + s.length ∧
      l.current + s.length ≤ l.src.length := by
  unfold lxl_lexer__match_string at ht ⊢
  have h1 := lxl_check_string_sbr l s h.1
  split at ht
  · next l1 heq =>
    rw [heq] at h1
    have hs1 : lxl_steps l l1 := lxl_sbr_steps h h1
    have hthis := lxl_advance_by_true_current l1 s.length (lxl_steps_inv hs1) ht
    have hc : l1.current = l.current := h1.2.1
    have hl : l1.src = l.src := h1.1
    rw [hc, hl] at hthis
    exact hthis
  · simp at ht

theorem lxl_match_strings_steps :
    ∀ (ss : List (List Char)) (l : lxl_lexer), lxl_inv l →
      lxl_steps l (lxl_lexer__match_strings l ss).2 := by
  intro ss
  induction ss with
  | nil => intro l h; exact lxl_steps_refl h
  | cons s rest ih =>
    intro l h
    simp only [lxl_lexer__match_strings]
    have h1 := lxl_match_string_steps l s h
    split
    · next l1 heq => rw [heq] at h1; exact h1
    · next l1 heq =>
      rw [heq] at h1
      exact lxl_steps_trans h1 (ih _ (lxl_steps_inv h1))

theorem lxl_match_digit_steps (l : lxl_lexer) (base : Int) (h : lxl_inv l) :
    lxl_steps l (lxl_lexer__match_digit l base).2 := by
  unfold lxl_lexer__match_digit
  have h1 := lxl_check_digit_sbr l base h.1
  split
  · next l1 heq => rw [heq] at h1; exact lxl_sbr_steps h h1
  · next l1 heq =>
    rw [heq] at h1
    have hs1 : lxl_steps l l1 := lxl_sbr_steps h h1
    exact lxl_steps_trans hs1 (lxl_advance_steps l1 (lxl_steps_inv hs1))

theorem lxl_match_digit_separator_steps (l : lxl_lexer) (h : lxl_inv l) :
    lxl_steps l (lxl_lexer__match_digit_separator l).2 := by
  unfold lxl_lexer__match_digit_separator
  have h1 := lxl_check_digit_separator_sbr l h.1
  split
  · next l1 heq => rw [heq] at h1; exact lxl_sbr_steps h h1
  · next l1 heq =>
    rw [heq] at h1
    have hs1 : lxl_steps l l1 := lxl_sbr_steps h h1
    exact lxl_steps_trans hs1 (lxl_advance_steps l1 (lxl_steps_inv hs1))

theorem lxl_match_number_sign_steps (l : lxl_lexer) (h : lxl_inv l) :
    lxl_steps l (lxl_lexer__match_number_sign l).2 :=
  lxl_match_strings_steps _ l h

theorem lxl_match_radix_separator_steps (l : lxl_lexer) (h : lxl_inv l) :
    lxl_steps l (lxl_lexer__match_radix_separator l).2 :=
  lxl_match_strings_steps _ l h

theorem lxl_match_exponent_sign_steps (l : lxl_lexer) (h : lxl_inv l) :
    lxl_steps l (lxl_lexer__match_exponent_sign l).2 :=
  lxl_match_strings_steps _ l h

theorem lxl_match_int_suffix_steps (l : lxl_lexer) (h : lxl_inv l) :
    lxl_steps l (lxl_lexer__match_int_suffix l).2 :=
  lxl_match_strings_steps _ l h

theorem lxl_match_string_opener_loop_steps :
    ∀ (ds : List lxl_delim_pair) (l : lxl_lexer) (i : Nat), lxl_inv l →
      lxl_steps l (lxl_match_string_opener_loop l ds i).2 := by
  intro ds
  induction ds with
  | nil => intro l i h; exact lxl_steps_refl h
  | cons d rest ih =>
    intro l i h
    simp only [lxl_match_string_opener_loop]
    have h1 := lxl_match_chars_steps l d.opener h
    split
    · next l1 heq => rw [heq] at h1; exact h1
    · next l1 heq =>
      rw [heq] at h1
      exact lxl_steps_trans h1 (ih _ _ (lxl_steps_inv h1))

theorem lxl_match_string_opener_steps (l : lxl_lexer) (st : lxl_string_type) (h : lxl_inv l) :
    lxl_steps l (lxl_lexer__match_string_opener l st).2 := by
  unfold lxl_lexer__match_string_opener
  exact lxl_match_string_opener_loop_steps _ l 0 h

theorem lxl_match_prefix_loop_steps :
    ∀ (ps : List (List Char)) (l : lxl_lexer) (i : Nat), lxl_inv l →
      lxl_steps l (lxl_match_prefix_loop l ps i).2 := by
  intro ps
  induction ps with
  | nil => intro l i h; exact lxl_steps_refl h
  | cons p rest ih =>
    intro l i h
    simp only [lxl_match_prefix_loop]
    have h1 := lxl_match_string_steps l p h
    split
    · next l1 heq => rw [heq] at h1; exact h1
    · next l1 heq =>
      rw [heq] at h1
      exact lxl_steps_trans h1 (ih _ _ (lxl_steps_inv h1))

theorem lxl_match_punct_loop_steps :
    ∀ (ps : List (List Char)) (l : lxl_lexer) (i : Nat), lxl_inv l →
      lxl_steps l (lxl_match_punct_loop l ps i).2 := by
  intro ps
  induction ps with
  | nil => intro l i h; exact lxl_steps_refl h
  | cons p rest ih =>
    intro l i h
    simp only [lxl_match_punct_loop]
    have h1 := lxl_match_string_steps l p h
    split
    · next l1 heq => rw [heq] at h1; exact h1
    · next l1 heq =>
      rw [heq] at h1
      exact lxl_steps_trans h1 (ih _ _ (lxl_steps_inv h1))

theorem lxl_match_punct_steps (l : lxl_lexer) (h : lxl_inv l) :
    lxl_steps l (lxl_lexer__match_punct l).2 :=
  lxl_match_punct_loop_steps _ l 0 h

theorem lxl_match_int_prefix_steps (l : lxl_lexer) (h : lxl_inv l) :
    lxl_steps l (lxl_lexer__match_int_prefix' l).2 := by
  unfold lxl_lexer__match_int_prefix'
  have h1 := lxl_match_number_sign_steps l h
  rcases hs : lxl_lexer__match_number_sign l with ⟨b1, l1⟩
  rw [hs] at h1
  dsimp only
  have h2 := lxl_match_prefix_loop_steps l1.cfg.integer_prefixes l1 0 (lxl_steps_inv h1)
  split
  · next l2 heq => rw [heq] at h2; exact lxl_steps_trans h1 h2
  · next l2 heq =>
    rw [heq] at h2
    have h12 := lxl_steps_trans h1 h2
    have h3 := lxl_check_digit_sbr l2 l2.cfg.default_int_base (lxl_steps_inv h12).1
    split
    · next l3 heq3 => rw [heq3] at h3; exact lxl_steps_sbr h12 h3
    · next l3 heq3 => rw [heq3] at h3; exact lxl_steps_sbr h12 h3

theorem lxl_match_float_prefix_steps (l : lxl_lexer) (h : lxl_inv l) :
    lxl_steps l (lxl_lexer__match_float_prefix' l).2 := by
  unfold lxl_lexer__match_float_prefix'
  have h1 := lxl_match_number_sign_steps l h
  rcases hs : lxl_lexer__match_number_sign l with ⟨b1, l1⟩
  rw [hs] at h1
  dsimp only
  have h2 := lxl_match_prefix_loop_steps l1.cfg.float_prefixes l1 0 (lxl_steps_inv h1)
  split
  · next l2 heq => rw [heq] at h2; exact lxl_steps_trans h1 h2
  · next l2 heq =>
    rw [heq] at h2
    have h12 := lxl_steps_trans h1 h2
    have h3 := lxl_check_digit_sbr l2 l2.cfg.default_float_base (lxl_steps_inv h12).1
    split
    · next l3 heq3 => rw [heq3] at h3; exact lxl_steps_sbr h12 h3
    · next l3 heq3 => rw [heq3] at h3; exact lxl_steps_sbr h12 h3

/-! `lxl_steps` facts for the fuelled loops and their wrappers. -/

theorem lxl_skip_line_loop_steps :
    ∀ (f : Nat) (l : lxl_lexer), lxl_inv l → lxl_steps l (lxl_skip_line_loop f l).2 := by
  intro f
  induction f with
  | zero => intro l h; exact lxl_steps_refl h
  | succ g ih =>
    intro l h
    simp only [lxl_skip_line_loop]
    have h1 := lxl_check_chars_sbr l ['\n'] h.1
    split
    · next l1 heq => rw [heq] at h1; exact lxl_sbr_steps h h1
    · next l1 heq =>
      rw [heq] at h1
      have hs1 : lxl_steps l l1 := lxl_sbr_steps h h1
      have h2 := lxl_advance_steps l1 (lxl_steps_inv hs1)
      rcases ha : lxl_lexer__advance l1 with ⟨c, l2⟩
      rw [ha] at h2
      have hs2 := lxl_steps_trans hs1 h2
      dsimp only
      split
      · exact hs2
      · exact lxl_steps_trans hs2 (ih _ (lxl_steps_inv hs2))

theorem lxl_skip_line_steps (l : lxl_lexer) (h : lxl_inv l) :
    lxl_steps l (lxl_lexer__skip_line l).2 := by
  unfold lxl_lexer__skip_line
  have h1 := lxl_skip_line_loop_steps (lxl_fuel l) l h
  rcases hs : lxl_skip_line_loop (lxl_fuel l) l with ⟨r, l1⟩
  rw [hs] at h1
  cases r <;> exact h1

theorem lxl_match_line_comment_steps (l : lxl_lexer) (h : lxl_inv l) :
    lxl_steps l (lxl_lexer__match_line_comment l).2 := by
  unfold lxl_lexer__match_line_comment
  have h1 := lxl_check_line_comment_sbr l h.1
  split
  · next l1 heq => rw [heq] at h1; exact lxl_sbr_steps h h1
  · next l1 heq =>
    rw [heq] at h1
    have hs1 : lxl_steps l l1 := lxl_sbr_steps h h1
    have h2 := lxl_skip_line_steps l1 (lxl_steps_inv hs1)
    split
    · next l2 heq2 => rw [heq2] at h2; exact lxl_steps_trans hs1 h2
    · next r l2 heq2 => rw [heq2] at h2; exact lxl_steps_trans hs1 h2

theorem lxl_skip_block_comment_loop_steps :
    ∀ (f : Nat) (l : lxl_lexer) (op cl : List Char) (nb : Bool), lxl_inv l →
      lxl_steps l (lxl_skip_block_comment_loop f l op cl nb).2 := by
  intro f
  induction f with
  | zero => intro l op cl nb h; exact lxl_steps_refl h
  | succ g ih =>
    intro l op cl nb h
    simp only [lxl_skip_block_comment_loop]
    have h1 := lxl_match_string_steps l cl h
    split
    · next l1 heq => rw [heq] at h1; exact h1
    · next l1 heq =>
      rw [heq] at h1
      split
      · -- nestable branch
        have h2 := lxl_match_string_steps l1 op (lxl_steps_inv h1)
        split
        · next l2 heq2 =>
          rw [heq2] at h2
          have h12 := lxl_steps_trans h1 h2
          have h3 := ih l2 op cl true (lxl_steps_inv h12)
          split
          · next l3 heq3 => rw [heq3] at h3; exact lxl_steps_trans h12 h3
          · next l3 heq3 =>
            rw [heq3] at h3
            have h13 := lxl_steps_trans h12 h3
            split
            · exact ⟨h13.1, h13.2.1, h13.2.2.1, h13.2.2.2.1, h13.2.2.2.2.1,
                h13.2.2.2.2.2.1, Or.inr (by norm_num [LXL_LERR_UNCLOSED_COMMENT, LXL_LERR_GENERIC])⟩
            · exact lxl_steps_trans h13 (ih _ _ _ _ (lxl_steps_inv h13))
        · next l2 heq2 =>
          rw [heq2] at h2
          have h12 := lxl_steps_trans h1 h2
          have h3 := lxl_advance_steps l2 (lxl_steps_inv h12)
          rcases ha : lxl_lexer__advance l2 with ⟨c, l3⟩
          rw [ha] at h3
          have h13 := lxl_steps_trans h12 h3
          dsimp only
          split
          · exact ⟨h13.1, h13.2.1, h13.2.2.1, h13.2.2.2.1, h13.2.2.2.2.1,
              h13.2.2.2.2.2.1, Or.inr (by norm_num [LXL_LERR_UNCLOSED_COMMENT, LXL_LERR_GENERIC])⟩
          · exact lxl_steps_trans h13 (ih _ _ _ _ (lxl_steps_inv h13))
      · -- unnestable branch
        have h3 := lxl_advance_steps l1 (lxl_steps_inv h1)
        rcases ha : lxl_lexer__advance l1 with ⟨c, l3⟩
        rw [ha] at h3
        have h13 := lxl_steps_trans h1 h3
        dsimp only
        split
        · exact ⟨h13.1, h13.2.1, h13.2.2.1, h13.2.2.2.1, h13.2.2.2.2.1,
            h13.2.2.2.2.2.1, Or.inr (by norm_num [LXL_LERR_UNCLOSED_COMMENT, LXL_LERR_GENERIC])⟩
        · exact lxl_steps_trans h13 (ih _ _ _ _ (lxl_steps_inv h13))

theorem lxl_skip_block_comment_steps (l : lxl_lexer) (d : lxl_delim_pair) (nb : Bool)
    (h : lxl_inv l) : lxl_steps l (lxl_lexer__skip_block_comment l d nb).2 := by
  unfold lxl_lexer__skip_block_comment
  have h1 := lxl_skip_block_comment_loop_steps (lxl_fuel l) l d.opener d.closer nb h
  rcases hs : lxl_skip_block_comment_loop (lxl_fuel l) l d.opener d.closer nb with ⟨r, l1⟩
  rw [hs] at h1
  cases r <;> exact h1

theorem lxl_match_nestable_loop_steps :
    ∀ (ds : List lxl_delim_pair) (l : lxl_lexer), lxl_inv l →
      lxl_steps l (lxl_match_nestable_loop l ds).2 := by
  intro ds
  induction ds with
  | nil => intro l h; exact lxl_steps_refl h
  | cons d rest ih =>
    intro l h
    simp only [lxl_match_nestable_loop]
    have h1 := lxl_match_string_steps l d.opener h
    split
    · next l1 heq =>
      rw [heq] at h1
      have h2 := lxl_skip_block_comment_steps l1 d true (lxl_steps_inv h1)
      split
      · next l2 heq2 => rw [heq2] at h2; exact lxl_steps_trans h1 h2
      · next r l2 heq2 => rw [heq2] at h2; exact lxl_steps_trans h1 h2
    · next l1 heq =>
      rw [heq] at h1
      exact lxl_steps_trans h1 (ih _ (lxl_steps_inv h1))

theorem lxl_match_unnestable_loop_steps :
    ∀ (ds : List lxl_delim_pair) (l : lxl_lexer), lxl_inv l →
      lxl_steps l (lxl_match_unnestable_loop l ds).2 := by
  intro ds
  induction ds with
  | nil => intro l h; exact lxl_steps_refl h
  | cons d rest ih =>
    intro l h
    simp only [lxl_match_unnestable_loop]
    have h1 := lxl_match_string_steps l d.opener h
    split
    · next l1 heq =>
      rw [heq] at h1
      have h2 := lxl_skip_block_comment_steps l1 d false (lxl_steps_inv h1)
      split
      · next l2 heq2 => rw [heq2] at h2; exact lxl_steps_trans h1 h2
      · next r l2 heq2 => rw [heq2] at h2; exact lxl_steps_trans h1 h2
    · next l1 heq =>
      rw [heq] at h1
      exact lxl_steps_trans h1 (ih _ (lxl_steps_inv h1))

theorem lxl_match_nestable_comment_steps (l : lxl_lexer) (h : lxl_inv l) :
    lxl_steps l (lxl_lexer__match_nestable_comment l).2 :=
  lxl_match_nestable_loop_steps _ l h

theorem lxl_match_unnestable_comment_steps (l : lxl_lexer) (h : lxl_inv l) :
    lxl_steps l (lxl_lexer__match_unnestable_comment l).2 :=
  lxl_match_unnestable_loop_steps _ l h

theorem lxl_match_block_comment_steps (l : lxl_lexer) (h : lxl_inv l) :
    lxl_steps l (lxl_lexer__match_block_comment l).2 := by
  unfold lxl_lexer__match_block_comment
  have h1 := lxl_match_nestable_comment_steps l h
  split
  · next l1 heq => rw [heq] at h1; exact h1
  · next l1 heq =>
    rw [heq] at h1
    exact lxl_steps_trans h1 (lxl_match_unnestable_comment_steps _ (lxl_steps_inv h1))
  · next l1 heq => rw [heq] at h1; exact h1

theorem lxl_skip_whitespace_loop_steps :
    ∀ (f : Nat) (l : lxl_lexer), lxl_inv l →
      lxl_steps l (lxl_skip_whitespace_loop f l).2 := by
  intro f
  induction f with
  | zero => intro l h; exact lxl_steps_refl h
  | succ g ih =>
    intro l h
    simp only [lxl_skip_whitespace_loop]
    have h1 := lxl_check_whitespace_sbr l h.1
    split
    · next l1 heq =>
      rw [heq] at h1
      have hs1 : lxl_steps l l1 := lxl_sbr_steps h h1
      have h2 := lxl_advance_steps l1 (lxl_steps_inv hs1)
      rcases ha : lxl_lexer__advance l1 with ⟨c, l2⟩
      rw [ha] at h2
      have hs2 := lxl_steps_trans hs1 h2
      dsimp only
      split
      · exact hs2
      · exact lxl_steps_trans hs2 (ih _ (lxl_steps_inv hs2))
    · next l1 heq =>
      rw [heq] at h1
      have hs1 : lxl_steps l l1 := lxl_sbr_steps h h1
      have h2 := lxl_check_string_sbr l1 ['\n'] (lxl_steps_inv hs1).1
      split
      · next l2 heq2 => rw [heq2] at h2; exact lxl_steps_sbr hs1 h2
      · next l2 heq2 =>
        rw [heq2] at h2
        have hs2 := lxl_steps_sbr hs1 h2
        have h3 := lxl_match_line_comment_steps l2 (lxl_steps_inv hs2)
        split
        · next l3 heq3 => rw [heq3] at h3; exact lxl_steps_trans hs2 h3
        · next l3 heq3 =>
          rw [heq3] at h3
          have hs3 := lxl_steps_trans hs2 h3
          exact lxl_steps_trans hs3 (ih _ (lxl_steps_inv hs3))
        · next l3 heq3 =>
          rw [heq3] at h3
          have hs3 := lxl_steps_trans hs2 h3
          have h4 := lxl_match_block_comment_steps l3 (lxl_steps_inv hs3)
          split
          · next l4 heq4 => rw [heq4] at h4; exact lxl_steps_trans hs3 h4
          · next l4 heq4 =>
            rw [heq4] at h4
            have hs4 := lxl_steps_trans hs3 h4
            exact lxl_steps_trans hs4 (ih _ (lxl_steps_inv hs4))
          · next l4 heq4 => rw [heq4] at h4; exact lxl_steps_trans hs3 h4

theorem lxl_skip_whitespace_steps (l : lxl_lexer) (h : lxl_inv l) :
    lxl_steps l (lxl_lexer__skip_whitespace l).2 := by
  unfold lxl_lexer__skip_whitespace
  have h1 := lxl_skip_whitespace_loop_steps (lxl_fuel l) l h
  rcases hs : lxl_skip_whitespace_loop (lxl_fuel l) l with ⟨r, l1⟩
  rw [hs] at h1
  cases r <;> exact h1

theorem lxl_lex_symbolic_loop_steps :
    ∀ (f : Nat) (l : lxl_lexer) (n : Nat), lxl_inv l →
      lxl_steps l (lxl_lex_symbolic_loop f l n).2 := by
  intro f
  induction f with
  | zero => intro l n h; exact lxl_steps_refl h
  | succ g ih =>
    intro l n h
    simp only [lxl_lex_symbolic_loop]
    split
    · exact lxl_steps_refl h
    · have h1 := lxl_check_whitespace_sbr l h.1
      split
      · next l1 heq => rw [heq] at h1; exact lxl_sbr_steps h h1
      · next l1 heq =>
        rw [heq] at h1
        have hs1 : lxl_steps l l1 := lxl_sbr_steps h h1
        have h2 := lxl_advance_steps l1 (lxl_steps_inv hs1)
        have hs2 := lxl_steps_trans hs1 h2
        exact lxl_steps_trans hs2 (ih _ _ (lxl_steps_inv hs2))

theorem lxl_lex_symbolic_steps (l : lxl_lexer) (h : lxl_inv l) :
    lxl_steps l (lxl_lexer__lex_symbolic l).2 := by
  unfold lxl_lexer__lex_symbolic
  have h1 := lxl_lex_symbolic_loop_steps (lxl_fuel l) l 0 h
  rcases hs : lxl_lex_symbolic_loop (lxl_fuel l) l 0 with ⟨r, l1⟩
  rw [hs] at h1
  cases r <;> exact h1

theorem lxl_lex_word_loop_steps :
    ∀ (f : Nat) (l : lxl_lexer) (n : Nat), lxl_inv l →
      lxl_steps l (lxl_lex_word_loop f l n).2 := by
  intro f
  induction f with
  | zero => intro l n h; exact lxl_steps_refl h
  | succ g ih =>
    intro l n h
    simp only [lxl_lex_word_loop]
    split
    · exact lxl_steps_refl h
    · have h1 := lxl_check_reserved_sbr l h.1
      split
      · next l1 heq => rw [heq] at h1; exact lxl_sbr_steps h h1
      · next l1 heq =>
        rw [heq] at h1
        have hs1 : lxl_steps l l1 := lxl_sbr_steps h h1
        have h2 := lxl_advance_steps l1 (lxl_steps_inv hs1)
        have hs2 := lxl_steps_trans hs1 h2
        exact lxl_steps_trans hs2 (ih _ _ (lxl_steps_inv hs2))

theorem lxl_lex_word_steps (l : lxl_lexer) (h : lxl_inv l) :
    lxl_steps l (lxl_lexer__lex_word l).2 := by
  unfold lxl_lexer__lex_word
  have h1 := lxl_lex_word_loop_steps (lxl_fuel l) l 0 h
  rcases hs : lxl_lex_word_loop (lxl_fuel l) l 0 with ⟨r, l1⟩
  rw [hs] at h1
  cases r <;> exact h1

theorem lxl_lex_string_loop_steps :
    ∀ (f : Nat) (l : lxl_lexer) (closer : List Char) (st : lxl_string_type), lxl_inv l →
      lxl_steps l (lxl_lex_string_loop f l closer st).2 := by
  intro f
  induction f with
  | zero => intro l closer st h; exact lxl_steps_refl h
  | succ g ih =>
    intro l closer st h
    simp only [lxl_lex_string_loop]
    have h1 := lxl_match_string_steps l closer h
    split
    · next l1 heq => rw [heq] at h1; exact h1
    · next l1 heq =>
      rw [heq] at h1
      have h2 := lxl_match_chars_steps l1 l1.cfg.string_escape_chars (lxl_steps_inv h1)
      rcases hm : lxl_lexer__match_chars l1 l1.cfg.string_escape_chars with ⟨esc, l2⟩
      rw [hm] at h2
      have h12 := lxl_steps_trans h1 h2
      dsimp only
      have h3 : lxl_steps l (if esc then (lxl_lexer__match_string l2 closer).2 else l2) := by
        cases esc
        · simpa using h12
        · simp only [if_pos]
          exact lxl_steps_trans h12 (lxl_match_string_steps l2 closer (lxl_steps_inv h12))
      have h4 := lxl_advance_steps _ (lxl_steps_inv h3)
      rcases ha : lxl_lexer__advance (if esc then (lxl_lexer__match_string l2 closer).2 else l2)
        with ⟨c, l4⟩
      rw [ha] at h4
      have hs4 := lxl_steps_trans h3 h4
      split
      · exact ⟨hs4.1, hs4.2.1, hs4.2.2.1, hs4.2.2.2.1, hs4.2.2.2.2.1, hs4.2.2.2.2.2.1,
          Or.inr (by norm_num [LXL_LERR_UNCLOSED_STRING, LXL_LERR_GENERIC])⟩
      · exact lxl_steps_trans hs4 (ih _ _ _ (lxl_steps_inv hs4))

theorem lxl_lex_string_steps (l : lxl_lexer) (closer : List Char) (st : lxl_string_type)
    (h : lxl_inv l) : lxl_steps l (lxl_lexer__lex_string l closer st).2 := by
  unfold lxl_lexer__lex_string
  have h1 := lxl_lex_string_loop_steps (lxl_fuel l) l closer st h
  rcases hs : lxl_lex_string_loop (lxl_fuel l) l closer st with ⟨r, l1⟩
  rw [hs] at h1
  cases r <;> exact h1

theorem lxl_lex_integer_loop_steps :
    ∀ (f : Nat) (l : lxl_lexer) (base : Int) (n : Nat), lxl_inv l →
      lxl_steps l (lxl_lex_integer_loop f l base n).2 := by
  intro f
  induction f with
  | zero => intro l base n h; exact lxl_steps_refl h
  | succ g ih =>
    intro l base n h
    simp only [lxl_lex_integer_loop]
    have h1 := lxl_match_digit_steps l base h
    split
    · next l1 heq =>
      rw [heq] at h1
      exact lxl_steps_trans h1 (ih _ _ _ (lxl_steps_inv h1))
    · next l1 heq =>
      rw [heq] at h1
      have h2 := lxl_match_digit_separator_steps l1 (lxl_steps_inv h1)
      split
      · next l2 heq2 =>
        rw [heq2] at h2
        have h12 := lxl_steps_trans h1 h2
        exact lxl_steps_trans h12 (ih _ _ _ (lxl_steps_inv h12))
      · next l2 heq2 => rw [heq2] at h2; exact lxl_steps_trans h1 h2

theorem lxl_lex_integer_steps (l : lxl_lexer) (base : Int) (h : lxl_inv l) :
    lxl_steps l (lxl_lexer__lex_integer l base).2 := by
  unfold lxl_lexer__lex_integer
  have h1 := lxl_lex_integer_loop_steps (lxl_fuel l) l base 0 h
  rcases hs : lxl_lex_integer_loop (lxl_fuel l) l base 0 with ⟨r, l1⟩
  rw [hs] at h1
  cases r with
  | none => exact h1
  | some n =>
    dsimp only
    split
    · exact lxl_steps_trans h1 (lxl_unlex_steps _ (lxl_steps_inv h1))
    · exact h1

theorem lxl_lex_float_steps (l : lxl_lexer) (base : Int) (em : List Char) (h : lxl_inv l) :
    lxl_steps l (lxl_lexer__lex_float l base em).2 := by
  unfold lxl_lexer__lex_float
  have h1 := lxl_lex_integer_steps l base h
  split
  · next l1 heq => rw [heq] at h1; exact h1
  · next n1 l1 heq =>
    rw [heq] at h1
    have h2 := lxl_match_radix_separator_steps l1 (lxl_steps_inv h1)
    rcases hm : lxl_lexer__match_radix_separator l1 with ⟨rs, l2⟩
    rw [hm] at h2
    have h12 := lxl_steps_trans h1 h2
    dsimp only
    have h3 : lxl_steps l (if rs then lxl_lexer__lex_integer l2 base else (some 0, l2)).2 := by
      cases rs
      · simpa using h12
      · simp only [if_pos]
        exact lxl_steps_trans h12 (lxl_lex_integer_steps l2 base (lxl_steps_inv h12))
    split
    · next l3 heq3 => rw [heq3] at h3; exact h3
    · next n2 l3 heq3 =>
      rw [heq3] at h3
      have h4 := lxl_match_string_steps l3 em (lxl_steps_inv h3)
      rcases hm4 : lxl_lexer__match_string l3 em with ⟨emb, l4⟩
      rw [hm4] at h4
      have hs4 := lxl_steps_trans h3 h4
      dsimp only
      have h5 : lxl_steps l (if emb then
          (let (x, l5) := lxl_lexer__match_exponent_sign l4
           lxl_lexer__lex_integer l5 base)
        else (some 0, l4)).2 := by
        cases emb
        · simpa using hs4
        · simp only [if_pos]
          have h6 := lxl_match_exponent_sign_steps l4 (lxl_steps_inv hs4)
          rcases hm6 : lxl_lexer__match_exponent_sign l4 with ⟨sg, l5⟩
          rw [hm6] at h6
          have hs6 := lxl_steps_trans hs4 h6
          dsimp only
          exact lxl_steps_trans hs6 (lxl_lex_integer_steps l5 base (lxl_steps_inv hs6))
      split
      · next l6 heq6 => rw [heq6] at h5; exact h5
      · next n3 l6 heq6 =>
        rw [heq6] at h5
        split
        · exact lxl_steps_trans h5 (lxl_unlex_steps _ (lxl_steps_inv h5))
        · exact h5

theorem lxl_get_word_type_loop_sbr :
    ∀ (ks : List (List Char)) (l : lxl_lexer) (ws i : Nat), l.current ≤ l.src.length →
      lxl_same_but_reads l (lxl_get_word_type_loop l ws ks i).2 := by
  intro ks
  induction ks with
  | nil => intro l ws i h; exact lxl_sbr_refl l
  | cons k rest ih =>
    intro l ws i h
    simp only [lxl_get_word_type_loop]
    split
    · exact ih l ws (i + 1) h
    · next hlen =>
      have hb : ws + k.length ≤ l.src.length := by
        unfold lxl_lexer__length_from at hlen
        omega
      have h1 := lxl_memcmp_at_sbr k l ws hb
      split
      · next l1 heq => rw [heq] at h1; exact h1
      · next l1 heq =>
        rw [heq] at h1
        exact lxl_sbr_trans h1 (ih _ _ _ (lxl_sbr_le h1 h))

theorem lxl_get_word_type_sbr (l : lxl_lexer) (ws : Nat) (h : l.current ≤ l.src.length) :
    lxl_same_but_reads l (lxl_lexer__get_word_type l ws).2 := by
  unfold lxl_lexer__get_word_type
  split
  · exact lxl_sbr_refl l
  · exact lxl_get_word_type_loop_sbr _ l ws 0 h

/-! Effects of token creation and finalisation, and the per-call preservation
relation `lxl_outer` used to chain whole `next_token` calls. -/

def lxl_outer (l l' : lxl_lexer) : Prop :=
  l'.src = l.src ∧ l'.cfg = l.cfg ∧ l'.past_end_reads = l.past_end_reads ∧ lxl_inv l'

theorem lxl_outer_trans {l l' l'' : lxl_lexer} (h1 : lxl_outer l l')
    (h2 : lxl_outer l' l'') : lxl_outer l l'' :=
  ⟨h2.1.trans h1.1, h2.2.1.trans h1.2.1, h2.2.2.1.trans h1.2.2.1, h2.2.2.2⟩

theorem lxl_steps_outer {l l' : lxl_lexer} (h : lxl_steps l l') : lxl_outer l l' :=
  ⟨h.1, h.2.1, h.2.2.2.2.1, lxl_steps_inv h⟩

theorem lxl_start_token_effect (l : lxl_lexer) :
    (lxl_lexer__start_token l).1 = ⟨l.current, l.current, l.pos, LXL_TOKEN_UNINIT⟩ ∧
    (lxl_lexer__start_token l).2.src = l.src ∧
    (lxl_lexer__start_token l).2.current = l.current ∧
    (lxl_lexer__start_token l).2.cfg = l.cfg ∧
    (lxl_lexer__start_token l).2.pos = l.pos ∧
    (lxl_lexer__start_token l).2.error = l.error ∧
    (lxl_lexer__start_token l).2.previous_token_type = l.previous_token_type ∧
    (lxl_lexer__start_token l).2.past_end_reads = l.past_end_reads ∧
    (lxl_lexer__start_token l).2.token_start = l.current ∧
    ((lxl_lexer__start_token l).2.status = l.status ∨
      (l.status = .LXL_LSTS_READY ∧ (lxl_lexer__start_token l).2.status = .LXL_LSTS_LEXING)) := by
  unfold lxl_lexer__start_token
  split
  · next hs => exact ⟨rfl, rfl, rfl, rfl, rfl, rfl, rfl, rfl, rfl, Or.inr ⟨hs, rfl⟩⟩
  · exact ⟨rfl, rfl, rfl, rfl, rfl, rfl, rfl, rfl, rfl, Or.inl rfl⟩

theorem lxl_finish_token_effect (l : lxl_lexer) (tok : lxl_token) :
    (lxl_lexer__finish_token l tok).2.src = l.src ∧
    (lxl_lexer__finish_token l tok).2.current = l.current ∧
    (lxl_lexer__finish_token l tok).2.cfg = l.cfg ∧
    (lxl_lexer__finish_token l tok).2.pos = l.pos ∧
    (lxl_lexer__finish_token l tok).2.token_start = l.token_start ∧
    (lxl_lexer__finish_token l tok).2.past_end_reads = l.past_end_reads ∧
    (lxl_lexer__finish_token l tok).2.error = 0 ∧
    (lxl_lexer__finish_token l tok).1.token_type =
      (if l.error ≠ 0 then l.error else tok.token_type) ∧
    (lxl_lexer__finish_token l tok).1.start = tok.start ∧
    (lxl_lexer__finish_token l tok).1.end_ = l.current ∧
    (lxl_lexer__finish_token l tok).1.loc = tok.loc ∧
    (lxl_lexer__finish_token l tok).2.previous_token_type =
      (lxl_lexer__finish_token l tok).1.token_type := by
  unfold lxl_lexer__finish_token
  by_cases he : l.error ≠ 0
  · rw [if_pos he]
    dsimp only
    rw [if_pos he]
    split <;> exact ⟨rfl, rfl, rfl, rfl, rfl, rfl, rfl, rfl, rfl, rfl, rfl, rfl⟩
  · rw [if_neg he]
    dsimp only
    rw [if_neg he]
    push_neg at he
    split <;> exact ⟨rfl, rfl, rfl, rfl, rfl, rfl, he, rfl, rfl, rfl, rfl, rfl⟩

theorem lxl_finish_token_outer (l : lxl_lexer) (tok : lxl_token) (h : lxl_inv l) :
    lxl_outer l (lxl_lexer__finish_token l tok).2 := by
  have he := lxl_finish_token_effect l tok
  exact ⟨he.1, he.2.2.1, he.2.2.2.2.2.1,
    by rw [he.2.1, he.1]; exact h.1, Or.inl he.2.2.2.2.2.2.1⟩

theorem lxl_finish_token_type_prev (l : lxl_lexer) (tok : lxl_token) :
    (lxl_lexer__finish_token l tok).2.previous_token_type =
      (lxl_lexer__finish_token l tok).1.token_type :=
  (lxl_finish_token_effect l tok).2.2.2.2.2.2.2.2.2.2.2

theorem lxl_create_end_token_effect (l : lxl_lexer) (h : lxl_inv l) :
    lxl_outer l (lxl_lexer__create_end_token l).2 ∧
    ((lxl_lexer__create_end_token l).1.token_type = LXL_TOKENS_END ∨
     (lxl_lexer__create_end_token l).1.token_type = LXL_TOKENS_END_ABNORMAL ∨
     (lxl_lexer__create_end_token l).1.token_type ≤ LXL_LERR_GENERIC) ∧
    (lxl_lexer__create_end_token l).2.previous_token_type =
      (lxl_lexer__create_end_token l).1.token_type := by
  unfold lxl_lexer__create_end_token
  have hst := lxl_start_token_effect l
  rcases hs : lxl_lexer__start_token l with ⟨t, l1⟩
  rw [hs] at hst
  dsimp only
  obtain ⟨ht, b1, b2, b3, b4, b5, b6, b7, b8, b9⟩ := hst
  have hinv1 : lxl_inv l1 := ⟨by rw [b1, b2]; exact h.1, b5 ▸ h.2⟩
  split
  · -- not abnormal: END token, status := FINISHED
    have hfe := lxl_finish_token_effect { l1 with status := .LXL_LSTS_FINISHED }
      { t with token_type := LXL_TOKENS_END }
    have hinv2 : lxl_inv { l1 with status := .LXL_LSTS_FINISHED } := hinv1
    have hout := lxl_finish_token_outer { l1 with status := .LXL_LSTS_FINISHED }
      { t with token_type := LXL_TOKENS_END } hinv2
    refine ⟨@lxl_outer_trans l { l1 with status := .LXL_LSTS_FINISHED } _
      ⟨b1, b3, b7, hinv2⟩ hout, ?_, hfe.2.2.2.2.2.2.2.2.2.2.2⟩
    rw [hfe.2.2.2.2.2.2.2.1]
    split
    · next herr =>
      right; right
      have herr' : l1.error ≠ 0 := herr
      rcases hinv1.2 with h0 | hle
      · exact absurd h0 herr'
      · exact hle
    · left; rfl
  · -- abnormal: END_ABNORMAL token
    have hfe := lxl_finish_token_effect l1 { t with token_type := LXL_TOKENS_END_ABNORMAL }
    have hout := lxl_finish_token_outer l1 { t with token_type := LXL_TOKENS_END_ABNORMAL } hinv1
    refine ⟨@lxl_outer_trans l l1 _ ⟨b1, b3, b7, hinv1⟩ hout, ?_,
      hfe.2.2.2.2.2.2.2.2.2.2.2⟩
    rw [hfe.2.2.2.2.2.2.2.1]
    split
    · next herr =>
      right; right
      have herr' : l1.error ≠ 0 := herr
      rcases hinv1.2 with h0 | hle
      · exact absurd h0 herr'
      · exact hle
    · right; left; rfl

theorem lxl_create_error_token_effect (l : lxl_lexer) (h : lxl_inv l) :
    lxl_outer l (lxl_lexer__create_error_token l).2 ∧
    (lxl_lexer__create_error_token l).1.token_type ≤ LXL_LERR_GENERIC ∧
    (lxl_lexer__create_error_token l).2.previous_token_type =
      (lxl_lexer__create_error_token l).1.token_type := by
  unfold lxl_lexer__create_error_token
  have hst := lxl_start_token_effect l
  rcases hs : lxl_lexer__start_token l with ⟨t, l1⟩
  rw [hs] at hst
  dsimp only
  obtain ⟨ht, b1, b2, b3, b4, b5, b6, b7, b8, b9⟩ := hst
  have hinv1 : lxl_inv l1 := ⟨by rw [b1, b2]; exact h.1, b5 ▸ h.2⟩
  split
  · -- error was clear: set GENERIC
    next herr =>
    have hinv2 : lxl_inv { l1 with error := LXL_LERR_GENERIC } :=
      ⟨hinv1.1, Or.inr (by norm_num)⟩
    have hfe := lxl_finish_token_effect { l1 with error := LXL_LERR_GENERIC } t
    have hout := lxl_finish_token_outer { l1 with error := LXL_LERR_GENERIC } t hinv2
    refine ⟨@lxl_outer_trans l { l1 with error := LXL_LERR_GENERIC } _
      ⟨b1, b3, b7, hinv2⟩ hout, ?_, hfe.2.2.2.2.2.2.2.2.2.2.2⟩
    rw [hfe.2.2.2.2.2.2.2.1]
    norm_num [LXL_LERR_GENERIC]
  · next herr =>
    have hfe := lxl_finish_token_effect l1 t
    have hout := lxl_finish_token_outer l1 t hinv1
    refine ⟨@lxl_outer_trans l l1 _ ⟨b1, b3, b7, hinv1⟩ hout, ?_,
      hfe.2.2.2.2.2.2.2.2.2.2.2⟩
    rw [hfe.2.2.2.2.2.2.2.1]
    rw [if_pos (by simpa [b5] using herr)]
    rcases hinv1.2 with h0 | hle
    · exact absurd h0 (by simpa [b5] using herr)
    · exact hle

theorem lxl_lex_float_branch_outer (l : lxl_lexer) (tok : lxl_token) (base : Int)
    (em : List Char) (h : lxl_inv l) :
    lxl_outer l (lxl_lex_float_branch l tok base em).2 ∧
    ∀ t, (lxl_lex_float_branch l tok base em).1 = some t →
      (lxl_lex_float_branch l tok base em).2.previous_token_type = t.token_type := by
  unfold lxl_lex_float_branch
  have h1 := lxl_lex_float_steps l base em h
  split
  · next l1 heq =>
    rw [heq] at h1
    exact ⟨lxl_steps_outer h1, by intro t ht; simp at ht⟩
  · next n l1 heq =>
    rw [heq] at h1
    dsimp only
    have hfo := lxl_finish_token_outer l1
      { tok with token_type := if n ≠ 0 then l1.cfg.default_float_type else LXL_LERR_INVALID_FLOAT }
      (lxl_steps_inv h1)
    have hfp := lxl_finish_token_type_prev l1
      { tok with token_type := if n ≠ 0 then l1.cfg.default_float_type else LXL_LERR_INVALID_FLOAT }
    rcases hf : lxl_lexer__finish_token l1
      { tok with token_type := if n ≠ 0 then l1.cfg.default_float_type else LXL_LERR_INVALID_FLOAT }
      with ⟨t2, l2⟩
    rw [hf] at hfo hfp
    refine ⟨lxl_outer_trans (lxl_steps_outer h1) hfo, ?_⟩
    intro t ht
    simp only [Option.some.injEq] at ht
    subst ht
    exact hfp

theorem lxl_finish_int_branch_outer (l : lxl_lexer) (tok : lxl_token) (ty : Int)
    (h : lxl_inv l) :
    lxl_outer l (lxl_finish_int_branch l tok ty).2 ∧
    ∀ t, (lxl_finish_int_branch l tok ty).1 = some t →
      (lxl_finish_int_branch l tok ty).2.previous_token_type = t.token_type := by
  unfold lxl_finish_int_branch
  have h1 := lxl_match_int_suffix_steps l h
  rcases hm : lxl_lexer__match_int_suffix l with ⟨b, l1⟩
  rw [hm] at h1
  dsimp only
  have hfo := lxl_finish_token_outer l1 { tok with token_type := ty } (lxl_steps_inv h1)
  have hfp := lxl_finish_token_type_prev l1 { tok with token_type := ty }
  rcases hf : lxl_lexer__finish_token l1 { tok with token_type := ty } with ⟨t2, l2⟩
  rw [hf] at hfo hfp
  refine ⟨lxl_outer_trans (lxl_steps_outer h1) hfo, ?_⟩
  intro t ht
  simp only [Option.some.injEq] at ht
  subst ht
  exact hfp

/-- One `lxl_lexer_next_token` call preserves the source, the configuration and
the strictly-past-end read counter, re-establishes the cursor invariant, and
records the returned token's type as `previous_token_type`. -/
theorem lxl_next_token_outer_prev (l : lxl_lexer) (h : lxl_inv l) :
    lxl_outer l (lxl_lexer_next_token l).2 ∧
    ∀ t, (lxl_lexer_next_token l).1 = some t →
      (lxl_lexer_next_token l).2.previous_token_type = t.token_type := by
  unfold lxl_lexer_next_token
  split
  · -- finished
    have hce := lxl_create_end_token_effect l h
    rcases hc : lxl_lexer__create_end_token l with ⟨t, l1⟩
    rw [hc] at hce
    exact ⟨hce.1, by intro t2 ht; simp only [Option.some.injEq] at ht; subst ht; exact hce.2.2⟩
  · have hsw := lxl_skip_whitespace_steps l h
    split
    · next l1 heq =>
      rw [heq] at hsw
      exact ⟨lxl_steps_outer hsw, by intro t ht; simp at ht⟩
    · next r l1 heq =>
      rw [heq] at hsw
      have hinv1 := lxl_steps_inv hsw
      split
      · -- error token
        have hce := lxl_create_error_token_effect l1 hinv1
        rcases hc : lxl_lexer__create_error_token l1 with ⟨t, l2⟩
        rw [hc] at hce
        exact ⟨lxl_outer_trans (lxl_steps_outer hsw) hce.1,
          by intro t2 ht; simp only [Option.some.injEq] at ht; subst ht; exact hce.2.2⟩
      · split
        · -- at end
          have hce := lxl_create_end_token_effect l1 hinv1
          rcases hc : lxl_lexer__create_end_token l1 with ⟨t, l2⟩
          rw [hc] at hce
          exact ⟨lxl_outer_trans (lxl_steps_outer hsw) hce.1,
            by intro t2 ht; simp only [Option.some.injEq] at ht; subst ht; exact hce.2.2⟩
        · -- dispatch
          have hst := lxl_start_token_effect l1
          rcases hs : lxl_lexer__start_token l1 with ⟨tok, l2⟩
          rw [hs] at hst
          obtain ⟨htok, b1, b2, b3, b4, b5, b6, b7, b8, b9⟩ := hst
          dsimp only
          have hinv2 : lxl_inv l2 := ⟨by rw [b1, b2]; exact hinv1.1, b5 ▸ hinv1.2⟩
          have hout2 : lxl_outer l l2 :=
            lxl_outer_trans (lxl_steps_outer hsw) ⟨b1, b3, b7, hinv2⟩
          have hmc := lxl_match_chars_steps l2 ['\n'] hinv2
          split
          · -- line ending token
            next l3 heq3 =>
            rw [heq3] at hmc
            have hout3 := lxl_outer_trans hout2 (lxl_steps_outer hmc)
            have hfo := lxl_finish_token_outer l3
              { tok with token_type := l3.cfg.line_ending_type } (lxl_steps_inv hmc)
            have hfp := lxl_finish_token_type_prev l3
              { tok with token_type := l3.cfg.line_ending_type }
            rcases hf : lxl_lexer__finish_token l3 { tok with token_type := l3.cfg.line_ending_type }
              with ⟨t2, l4⟩
            rw [hf] at hfo hfp
            exact ⟨lxl_outer_trans hout3 hfo,
              by intro t ht; simp only [Option.some.injEq] at ht; subst ht; exact hfp⟩
          · next l3 heq3 =>
            rw [heq3] at hmc
            have hinv3 := lxl_steps_inv hmc
            have hout3 := lxl_outer_trans hout2 (lxl_steps_outer hmc)
            have hso := lxl_match_string_opener_steps l3 .LXL_STRING_LINE hinv3
            split
            · -- line string
              next i l4 heq4 =>
              rw [heq4] at hso
              have hinv4 := lxl_steps_inv hso
              have hout4 := lxl_outer_trans hout3 (lxl_steps_outer hso)
              have hls := lxl_lex_string_steps l4
                (l4.cfg.line_string_delims.getD i ⟨[], []⟩).closer .LXL_STRING_LINE hinv4
              split
              · next l5 heq5 =>
                rw [heq5] at hls
                exact ⟨lxl_outer_trans hout4 (lxl_steps_outer hls),
                  by intro t ht; simp at ht⟩
              · next n l5 heq5 =>
                rw [heq5] at hls
                have hout5 := lxl_outer_trans hout4 (lxl_steps_outer hls)
                have hfo := lxl_finish_token_outer l5
                  { tok with token_type := l5.cfg.line_string_types.getD i 0 }
                  (lxl_steps_inv hls)
                have hfp := lxl_finish_token_type_prev l5
                  { tok with token_type := l5.cfg.line_string_types.getD i 0 }
                rcases hf : lxl_lexer__finish_token l5
                  { tok with token_type := l5.cfg.line_string_types.getD i 0 } with ⟨t2, l6⟩
                rw [hf] at hfo hfp
                exact ⟨lxl_outer_trans hout5 hfo,
                  by intro t ht; simp only [Option.some.injEq] at ht; subst ht; exact hfp⟩
            · next l4 heq4 =>
              rw [heq4] at hso
              have hinv4 := lxl_steps_inv hso
              have hout4 := lxl_outer_trans hout3 (lxl_steps_outer hso)
              have hso2 := lxl_match_string_opener_steps l4 .LXL_STRING_MULTILINE hinv4
              split
              · -- multiline string
                next i l5 heq5 =>
                rw [heq5] at hso2
                have hinv5 := lxl_steps_inv hso2
                have hout5 := lxl_outer_trans hout4 (lxl_steps_outer hso2)
                have hls := lxl_lex_string_steps l5
                  (l5.cfg.multiline_string_delims.getD i ⟨[], []⟩).closer .LXL_STRING_MULTILINE hinv5
                split
                · next l6 heq6 =>
                  rw [heq6] at hls
                  exact ⟨lxl_outer_trans hout5 (lxl_steps_outer hls),
                    by intro t ht; simp at ht⟩
                · next n l6 heq6 =>
                  rw [heq6] at hls
                  have hout6 := lxl_outer_trans hout5 (lxl_steps_outer hls)
                  have hfo := lxl_finish_token_outer l6
                    { tok with token_type := l6.cfg.multiline_string_types.getD i 0 }
                    (lxl_steps_inv hls)
                  have hfp := lxl_finish_token_type_prev l6
                    { tok with token_type := l6.cfg.multiline_string_types.getD i 0 }
                  rcases hf : lxl_lexer__finish_token l6
                    { tok with token_type := l6.cfg.multiline_string_types.getD i 0 } with ⟨t2, l7⟩
                  rw [hf] at hfo hfp
                  exact ⟨lxl_outer_trans hout6 hfo,
                    by intro t ht; simp only [Option.some.injEq] at ht; subst ht; exact hfp⟩
              · next l5 heq5 =>
                rw [heq5] at hso2
                have hinv5 := lxl_steps_inv hso2
                have hout5 := lxl_outer_trans hout4 (lxl_steps_outer hso2)
                have hip := lxl_match_int_prefix_steps l5 hinv5
                rcases hi : lxl_lexer__match_int_prefix' l5 with ⟨ibase, l6⟩
                rw [hi] at hip
                have hinv6 := lxl_steps_inv hip
                have hout6 := lxl_outer_trans hout5 (lxl_steps_outer hip)
                dsimp only
                split
                · -- integer branch
                  have hli := lxl_lex_integer_steps l6 ibase hinv6
                  split
                  · next l7 heq7 =>
                    rw [heq7] at hli
                    exact ⟨lxl_outer_trans hout6 (lxl_steps_outer hli),
                      by intro t ht; simp at ht⟩
                  · next n l7 heq7 =>
                    rw [heq7] at hli
                    have hinv7 := lxl_steps_inv hli
                    have hout7 := lxl_outer_trans hout6 (lxl_steps_outer hli)
                    split
                    · -- n ≠ 0
                      have hrs := lxl_check_radix_separator_sbr l7 hinv7.1
                      rcases hr : lxl_lexer__check_radix_separator l7 with ⟨rs, l8⟩
                      rw [hr] at hrs
                      have hinv8 : lxl_inv l8 := lxl_steps_inv (lxl_sbr_steps hinv7 hrs)
                      have hout8 := lxl_outer_trans hout7
                        (lxl_steps_outer (lxl_sbr_steps hinv7 hrs))
                      dsimp only
                      split
                      · -- re-lex as float
                        have hul := lxl_unlex_steps l8 hinv8
                        have hinv9 := lxl_steps_inv hul
                        have hout9 := lxl_outer_trans hout8 (lxl_steps_outer hul)
                        have hfp2 := lxl_match_float_prefix_steps (lxl_lexer__unlex l8) hinv9
                        rcases hfpr : lxl_lexer__match_float_prefix' (lxl_lexer__unlex l8)
                          with ⟨⟨fbase, marker⟩, l10⟩
                        rw [hfpr] at hfp2
                        have hinv10 := lxl_steps_inv hfp2
                        have hout10 := lxl_outer_trans hout9 (lxl_steps_outer hfp2)
                        dsimp only
                        split
                        · have hlb := lxl_lex_float_branch_outer l10 tok fbase marker hinv10
                          exact ⟨lxl_outer_trans hout10 hlb.1, hlb.2⟩
                        · have hib := lxl_finish_int_branch_outer l10 tok
                            LXL_LERR_INVALID_INTEGER hinv10
                          exact ⟨lxl_outer_trans hout10 hib.1, hib.2⟩
                      · have hib := lxl_finish_int_branch_outer l8 tok
                          l8.cfg.default_int_type hinv8
                        exact ⟨lxl_outer_trans hout8 hib.1, hib.2⟩
                    · have hib := lxl_finish_int_branch_outer l7 tok
                        LXL_LERR_INVALID_INTEGER hinv7
                      exact ⟨lxl_outer_trans hout7 hib.1, hib.2⟩
                · -- float / punct / word branches
                  have hfp2 := lxl_match_float_prefix_steps l6 hinv6
                  rcases hfpr : lxl_lexer__match_float_prefix' l6 with ⟨⟨fbase, marker⟩, l7⟩
                  rw [hfpr] at hfp2
                  have hinv7 := lxl_steps_inv hfp2
                  have hout7 := lxl_outer_trans hout6 (lxl_steps_outer hfp2)
                  dsimp only
                  split
                  · have hlb := lxl_lex_float_branch_outer l7 tok fbase marker hinv7
                    exact ⟨lxl_outer_trans hout7 hlb.1, hlb.2⟩
                  · have hpc := lxl_match_punct_steps l7 hinv7
                    split
                    · -- punct
                      next i l8 heq8 =>
                      rw [heq8] at hpc
                      have hout8 := lxl_outer_trans hout7 (lxl_steps_outer hpc)
                      have hfo := lxl_finish_token_outer l8
                        { tok with token_type := l8.cfg.punct_types.getD i 0 }
                        (lxl_steps_inv hpc)
                      have hfp := lxl_finish_token_type_prev l8
                        { tok with token_type := l8.cfg.punct_types.getD i 0 }
                      rcases hf : lxl_lexer__finish_token l8
                        { tok with token_type := l8.cfg.punct_types.getD i 0 } with ⟨t2, l9⟩
                      rw [hf] at hfo hfp
                      exact ⟨lxl_outer_trans hout8 hfo,
                        by intro t ht; simp only [Option.some.injEq] at ht; subst ht; exact hfp⟩
                    · -- word
                      next l8 heq8 =>
                      rw [heq8] at hpc
                      have hinv8 := lxl_steps_inv hpc
                      have hout8 := lxl_outer_trans hout7 (lxl_steps_outer hpc)
                      have hwl : lxl_steps l8 (match l8.cfg.word_lexing_rule with
                          | .LXL_LEX_SYMBOLIC => lxl_lexer__lex_symbolic l8
                          | .LXL_LEX_WORD => lxl_lexer__lex_word l8).2 := by
                        cases hw : l8.cfg.word_lexing_rule
                        · exact lxl_lex_symbolic_steps l8 hinv8
                        · exact lxl_lex_word_steps l8 hinv8
                      split
                      · next l9 heq9 =>
                        rw [heq9] at hwl
                        exact ⟨lxl_outer_trans hout8 (lxl_steps_outer hwl),
                          by intro t ht; simp at ht⟩
                      · next n l9 heq9 =>
                        rw [heq9] at hwl
                        have hinv9 := lxl_steps_inv hwl
                        have hout9 := lxl_outer_trans hout8 (lxl_steps_outer hwl)
                        have hgw := lxl_get_word_type_sbr l9 tok.start hinv9.1
                        rcases hg : lxl_lexer__get_word_type l9 tok.start with ⟨wty, l10⟩
                        rw [hg] at hgw
                        have hinv10 : lxl_inv l10 := lxl_steps_inv (lxl_sbr_steps hinv9 hgw)
                        have hout10 := lxl_outer_trans hout9
                          (lxl_steps_outer (lxl_sbr_steps hinv9 hgw))
                        have hfo := lxl_finish_token_outer l10
                          { tok with token_type := wty } hinv10
                        have hfp := lxl_finish_token_type_prev l10
                          { tok with token_type := wty }
                        rcases hf : lxl_lexer__finish_token l10 { tok with token_type := wty }
                          with ⟨t2, l11⟩
                        rw [hf] at hfo hfp
                        exact ⟨lxl_outer_trans hout10 hfo,
                          by intro t ht; simp only [Option.some.injEq] at ht; subst ht; exact hfp⟩

/-! ## C5 — the amended read-safety claim -/

/-- C5 (amended): reads at `current = end` happen (see the counterexample),
but the cursor never reads strictly past `end`.  For every lexer state whose
cursor is inside the view (`current ≤ end`, with a well-formed error slot), an
entire `lxl_lexer_next_token` call leaves the `past_end_reads` instrumentation
counter untouched — every byte dereference it performs is at an index
≤ `end` — and re-establishes the invariant, for every source and
configuration. -/
theorem claim_C5_amended (l : lxl_lexer) (h : lxl_inv l) :
    (lxl_lexer_next_token l).2.past_end_reads = l.past_end_reads ∧
    lxl_inv (lxl_lexer_next_token l).2 :=
  ⟨(lxl_next_token_outer_prev l h).1.2.2.1, (lxl_next_token_outer_prev l h).1.2.2.2⟩

/-- Witness for the amended C5 at a concrete input. -/
theorem claim_C5_amended_witness :
    (lxl_lexer_next_token (lxl_lexer_new (("ab").toList))).2.past_end_reads =
      (lxl_lexer_new (("ab").toList)).past_end_reads ∧
    lxl_inv (lxl_lexer_next_token (lxl_lexer_new (("ab").toList))).2 :=
  claim_C5_amended (lxl_lexer_new (("ab").toList)) (by constructor <;> decide)

/-! ## Machinery for the amended C8 -/

/-- The dispatch position is on a line feed. -/
def lxl_at_lf (l : lxl_lexer) : Prop :=
  l.current < l.src.length ∧ l.src.getD l.current '\x00' = '\n'

theorem lxl_sbr_at_lf {l l' : lxl_lexer} (h : lxl_same_but_reads l l') :
    lxl_at_lf l' ↔ lxl_at_lf l := by
  unfold lxl_at_lf
  rw [h.1, h.2.1]

theorem lxl_steps_can_emit {l l' : lxl_lexer} (h : lxl_steps l l') :
    lxl_lexer__can_emit_line_ending l' = lxl_lexer__can_emit_line_ending l := by
  unfold lxl_lexer__can_emit_line_ending
  rw [h.2.1, h.2.2.1]

theorem lxl_check_string_lf (l : lxl_lexer) :
    (lxl_lexer__check_string l ['\n']).1 = true ↔ lxl_at_lf l := by
  unfold lxl_lexer__check_string lxl_lexer__tail_length lxl_at_lf
  split
  · next hg =>
    simp only [List.length_cons, List.length_nil] at hg
    constructor
    · intro hf; simp at hf
    · intro hx; omega
  · next hg =>
    simp only [List.length_cons, List.length_nil] at hg
    have hlt : l.current < l.src.length := by omega
    unfold lxl_memcmp_at
    rcases hrb : lxl_read_byte l l.current with ⟨c, l1⟩
    have hc : c = l.src.getD l.current '\x00' := by
      rw [← lxl_read_byte_fst l l.current, hrb]
    dsimp only
    split
    · next hb =>
      simp only [lxl_memcmp_at]
      constructor
      · intro _; exact ⟨hlt, by rw [← hc]; exact hb⟩
      · intro _; trivial
    · next hb =>
      constructor
      · intro hx; simp at hx
      · intro hx; exact absurd (by rw [hc]; exact hx.2) hb

theorem lxl_match_string_false_sbr (l : lxl_lexer) (s : List Char) (h : lxl_inv l)
    (hf : (lxl_lexer__match_string l s).1 = false) :
    lxl_same_but_reads l (lxl_lexer__match_string l s).2 := by
  unfold lxl_lexer__match_string at hf ⊢
  have h1 := lxl_check_string_sbr l s h.1
  split at hf
  · next l1 heq =>
    rw [heq] at h1
    exfalso
    have hg : ¬ (s.length : Int) > lxl_lexer__tail_length l := by
      unfold lxl_lexer__check_string at heq
      split at heq
      · simp at heq
      · next hgg => exact hgg
    have hb : l.current + s.length ≤ l.src.length := by
      unfold lxl_lexer__tail_length at hg
      omega
    have hinv1 : lxl_inv l1 := lxl_steps_inv (lxl_sbr_steps h h1)
    have hsome := lxl_advance_by_loop_some s.length l1 hinv1
      (by rw [h1.2.1, h1.1]; exact hb)
    unfold lxl_lexer__advance_by at hf
    rcases hab : lxl_advance_by_loop l1 s.length with ⟨b, l2⟩
    rw [hab] at hsome hf
    cases b
    · simp at hsome
    · simp at hf
  · next l1 heq =>
    rw [heq] at h1
    exact h1

theorem lxl_match_nestable_loop_false_sbr :
    ∀ (ds : List lxl_delim_pair) (l : lxl_lexer), lxl_inv l →
      (lxl_match_nestable_loop l ds).1 = some false →
      lxl_same_but_reads l (lxl_match_nestable_loop l ds).2 := by
  intro ds
  induction ds with
  | nil => intro l h _; exact lxl_sbr_refl l
  | cons d rest ih =>
    intro l h hf
    simp only [lxl_match_nestable_loop] at hf ⊢
    split at hf
    · next l1 heq =>
      split at hf <;> simp_all
    · next l1 heq =>
      have hm := lxl_match_string_false_sbr l d.opener h (by rw [heq])
      rw [heq] at hm
      exact lxl_sbr_trans hm (ih _ (lxl_steps_inv (lxl_sbr_steps h hm)) hf)

theorem lxl_match_unnestable_loop_false_sbr :
    ∀ (ds : List lxl_delim_pair) (l : lxl_lexer), lxl_inv l →
      (lxl_match_unnestable_loop l ds).1 = some false →
      lxl_same_but_reads l (lxl_match_unnestable_loop l ds).2 := by
  intro ds
  induction ds with
  | nil => intro l h _; exact lxl_sbr_refl l
  | cons d rest ih =>
    intro l h hf
    simp only [lxl_match_unnestable_loop] at hf ⊢
    split at hf
    · next l1 heq =>
      split at hf <;> simp_all
    · next l1 heq =>
      have hm := lxl_match_string_false_sbr l d.opener h (by rw [heq])
      rw [heq] at hm
      exact lxl_sbr_trans hm (ih _ (lxl_steps_inv (lxl_sbr_steps h hm)) hf)

theorem lxl_match_line_comment_false_sbr (l : lxl_lexer) (h : lxl_inv l)
    (hf : (lxl_lexer__match_line_comment l).1 = some false) :
    lxl_same_but_reads l (lxl_lexer__match_line_comment l).2 := by
  unfold lxl_lexer__match_line_comment at hf ⊢
  have h1 := lxl_check_line_comment_sbr l h.1
  split at hf
  · next l1 heq => rw [heq] at h1; exact h1
  · next l1 heq =>
    split at hf <;> simp at hf

theorem lxl_match_block_comment_false_sbr (l : lxl_lexer) (h : lxl_inv l)
    (hf : (lxl_lexer__match_block_comment l).1 = some false) :
    lxl_same_but_reads l (lxl_lexer__match_block_comment l).2 := by
  unfold lxl_lexer__match_block_comment at hf ⊢
  split at hf
  · next l1 heq => simp at hf
  · next l1 heq =>
    have h1 : lxl_same_but_reads l l1 := by
      have := lxl_match_nestable_loop_false_sbr l.cfg.nestable_comment_delims l h
        (by unfold lxl_lexer__match_nestable_comment at heq; rw [heq])
      unfold lxl_lexer__match_nestable_comment at heq
      rw [heq] at this
      exact this
    exact lxl_sbr_trans h1
      (lxl_match_unnestable_loop_false_sbr _ l1 (lxl_steps_inv (lxl_sbr_steps h h1)) hf)
  · next l1 heq => simp at hf

theorem lxl_ws_member_nul : lxl_chars_member LXL_WHITESPACE_CHARS '\x00' = false := by
  decide

theorem lxl_peek_mem_ws (l : lxl_lexer) (hlf : lxl_at_lf l) :
    lxl_chars_member LXL_WHITESPACE_CHARS (lxl_peek l) = true := by
  unfold lxl_peek
  rw [hlf.2]
  decide

theorem lxl_check_whitespace_fst_no_emit (l : lxl_lexer)
    (hce : lxl_lexer__can_emit_line_ending l = false) :
    (lxl_lexer__check_whitespace l).1 =
      lxl_chars_member LXL_WHITESPACE_CHARS (lxl_peek l) := by
  unfold lxl_lexer__check_whitespace
  rw [hce]
  exact lxl_check_chars_fst l LXL_WHITESPACE_CHARS

theorem lxl_peek_nul_of_at_end (l : lxl_lexer) (h : l.src.length ≤ l.current) :
    lxl_peek l = '\x00' := by
  unfold lxl_peek
  exact List.getD_eq_default l.src '\x00' h

theorem lxl_skip_ws_loop_not_lf :
    ∀ (f : Nat) (l l' : lxl_lexer), lxl_inv l →
      lxl_lexer__can_emit_line_ending l = false →
      lxl_skip_whitespace_loop f l = (some (), l') → ¬ lxl_at_lf l' := by
  intro f
  induction f with
  | zero =>
    intro l l' h hce heq
    simp only [lxl_skip_whitespace_loop] at heq
    simp at heq
  | succ g ih =>
    intro l l' h hce heq
    simp only [lxl_skip_whitespace_loop] at heq
    have hcw := lxl_check_whitespace_sbr l h.1
    split at heq
    · -- whitespace branch
      next l1 heq1 =>
      rw [heq1] at hcw
      have hm : lxl_chars_member LXL_WHITESPACE_CHARS (lxl_peek l) = true := by
        rw [← lxl_check_whitespace_fst_no_emit l hce, heq1]
      have hlt : l.current < l.src.length := by
        by_contra hge
        rw [lxl_peek_nul_of_at_end l (by omega)] at hm
        rw [lxl_ws_member_nul] at hm
        exact absurd hm (by simp)
      have hs1 : lxl_steps l l1 := lxl_sbr_steps h hcw
      have hlt1 : l1.current < l1.src.length := by
        rw [hcw.1, hcw.2.1]; exact hlt
      rcases lxl_advance_spec l1 (le_of_lt hlt1) with ⟨hae, _⟩ |
        ⟨_, hfst, hcur, c1, c2, c3, c4, c5, c6, c7, c8⟩
      · simp [lxl_lexer__is_at_end] at hae; omega
      · have hpk : lxl_peek l1 = lxl_peek l := by
          unfold lxl_peek
          rw [hcw.1, hcw.2.1]
        rcases ha : lxl_lexer__advance l1 with ⟨c, l2⟩
        rw [ha] at heq hfst hcur c1 c2 c3 c4 c5 c6 c7 c8
        dsimp only at heq hfst hcur c1 c2 c3 c4 c5 c6 c7 c8
        have hcne : c ≠ '\x00' := by
          intro hc0
          rw [hc0] at hfst
          rw [hpk] at hfst
          rw [← hfst] at hm
          rw [lxl_ws_member_nul] at hm
          exact absurd hm (by simp)
        rw [if_neg hcne] at heq
        have hs2 : lxl_steps l l2 := lxl_steps_trans hs1
          ⟨c1, c2, c4, c6, c7, by omega, by rw [c5]; exact (lxl_steps_inv hs1).2⟩
        exact ih l2 l' (lxl_steps_inv hs2) (by rw [lxl_steps_can_emit hs2]; exact hce) heq
    · -- not whitespace
      next l1 heq1 =>
      rw [heq1] at hcw
      have hcs := lxl_check_string_sbr l1 ['\n'] (lxl_sbr_le hcw h.1)
      split at heq
      · -- stopped in front of a line feed: impossible with can_emit = false
        next l2 heq2 =>
        exfalso
        have hlf1 : lxl_at_lf l1 := by
          rw [← lxl_check_string_lf l1, heq2]
        have hlfl : lxl_at_lf l := (lxl_sbr_at_lf hcw).mp hlf1
        have hmem := lxl_peek_mem_ws l hlfl
        have hwf : (lxl_lexer__check_whitespace l).1 = false := by rw [heq1]
        rw [lxl_check_whitespace_fst_no_emit l hce] at hwf
        rw [hmem] at hwf
        exact absurd hwf (by simp)
      · next l2 heq2 =>
        rw [heq2] at hcs
        have hnlf2 : ¬ lxl_at_lf l2 := by
          rw [lxl_sbr_at_lf hcs]
          rw [← lxl_check_string_lf l1]
          rw [heq2]
          simp
        have hsbr2 : lxl_same_but_reads l l2 := lxl_sbr_trans hcw hcs
        have hinv2 : lxl_inv l2 := lxl_steps_inv (lxl_sbr_steps h hsbr2)
        split at heq
        · simp at heq
        · -- line comment consumed: recurse
          next l3 heq3 =>
          have hml := lxl_match_line_comment_steps l2 hinv2
          rw [heq3] at hml
          have hs3 : lxl_steps l l3 := lxl_steps_trans (lxl_sbr_steps h hsbr2) hml
          exact ih l3 l' (lxl_steps_inv hs3)
            (by rw [lxl_steps_can_emit hs3]; exact hce) heq
        · next l3 heq3 =>
          have hml := lxl_match_line_comment_false_sbr l2 hinv2 (by rw [heq3])
          rw [heq3] at hml
          have hsbr3 : lxl_same_but_reads l2 l3 := hml
          have hinv3 : lxl_inv l3 :=
            lxl_steps_inv (lxl_sbr_steps hinv2 hsbr3)
          split at heq
          · simp at heq
          · -- block comment consumed: recurse
            next l4 heq4 =>
            have hmb := lxl_match_block_comment_steps l3 hinv3
            rw [heq4] at hmb
            have hs4 : lxl_steps l l4 :=
              lxl_steps_trans (lxl_sbr_steps h (lxl_sbr_trans hsbr2 hsbr3)) hmb
            exact ih l4 l' (lxl_steps_inv hs4)
              (by rw [lxl_steps_can_emit hs4]; exact hce) heq
          · -- nothing matched: the exit position is the checked one
            next l4 heq4 =>
            have hmb := lxl_match_block_comment_false_sbr l3 hinv3 (by rw [heq4])
            rw [heq4] at hmb
            have hl4 : l4 = l' := by
              have := congrArg Prod.snd heq
              simpa using this
            subst hl4
            rw [lxl_sbr_at_lf hmb, lxl_sbr_at_lf hsbr3]
            exact hnlf2

theorem lxl_skip_whitespace_not_lf (l l' : lxl_lexer) (r : Int) (h : lxl_inv l)
    (hce : lxl_lexer__can_emit_line_ending l = false)
    (heq : lxl_lexer__skip_whitespace l = (some r, l')) : ¬ lxl_at_lf l' := by
  unfold lxl_lexer__skip_whitespace at heq
  rcases hl : lxl_skip_whitespace_loop (lxl_fuel l) l with ⟨u, l1⟩
  rw [hl] at heq
  cases u with
  | none => simp at heq
  | some v =>
    have hl1 : l1 = l' := by
      have := congrArg Prod.snd heq
      simpa using this
    subst hl1
    exact lxl_skip_ws_loop_not_lf (lxl_fuel l) l l1 h hce (by rw [hl])

theorem lxl_getD_ne :
    ∀ (xs : List Int) (i : Nat) (v : Int), (∀ x ∈ xs, x ≠ v) → v ≠ 0 →
      xs.getD i 0 ≠ v := by
  intro xs
  induction xs with
  | nil => intro i v _ hv0; simpa [List.getD] using fun h => hv0 h.symm
  | cons x rest ih =>
    intro i v hall hv0
    cases i with
    | zero => simpa [List.getD] using hall x (by simp)
    | succ j => simpa [List.getD] using ih j v (fun y hy => hall y (by simp [hy])) hv0

theorem lxl_get_word_type_loop_mem :
    ∀ (ks : List (List Char)) (l : lxl_lexer) (ws i : Nat), l.current ≤ l.src.length →
      (lxl_get_word_type_loop l ws ks i).1 = l.cfg.default_word_type ∨
      ∃ j, (lxl_get_word_type_loop l ws ks i).1 = l.cfg.keyword_types.getD j 0 := by
  intro ks
  induction ks with
  | nil => intro l ws i h; left; rfl
  | cons k rest ih =>
    intro l ws i h
    simp only [lxl_get_word_type_loop]
    split
    · exact ih l ws (i + 1) h
    · next hlen =>
      have hb : ws + k.length ≤ l.src.length := by
        unfold lxl_lexer__length_from at hlen
        omega
      have h1 := lxl_memcmp_at_sbr k l ws hb
      split
      · next l1 heq =>
        rw [heq] at h1
        right
        exact ⟨i, by rw [h1.2.2.2.2.1]⟩
      · next l1 heq =>
        rw [heq] at h1
        have := ih l1 ws (i + 1) (lxl_sbr_le h1 h)
        rw [h1.2.2.2.2.1] at this
        exact this

theorem lxl_get_word_type_mem (l : lxl_lexer) (ws : Nat) (h : l.current ≤ l.src.length) :
    (lxl_lexer__get_word_type l ws).1 = l.cfg.default_word_type ∨
      ∃ j, (lxl_lexer__get_word_type l ws).1 = l.cfg.keyword_types.getD j 0 := by
  unfold lxl_lexer__get_word_type
  split
  · left; rfl
  · exact lxl_get_word_type_loop_mem _ l ws 0 h

theorem lxl_finish_token_ne (l : lxl_lexer) (tok : lxl_token) (h : lxl_inv l)
    (hty : tok.token_type ≠ LXL_TOKEN_LINE_ENDING) :
    (lxl_lexer__finish_token l tok).1.token_type ≠ LXL_TOKEN_LINE_ENDING := by
  rw [(lxl_finish_token_effect l tok).2.2.2.2.2.2.2.1]
  split
  · next he =>
    rcases h.2 with h0 | hle
    · exact absurd h0 he
    · norm_num [LXL_LERR_GENERIC] at hle
      norm_num [LXL_TOKEN_LINE_ENDING]
      omega
  · exact hty

theorem lxl_match_chars_fst (l : lxl_lexer) (cs : List Char) :
    (lxl_lexer__match_chars l cs).1 = (lxl_lexer__check_chars l cs).1 := by
  unfold lxl_lexer__match_chars
  split <;> next heq => rw [heq]

theorem lxl_member_singleton_lf (c : Char) :
    lxl_chars_member ['\n'] c = true ↔ c = '\n' := by
  unfold lxl_chars_member
  split <;> simp_all [lxl_chars_member]

/-- The configuration constraints of the amended C8: line endings are emitted
and collected, the line-ending token type is the default
`LXL_TOKEN_LINE_ENDING`, and no other configured or default token type equals
it. -/
def lxl_c8_config (c : lxl_config) : Prop :=
  c.emit_line_endings = true ∧ c.collect_line_endings = true ∧
  c.line_ending_type = LXL_TOKEN_LINE_ENDING ∧
  (∀ x ∈ c.line_string_types, x ≠ LXL_TOKEN_LINE_ENDING) ∧
  (∀ x ∈ c.multiline_string_types, x ≠ LXL_TOKEN_LINE_ENDING) ∧
  (∀ x ∈ c.punct_types, x ≠ LXL_TOKEN_LINE_ENDING) ∧
  (∀ x ∈ c.keyword_types, x ≠ LXL_TOKEN_LINE_ENDING) ∧
  c.default_int_type ≠ LXL_TOKEN_LINE_ENDING ∧
  c.default_float_type ≠ LXL_TOKEN_LINE_ENDING ∧
  c.default_word_type ≠ LXL_TOKEN_LINE_ENDING

theorem lxl_finish_int_branch_ne (l : lxl_lexer) (tok : lxl_token) (ty : Int)
    (h : lxl_inv l) (hty : ty ≠ LXL_TOKEN_LINE_ENDING) :
    ∀ t, (lxl_finish_int_branch l tok ty).1 = some t →
      t.token_type ≠ LXL_TOKEN_LINE_ENDING := by
  unfold lxl_finish_int_branch
  have h1 := lxl_match_int_suffix_steps l h
  rcases hm : lxl_lexer__match_int_suffix l with ⟨b, l1⟩
  rw [hm] at h1
  dsimp only
  have hne := lxl_finish_token_ne l1 { tok with token_type := ty } (lxl_steps_inv h1) hty
  rcases hf : lxl_lexer__finish_token l1 { tok with token_type := ty } with ⟨t2, l2⟩
  rw [hf] at hne
  intro t ht
  simp only [Option.some.injEq] at ht
  subst ht
  exact hne

theorem lxl_lex_float_branch_ne (l : lxl_lexer) (tok : lxl_token) (base : Int)
    (em : List Char) (h : lxl_inv l)
    (hty : l.cfg.default_float_type ≠ LXL_TOKEN_LINE_ENDING) :
    ∀ t, (lxl_lex_float_branch l tok base em).1 = some t →
      t.token_type ≠ LXL_TOKEN_LINE_ENDING := by
  unfold lxl_lex_float_branch
  have h1 := lxl_lex_float_steps l base em h
  split
  · next l1 heq => intro t ht; simp at ht
  · next n l1 heq =>
    rw [heq] at h1
    dsimp only
    have hcfg1 : l1.cfg = l.cfg := h1.2.1
    have htyne : (if n ≠ 0 then l1.cfg.default_float_type else LXL_LERR_INVALID_FLOAT) ≠
        LXL_TOKEN_LINE_ENDING := by
      split
      · rw [hcfg1]; exact hty
      · norm_num [LXL_LERR_INVALID_FLOAT, LXL_TOKEN_LINE_ENDING]
    have hne := lxl_finish_token_ne l1
      { tok with token_type := if n ≠ 0 then l1.cfg.default_float_type else LXL_LERR_INVALID_FLOAT }
      (lxl_steps_inv h1) htyne
    rcases hf : lxl_lexer__finish_token l1
      { tok with token_type := if n ≠ 0 then l1.cfg.default_float_type else LXL_LERR_INVALID_FLOAT }
      with ⟨t2, l2⟩
    rw [hf] at hne
    intro t ht
    simp only [Option.some.injEq] at ht
    subst ht
    exact hne

/-- After a line-ending token (with collection on and all other configured
types distinct from `LXL_TOKEN_LINE_ENDING`), the next token is never another
line-ending token. -/
theorem lxl_c8_step (l : lxl_lexer) (h : lxl_inv l) (hcfg : lxl_c8_config l.cfg)
    (hprev : l.previous_token_type = LXL_TOKEN_LINE_ENDING) :
    ∀ t, (lxl_lexer_next_token l).1 = some t →
      t.token_type ≠ LXL_TOKEN_LINE_ENDING := by
  have hcel : lxl_lexer__can_emit_line_ending l = false := by
    simp [lxl_lexer__can_emit_line_ending, hcfg.1, hcfg.2.1, hprev]
  unfold lxl_lexer_next_token
  split
  · -- finished
    have hce := lxl_create_end_token_effect l h
    rcases hc : lxl_lexer__create_end_token l with ⟨t, l1⟩
    rw [hc] at hce
    intro t2 ht
    simp only [Option.some.injEq] at ht
    subst ht
    rcases hce.2.1 with h1 | h1 | h1
    · rw [h1]; norm_num [LXL_TOKENS_END, LXL_TOKEN_LINE_ENDING]
    · rw [h1]; norm_num [LXL_TOKENS_END_ABNORMAL, LXL_TOKEN_LINE_ENDING]
    · norm_num [LXL_LERR_GENERIC, LXL_TOKEN_LINE_ENDING] at h1 ⊢; omega
  · have hsw := lxl_skip_whitespace_steps l h
    split
    · next l1 heq => intro t ht; simp at ht
    · next r l1 heq =>
      rw [heq] at hsw
      have hinv1 := lxl_steps_inv hsw
      have hce1 : lxl_lexer__can_emit_line_ending l1 = false := by
        rw [lxl_steps_can_emit hsw]; exact hcel
      have hnlf1 : ¬ lxl_at_lf l1 := lxl_skip_whitespace_not_lf l l1 r h hcel heq
      have hcfg1 : l1.cfg = l.cfg := hsw.2.1
      split
      · -- error token
        have hce := lxl_create_error_token_effect l1 hinv1
        rcases hc : lxl_lexer__create_error_token l1 with ⟨t, l2⟩
        rw [hc] at hce
        intro t2 ht
        simp only [Option.some.injEq] at ht
        subst ht
        have h1 := hce.2.1
        norm_num [LXL_LERR_GENERIC, LXL_TOKEN_LINE_ENDING] at h1 ⊢
        omega
      · split
        · -- at end
          have hce := lxl_create_end_token_effect l1 hinv1
          rcases hc : lxl_lexer__create_end_token l1 with ⟨t, l2⟩
          rw [hc] at hce
          intro t2 ht
          simp only [Option.some.injEq] at ht
          subst ht
          rcases hce.2.1 with h1 | h1 | h1
          · rw [h1]; norm_num [LXL_TOKENS_END, LXL_TOKEN_LINE_ENDING]
          · rw [h1]; norm_num [LXL_TOKENS_END_ABNORMAL, LXL_TOKEN_LINE_ENDING]
          · norm_num [LXL_LERR_GENERIC, LXL_TOKEN_LINE_ENDING] at h1 ⊢; omega
        · -- dispatch
          next hend =>
          have hlt1 : l1.current < l1.src.length := by
            simp [lxl_lexer__is_at_end] at hend
            omega
          have hst := lxl_start_token_effect l1
          rcases hs : lxl_lexer__start_token l1 with ⟨tok, l2⟩
          rw [hs] at hst
          obtain ⟨htok, b1, b2, b3, b4, b5, b6, b7, b8, b9⟩ := hst
          dsimp only
          have hinv2 : lxl_inv l2 := ⟨by rw [b1, b2]; exact hinv1.1, b5 ▸ hinv1.2⟩
          have hcfg2 : l2.cfg = l.cfg := by rw [b3, hcfg1]
          have hnlf2 : ¬ lxl_at_lf l2 := by
            unfold lxl_at_lf
            rw [b1, b2]
            exact hnlf1
          have hmc := lxl_match_chars_steps l2 ['\n'] hinv2
          split
          · -- line ending branch: impossible here
            next l3 heq3 =>
            exfalso
            have hf : (lxl_lexer__match_chars l2 ['\n']).1 = true := by rw [heq3]
            rw [lxl_match_chars_fst, lxl_check_chars_fst] at hf
            have hpk := (lxl_member_singleton_lf (lxl_peek l2)).mp hf
            exact hnlf2 ⟨by rw [b1, b2]; exact hlt1, hpk⟩
          · next l3 heq3 =>
            rw [heq3] at hmc
            have hinv3 := lxl_steps_inv hmc
            have hcfg3 : l3.cfg = l.cfg := by rw [hmc.2.1, hcfg2]
            have hso := lxl_match_string_opener_steps l3 .LXL_STRING_LINE hinv3
            split
            · -- line string
              next i l4 heq4 =>
              rw [heq4] at hso
              have hinv4 := lxl_steps_inv hso
              have hcfg4 : l4.cfg = l.cfg := by rw [hso.2.1, hcfg3]
              have hls := lxl_lex_string_steps l4
                (l4.cfg.line_string_delims.getD i ⟨[], []⟩).closer .LXL_STRING_LINE hinv4
              split
              · next l5 heq5 => intro t ht; simp at ht
              · next n l5 heq5 =>
                rw [heq5] at hls
                have hinv5 := lxl_steps_inv hls
                have hcfg5 : l5.cfg = l.cfg := by rw [hls.2.1, hcfg4]
                have htyne : l5.cfg.line_string_types.getD i 0 ≠ LXL_TOKEN_LINE_ENDING := by
                  rw [hcfg5]
                  exact lxl_getD_ne _ i _ hcfg.2.2.2.1
                    (by norm_num [LXL_TOKEN_LINE_ENDING])
                have hne := lxl_finish_token_ne l5
                  { tok with token_type := l5.cfg.line_string_types.getD i 0 } hinv5 htyne
                rcases hf : lxl_lexer__finish_token l5
                  { tok with token_type := l5.cfg.line_string_types.getD i 0 } with ⟨t2, l6⟩
                rw [hf] at hne
                intro t ht
                simp only [Option.some.injEq] at ht
                subst ht
                exact hne
            · next l4 heq4 =>
              rw [heq4] at hso
              have hinv4 := lxl_steps_inv hso
              have hcfg4 : l4.cfg = l.cfg := by rw [hso.2.1, hcfg3]
              have hso2 := lxl_match_string_opener_steps l4 .LXL_STRING_MULTILINE hinv4
              split
              · -- multiline string
                next i l5 heq5 =>
                rw [heq5] at hso2
                have hinv5 := lxl_steps_inv hso2
                have hcfg5 : l5.cfg = l.cfg := by rw [hso2.2.1, hcfg4]
                have hls := lxl_lex_string_steps l5
                  (l5.cfg.multiline_string_delims.getD i ⟨[], []⟩).closer .LXL_STRING_MULTILINE hinv5
                split
                · next l6 heq6 => intro t ht; simp at ht
                · next n l6 heq6 =>
                  rw [heq6] at hls
                  have hinv6 := lxl_steps_inv hls
                  have hcfg6 : l6.cfg = l.cfg := by rw [hls.2.1, hcfg5]
                  have htyne : l6.cfg.multiline_string_types.getD i 0 ≠ LXL_TOKEN_LINE_ENDING := by
                    rw [hcfg6]
                    exact lxl_getD_ne _ i _ hcfg.2.2.2.2.1
                      (by norm_num [LXL_TOKEN_LINE_ENDING])
                  have hne := lxl_finish_token_ne l6
                    { tok with token_type := l6.cfg.multiline_string_types.getD i 0 } hinv6 htyne
                  rcases hf : lxl_lexer__finish_token l6
                    { tok with token_type := l6.cfg.multiline_string_types.getD i 0 } with ⟨t2, l7⟩
                  rw [hf] at hne
                  intro t ht
                  simp only [Option.some.injEq] at ht
                  subst ht
                  exact hne
              · next l5 heq5 =>
                rw [heq5] at hso2
                have hinv5 := lxl_steps_inv hso2
                have hcfg5 : l5.cfg = l.cfg := by rw [hso2.2.1, hcfg4]
                have hip := lxl_match_int_prefix_steps l5 hinv5
                rcases hi : lxl_lexer__match_int_prefix' l5 with ⟨ibase, l6⟩
                rw [hi] at hip
                have hinv6 := lxl_steps_inv hip
                have hcfg6 : l6.cfg = l.cfg := by rw [hip.2.1, hcfg5]
                dsimp only
                split
                · -- integer branch
                  have hli := lxl_lex_integer_steps l6 ibase hinv6
                  split
                  · next l7 heq7 => intro t ht; simp at ht
                  · next n l7 heq7 =>
                    rw [heq7] at hli
                    have hinv7 := lxl_steps_inv hli
                    have hcfg7 : l7.cfg = l.cfg := by rw [hli.2.1, hcfg6]
                    split
                    · have hrs := lxl_check_radix_separator_sbr l7 hinv7.1
                      rcases hr : lxl_lexer__check_radix_separator l7 with ⟨rs, l8⟩
                      rw [hr] at hrs
                      have hinv8 : lxl_inv l8 := lxl_steps_inv (lxl_sbr_steps hinv7 hrs)
                      have hcfg8 : l8.cfg = l.cfg := by rw [hrs.2.2.2.2.1, hcfg7]
                      dsimp only
                      split
                      · have hul := lxl_unlex_steps l8 hinv8
                        have hinv9 := lxl_steps_inv hul
                        have hcfg9 : (lxl_lexer__unlex l8).cfg = l.cfg := by
                          rw [hul.2.1, hcfg8]
                        have hfp2 := lxl_match_float_prefix_steps (lxl_lexer__unlex l8) hinv9
                        rcases hfpr : lxl_lexer__match_float_prefix' (lxl_lexer__unlex l8)
                          with ⟨⟨fbase, marker⟩, l10⟩
                        rw [hfpr] at hfp2
                        have hinv10 := lxl_steps_inv hfp2
                        have hcfg10 : l10.cfg = l.cfg := by rw [hfp2.2.1, hcfg9]
                        dsimp only
                        split
                        · exact lxl_lex_float_branch_ne l10 tok fbase marker hinv10
                            (by rw [hcfg10]; exact hcfg.2.2.2.2.2.2.2.2.1)
                        · exact lxl_finish_int_branch_ne l10 tok LXL_LERR_INVALID_INTEGER hinv10
                            (by norm_num [LXL_LERR_INVALID_INTEGER, LXL_TOKEN_LINE_ENDING])
                      · exact lxl_finish_int_branch_ne l8 tok l8.cfg.default_int_type hinv8
                          (by rw [hcfg8]; exact hcfg.2.2.2.2.2.2.2.1)
                    · exact lxl_finish_int_branch_ne l7 tok LXL_LERR_INVALID_INTEGER hinv7
                        (by norm_num [LXL_LERR_INVALID_INTEGER, LXL_TOKEN_LINE_ENDING])
                · -- float / punct / word
                  have hfp2 := lxl_match_float_prefix_steps l6 hinv6
                  rcases hfpr : lxl_lexer__match_float_prefix' l6 with ⟨⟨fbase, marker⟩, l7⟩
                  rw [hfpr] at hfp2
                  have hinv7 := lxl_steps_inv hfp2
                  have hcfg7 : l7.cfg = l.cfg := by rw [hfp2.2.1, hcfg6]
                  dsimp only
                  split
                  · exact lxl_lex_float_branch_ne l7 tok fbase marker hinv7
                      (by rw [hcfg7]; exact hcfg.2.2.2.2.2.2.2.2.1)
                  · have hpc := lxl_match_punct_steps l7 hinv7
                    split
                    · next i l8 heq8 =>
                      rw [heq8] at hpc
                      have hinv8 := lxl_steps_inv hpc
                      have hcfg8 : l8.cfg = l.cfg := by rw [hpc.2.1, hcfg7]
                      have htyne : l8.cfg.punct_types.getD i 0 ≠ LXL_TOKEN_LINE_ENDING := by
                        rw [hcfg8]
                        exact lxl_getD_ne _ i _ hcfg.2.2.2.2.2.1
                          (by norm_num [LXL_TOKEN_LINE_ENDING])
                      have hne := lxl_finish_token_ne l8
                        { tok with token_type := l8.cfg.punct_types.getD i 0 } hinv8 htyne
                      rcases hf : lxl_lexer__finish_token l8
                        { tok with token_type := l8.cfg.punct_types.getD i 0 } with ⟨t2, l9⟩
                      rw [hf] at hne
                      intro t ht
                      simp only [Option.some.injEq] at ht
                      subst ht
                      exact hne
                    · next l8 heq8 =>
                      rw [heq8] at hpc
                      have hinv8 := lxl_steps_inv hpc
                      have hcfg8 : l8.cfg = l.cfg := by rw [hpc.2.1, hcfg7]
                      have hwl : lxl_steps l8 (match l8.cfg.word_lexing_rule with
                          | .LXL_LEX_SYMBOLIC => lxl_lexer__lex_symbolic l8
                          | .LXL_LEX_WORD => lxl_lexer__lex_word l8).2 := by
                        cases hw : l8.cfg.word_lexing_rule
                        · exact lxl_lex_symbolic_steps l8 hinv8
                        · exact lxl_lex_word_steps l8 hinv8
                      split
                      · next l9 heq9 => intro t ht; simp at ht
                      · next n l9 heq9 =>
                        rw [heq9] at hwl
                        have hinv9 := lxl_steps_inv hwl
                        have hcfg9 : l9.cfg = l.cfg := by rw [hwl.2.1, hcfg8]
                        have hgw := lxl_get_word_type_sbr l9 tok.start hinv9.1
                        have hgm := lxl_get_word_type_mem l9 tok.start hinv9.1
                        rcases hg : lxl_lexer__get_word_type l9 tok.start with ⟨wty, l10⟩
                        rw [hg] at hgw hgm
                        have hinv10 : lxl_inv l10 := lxl_steps_inv (lxl_sbr_steps hinv9 hgw)
                        have htyne : wty ≠ LXL_TOKEN_LINE_ENDING := by
                          rcases hgm with hd | ⟨j, hj⟩
                          · have : wty = l9.cfg.default_word_type := hd
                            rw [this, hcfg9]
                            exact hcfg.2.2.2.2.2.2.2.2.2
                          · have : wty = l9.cfg.keyword_types.getD j 0 := hj
                            rw [this, hcfg9]
                            exact lxl_getD_ne _ j _ hcfg.2.2.2.2.2.2.1
                              (by norm_num [LXL_TOKEN_LINE_ENDING])
                        have hne := lxl_finish_token_ne l10
                          { tok with token_type := wty } hinv10 htyne
                        rcases hf : lxl_lexer__finish_token l10 { tok with token_type := wty }
                          with ⟨t2, l11⟩
                        rw [hf] at hne
                        intro t ht
                        simp only [Option.some.injEq] at ht
                        subst ht
                        exact hne

theorem lxl_iterate_next_facts (n : Nat) :
    ∀ (l : lxl_lexer), lxl_inv l →
      ∀ t lt, lxl_iterate_next l n = some (t, lt) →
        lxl_inv lt ∧ lt.cfg = l.cfg ∧ lt.previous_token_type = t.token_type := by
  induction n with
  | zero =>
    intro l h t lt hit
    have hop := lxl_next_token_outer_prev l h
    unfold lxl_iterate_next at hit
    rcases hnt : lxl_lexer_next_token l with ⟨o, l1⟩
    rw [hnt] at hit hop
    cases o with
    | none => simp at hit
    | some t' =>
      simp only [Option.some.injEq, Prod.mk.injEq] at hit
      obtain ⟨ht, hl⟩ := hit
      subst ht
      subst hl
      exact ⟨hop.1.2.2.2, hop.1.2.1, hop.2 t' rfl⟩
  | succ k ih =>
    intro l h t lt hit
    have hop := lxl_next_token_outer_prev l h
    unfold lxl_iterate_next at hit
    rcases hnt : lxl_lexer_next_token l with ⟨o, l1⟩
    rw [hnt] at hit hop
    cases o with
    | none => simp at hit
    | some t' =>
      obtain ⟨hinv1, hcfg1, hprev1⟩ := ih l1 hop.1.2.2.2 t lt hit
      exact ⟨hinv1, hcfg1.trans hop.1.2.1, hprev1⟩

def lexer_c8w : lxl_lexer :=
  let l := lxl_lexer_new (("\n\na").toList)
  { l with cfg := { l.cfg with emit_line_endings := true } }

def lexer_c8w_t : lxl_token :=
  ((lxl_iterate_next lexer_c8w 0).getD (⟨0, 0, ⟨0, 0⟩, 0⟩, lexer_c8w)).1

def lexer_c8w_lt : lxl_lexer :=
  ((lxl_iterate_next lexer_c8w 0).getD (⟨0, 0, ⟨0, 0⟩, 0⟩, lexer_c8w)).2

def lexer_c8w_t2 : lxl_token :=
  ((lxl_lexer_next_token lexer_c8w_lt).1).getD ⟨0, 0, ⟨0, 0⟩, 0⟩

/-- C8 (amended): with `emit_line_endings` and `collect_line_endings` both set and
the configured `line_ending_type` left at the default `LXL_TOKEN_LINE_ENDING`
(with no other token type configured to collide with it), the token stream never
contains two consecutive tokens of type `LXL_TOKEN_LINE_ENDING`: whenever the
`n`-th token has that type, the next token does not. (The original claim, which
asserted this for an arbitrary configured `line_ending_type`, is refuted by
`claim_C8_counterexample`: `can_emit_line_ending` compares `previous_token_type`
against the constant `LXL_TOKEN_LINE_ENDING` rather than the configured type.) -/
theorem claim_C8_amended (l : lxl_lexer) (n : Nat) (hinv : lxl_inv l)
    (hcfg : lxl_c8_config l.cfg) (t : lxl_token) (lt : lxl_lexer) (t2 : lxl_token)
    (hit : lxl_iterate_next l n = some (t, lt))
    (htt : t.token_type = LXL_TOKEN_LINE_ENDING)
    (hnt : (lxl_lexer_next_token lt).1 = some t2) :
    t2.token_type ≠ LXL_TOKEN_LINE_ENDING := by
  obtain ⟨hi, hc, hp⟩ := lxl_iterate_next_facts n l hinv t lt hit
  exact lxl_c8_step lt hi (by rw [hc]; exact hcfg) (hp.trans htt) t2 hnt

/-- Witness for `claim_C8_amended`: on the source `"\n\na"` with line endings
emitted, the first token is a line-ending token and the following token (the
word `"a"`) is not. -/
theorem claim_C8_amended_witness :
    lexer_c8w_t2.token_type ≠ LXL_TOKEN_LINE_ENDING :=
  claim_C8_amended lexer_c8w 0 (by exact ⟨by decide, Or.inl (by decide)⟩)
    (by exact ⟨by decide, by decide, by decide, by decide, by decide, by decide,
      by decide, by decide, by decide, by decide⟩)
    lexer_c8w_t lexer_c8w_lt lexer_c8w_t2 (by decide) (by decide) (by decide)

/-! ## C9 — termination: character facts and cursor monotonicity -/

theorem lxl_chars_member_true_mem :
    ∀ (cs : List Char) (c : Char), lxl_chars_member cs c = true → c ∈ cs := by
  intro cs
  induction cs with
  | nil => intro c h; simp [lxl_chars_member] at h
  | cons a rest ih =>
    intro c h
    simp only [lxl_chars_member] at h
    split at h
    · next he => rw [he]; exact List.mem_cons_self a rest
    · exact List.mem_cons_of_mem a (ih c h)

theorem lxl_nul_not_digit (base : Int) :
    lxl_chars_member (lxl_digits_for base) '\x00' = false := by
  by_contra hx
  have hm : lxl_chars_member (lxl_digits_for base) '\x00' = true := by
    cases h : lxl_chars_member (lxl_digits_for base) '\x00'
    · exact absurd h hx
    · rfl
  have hmem := lxl_chars_member_true_mem _ _ hm
  unfold lxl_digits_for at hmem
  have hfull := List.take_subset _ _ hmem
  revert hfull
  decide

theorem lxl_check_string_true_le (l : lxl_lexer) (s : List Char)
    (ht : (lxl_lexer__check_string l s).1 = true) :
    l.current + s.length ≤ l.src.length := by
  unfold lxl_lexer__check_string at ht
  split at ht
  · simp at ht
  · next hg =>
    unfold lxl_lexer__tail_length at hg
    omega

theorem lxl_check_strings_true_lt :
    ∀ (ss : List (List Char)) (l : lxl_lexer), l.current ≤ l.src.length →
      (∀ s ∈ ss, s ≠ []) → (lxl_lexer__check_strings l ss).1 = true →
      l.current < l.src.length := by
  intro ss
  induction ss with
  | nil => intro l _ _ ht; simp [lxl_lexer__check_strings] at ht
  | cons s rest ih =>
    intro l hle hne ht
    simp only [lxl_lexer__check_strings] at ht
    split at ht
    · next l1 heq =>
      have hb := lxl_check_string_true_le l s (by rw [heq])
      have hs : s ≠ [] := hne s (List.mem_cons_self s rest)
      have hpos : 0 < s.length := List.length_pos.mpr hs
      omega
    · next l1 heq =>
      have h1 := lxl_check_string_sbr l s hle
      rw [heq] at h1
      have := ih l1 (by rw [h1.2.1, h1.1]; exact hle)
        (fun x hx => hne x (List.mem_cons_of_mem s hx)) ht
      have hsrc : l1.src.length = l.src.length := by rw [h1.1]
      have hcc : l1.current = l.current := h1.2.1
      omega

theorem lxl_check_digit_true_lt (l : lxl_lexer) (base : Int)
    (ht : (lxl_lexer__check_digit l base).1 = true) : l.current < l.src.length := by
  unfold lxl_lexer__check_digit at ht
  split at ht
  · simp at ht
  · rw [lxl_check_chars_fst] at ht
    by_contra hge
    push_neg at hge
    rw [lxl_peek_nul_of_at_end l hge, lxl_nul_not_digit base] at ht
    exact absurd ht (by simp)

theorem lxl_advance_mono (l : lxl_lexer) (h : l.current ≤ l.src.length) :
    l.current ≤ (lxl_lexer__advance l).2.current := by
  rcases lxl_advance_spec l h with ⟨_, he⟩ | ⟨_, _, hc, _⟩
  · rw [he]
  · omega

theorem lxl_match_chars_mono (l : lxl_lexer) (cs : List Char) (h : lxl_inv l) :
    l.current ≤ (lxl_lexer__match_chars l cs).2.current := by
  unfold lxl_lexer__match_chars
  have h1 := lxl_check_chars_sbr l cs h.1
  split
  · next l1 heq =>
    rw [heq] at h1
    have hm := lxl_advance_mono l1 (by rw [h1.2.1, h1.1]; exact h.1)
    calc l.current = l1.current := h1.2.1.symm
      _ ≤ (lxl_lexer__advance l1).2.current := hm
  · next l1 heq =>
    rw [heq] at h1
    exact le_of_eq h1.2.1.symm

theorem lxl_match_string_mono (l : lxl_lexer) (s : List Char) (h : lxl_inv l) :
    l.current ≤ (lxl_lexer__match_string l s).2.current := by
  cases ht : (lxl_lexer__match_string l s).1
  · exact le_of_eq (lxl_match_string_false_sbr l s h ht).2.1.symm
  · have := lxl_match_string_consumes l s h ht
    omega

theorem lxl_skip_line_loop_mono :
    ∀ (f : Nat) (l : lxl_lexer), lxl_inv l →
      l.current ≤ (lxl_skip_line_loop f l).2.current := by
  intro f
  induction f with
  | zero => intro l h; exact le_refl _
  | succ g ih =>
    intro l h
    simp only [lxl_skip_line_loop]
    have h1 := lxl_check_chars_sbr l ['\n'] h.1
    split
    · next l1 heq => rw [heq] at h1; exact le_of_eq h1.2.1.symm
    · next l1 heq =>
      rw [heq] at h1
      have hs1 : lxl_steps l l1 := lxl_sbr_steps h h1
      have hst := lxl_advance_steps l1 (lxl_steps_inv hs1)
      have hm := lxl_advance_mono l1 (lxl_steps_inv hs1).1
      rcases ha : lxl_lexer__advance l1 with ⟨c, l2⟩
      rw [ha] at hst hm
      have hs2 := lxl_steps_trans hs1 hst
      have hc1 : l.current ≤ l2.current := by
        rw [h1.2.1] at hm; exact hm
      dsimp only
      split
      · exact hc1
      · exact le_trans hc1 (ih l2 (lxl_steps_inv hs2))

theorem lxl_skip_block_loop_mono :
    ∀ (f : Nat) (l : lxl_lexer) (op cl : List Char) (nb : Bool), lxl_inv l →
      l.current ≤ (lxl_skip_block_comment_loop f l op cl nb).2.current := by
  intro f
  induction f with
  | zero => intro l op cl nb h; exact le_refl _
  | succ g ih =>
    intro l op cl nb h
    simp only [lxl_skip_block_comment_loop]
    have hm1 := lxl_match_string_mono l cl h
    have h1 := lxl_match_string_steps l cl h
    split
    · next l1 heq => rw [heq] at hm1; exact hm1
    · next l1 heq =>
      rw [heq] at hm1 h1
      dsimp only at hm1
      split
      · -- nestable
        have hm2 := lxl_match_string_mono l1 op (lxl_steps_inv h1)
        have h2 := lxl_match_string_steps l1 op (lxl_steps_inv h1)
        split
        · next l2 heq2 =>
          rw [heq2] at hm2 h2
          dsimp only at hm2
          have h12 := lxl_steps_trans h1 h2
          have hm3 := ih l2 op cl true (lxl_steps_inv h12)
          have h3 := lxl_skip_block_comment_loop_steps g l2 op cl true (lxl_steps_inv h12)
          split
          · next l3 heq3 =>
            rw [heq3] at hm3
            dsimp only at hm3
            show l.current ≤ l3.current
            omega
          · next l3 heq3 =>
            rw [heq3] at hm3 h3
            dsimp only at hm3
            have h13 := lxl_steps_trans h12 h3
            split
            · show l.current ≤ l3.current
              omega
            · have := ih l3 op cl nb (lxl_steps_inv h13)
              omega
        · next l2 heq2 =>
          rw [heq2] at hm2 h2
          dsimp only at hm2
          have h12 := lxl_steps_trans h1 h2
          have hma := lxl_advance_mono l2 (lxl_steps_inv h12).1
          have ha2 := lxl_advance_steps l2 (lxl_steps_inv h12)
          rcases ha : lxl_lexer__advance l2 with ⟨c, l3⟩
          rw [ha] at hma ha2
          dsimp only at hma
          have h13 := lxl_steps_trans h12 ha2
          dsimp only
          split
          · show l.current ≤ l3.current
            omega
          · have := ih l3 op cl nb (lxl_steps_inv h13)
            omega
      · -- unnestable
        have hma := lxl_advance_mono l1 (lxl_steps_inv h1).1
        have ha2 := lxl_advance_steps l1 (lxl_steps_inv h1)
        rcases ha : lxl_lexer__advance l1 with ⟨c, l3⟩
        rw [ha] at hma ha2
        dsimp only at hma
        have h13 := lxl_steps_trans h1 ha2
        dsimp only
        split
        · show l.current ≤ l3.current
          omega
        · have := ih l3 op cl nb (lxl_steps_inv h13)
          omega

theorem lxl_skip_block_comment_mono (l : lxl_lexer) (d : lxl_delim_pair) (nb : Bool)
    (h : lxl_inv l) :
    l.current ≤ (lxl_lexer__skip_block_comment l d nb).2.current := by
  unfold lxl_lexer__skip_block_comment
  have hm := lxl_skip_block_loop_mono (lxl_fuel l) l d.opener d.closer nb h
  rcases hs : lxl_skip_block_comment_loop (lxl_fuel l) l d.opener d.closer nb with ⟨r, l1⟩
  rw [hs] at hm
  cases r <;> exact hm

/-! ## C9 — termination: fuel sufficiency for the simple loops -/

theorem lxl_skip_line_loop_some :
    ∀ (f : Nat) (l : lxl_lexer), lxl_inv l → l.src.length - l.current < f →
      ((lxl_skip_line_loop f l).1).isSome = true := by
  intro f
  induction f with
  | zero => intro l h hf; omega
  | succ g ih =>
    intro l h hf
    simp only [lxl_skip_line_loop]
    have h1 := lxl_check_chars_sbr l ['\n'] h.1
    split
    · rfl
    · next l1 heq =>
      rw [heq] at h1
      have hs1 : lxl_steps l l1 := lxl_sbr_steps h h1
      have hsp := lxl_advance_spec l1 (lxl_steps_inv hs1).1
      have hst := lxl_advance_steps l1 (lxl_steps_inv hs1)
      rcases ha : lxl_lexer__advance l1 with ⟨c, l2⟩
      rw [ha] at hsp hst
      have hs2 := lxl_steps_trans hs1 hst
      dsimp only
      split
      · rfl
      · next hcz =>
        rcases hsp with ⟨_, hpair⟩ | ⟨hlt, _, hc2, hsrc2, _⟩
        · exfalso
          rw [Prod.mk.injEq] at hpair
          exact hcz hpair.1
        · dsimp only at hc2 hsrc2
          apply ih l2 (lxl_steps_inv hs2)
          have e1 : l1.current = l.current := h1.2.1
          have e2 : l1.src.length = l.src.length := by rw [h1.1]
          have e3 : l2.src.length = l1.src.length := by rw [hsrc2]
          omega

theorem lxl_skip_line_loop_progress :
    ∀ (f : Nat) (l : lxl_lexer), lxl_inv l → 0 < f → l.current < l.src.length →
      lxl_peek l ≠ '\n' → l.current < (lxl_skip_line_loop f l).2.current := by
  intro f l h hf hlt hpk
  cases f with
  | zero => omega
  | succ g =>
    simp only [lxl_skip_line_loop]
    have h1 := lxl_check_chars_sbr l ['\n'] h.1
    have hfst := lxl_check_chars_fst l ['\n']
    have hmem : lxl_chars_member ['\n'] (lxl_peek l) = false := by
      simp only [lxl_chars_member]
      rw [if_neg hpk]
    split
    · next l1 heq =>
      exfalso
      rw [heq] at hfst
      dsimp only at hfst
      rw [hmem] at hfst
      exact absurd hfst.symm (by simp)
    · next l1 heq =>
      rw [heq] at h1
      have hs1 : lxl_steps l l1 := lxl_sbr_steps h h1
      have hsp := lxl_advance_spec l1 (lxl_steps_inv hs1).1
      have hst := lxl_advance_steps l1 (lxl_steps_inv hs1)
      rcases ha : lxl_lexer__advance l1 with ⟨c, l2⟩
      rw [ha] at hsp hst
      have hs2 := lxl_steps_trans hs1 hst
      have e1 : l1.current = l.current := h1.2.1
      have e2 : l1.src.length = l.src.length := by rw [h1.1]
      rcases hsp with ⟨hae, _⟩ | ⟨_, _, hc2, _⟩
      · exfalso
        simp only [lxl_lexer__is_at_end, decide_eq_true_eq] at hae
        omega
      · dsimp only at hc2
        have hmono := lxl_skip_line_loop_mono g l2 (lxl_steps_inv hs2)
        dsimp only
        split
        · show l.current < l2.current
          omega
        · omega

theorem lxl_skip_line_c9 (l : lxl_lexer) (h : lxl_inv l)
    (hlt : l.current < l.src.length) (hpk : lxl_peek l ≠ '\n') :
    ((lxl_lexer__skip_line l).1).isSome = true ∧
      l.current < (lxl_lexer__skip_line l).2.current := by
  unfold lxl_lexer__skip_line
  have hsome := lxl_skip_line_loop_some (lxl_fuel l) l h
    (by unfold lxl_fuel; omega)
  have hprog := lxl_skip_line_loop_progress (lxl_fuel l) l h
    (by unfold lxl_fuel; omega) hlt hpk
  rcases hs : lxl_skip_line_loop (lxl_fuel l) l with ⟨r, l1⟩
  rw [hs] at hsome hprog
  cases r
  · simp at hsome
  · exact ⟨rfl, hprog⟩

theorem lxl_match_line_comment_c9 (l : lxl_lexer) (h : lxl_inv l)
    (hop : ∀ s ∈ l.cfg.line_comment_openers, s ≠ []) (hnlf : ¬ lxl_at_lf l) :
    ((lxl_lexer__match_line_comment l).1).isSome = true ∧
      ((lxl_lexer__match_line_comment l).1 = some true →
        l.current < (lxl_lexer__match_line_comment l).2.current) := by
  unfold lxl_lexer__match_line_comment
  have h1 := lxl_check_line_comment_sbr l h.1
  split
  · next l1 heq =>
    exact ⟨rfl, by intro hx; simp at hx⟩
  · next l1 heq =>
    rw [heq] at h1
    have hlt : l.current < l.src.length := by
      apply lxl_check_strings_true_lt l.cfg.line_comment_openers l h.1 hop
      unfold lxl_lexer__check_line_comment at heq
      rw [heq]
    have hinv1 := lxl_steps_inv (lxl_sbr_steps h h1)
    have hpk1 : lxl_peek l1 ≠ '\n' := by
      intro hx
      apply hnlf
      refine ⟨hlt, ?_⟩
      unfold lxl_peek at hx
      rw [h1.1, h1.2.1] at hx
      exact hx
    have hlt1 : l1.current < l1.src.length := by
      have e1 : l1.current = l.current := h1.2.1
      have e2 : l1.src.length = l.src.length := by rw [h1.1]
      omega
    have hsl := lxl_skip_line_c9 l1 hinv1 hlt1 hpk1
    rcases hs : lxl_lexer__skip_line l1 with ⟨r, l2⟩
    rw [hs] at hsl
    cases r
    · simp at hsl
    · refine ⟨rfl, ?_⟩
      intro _
      have e1 : l1.current = l.current := h1.2.1
      dsimp only at hsl
      show l.current < l2.current
      omega

/-! ## C9 — termination: block comments -/

theorem lxl_skip_block_loop_some :
    ∀ (f : Nat) (l : lxl_lexer) (op cl : List Char) (nb : Bool), lxl_inv l →
      op ≠ [] → l.src.length - l.current < f →
      ((lxl_skip_block_comment_loop f l op cl nb).1).isSome = true := by
  intro f
  induction f with
  | zero => intro l op cl nb h _ hf; omega
  | succ g ih =>
    intro l op cl nb h hop hf
    simp only [lxl_skip_block_comment_loop]
    have h1 := lxl_match_string_steps l cl h
    split
    · rfl
    · next l1 heq =>
      rw [heq] at h1
      have hsbr1 := lxl_match_string_false_sbr l cl h (by rw [heq])
      rw [heq] at hsbr1
      have e1 : l1.current = l.current := hsbr1.2.1
      have e2 : l1.src.length = l.src.length := by rw [hsbr1.1]
      split
      · -- nestable
        have h2 := lxl_match_string_steps l1 op (lxl_steps_inv h1)
        split
        · next l2 heq2 =>
          rw [heq2] at h2
          have hcons := lxl_match_string_consumes l1 op (lxl_steps_inv h1) (by rw [heq2])
          rw [heq2] at hcons
          dsimp only at hcons
          have hoplen : 0 < op.length := List.length_pos.mpr hop
          have h12 := lxl_steps_trans h1 h2
          have e3 : l2.src.length = l1.src.length := by rw [h2.1]
          have hsome2 := ih l2 op cl true (lxl_steps_inv h12) hop (by omega)
          have hmono3 := lxl_skip_block_loop_mono g l2 op cl true (lxl_steps_inv h12)
          have h3 := lxl_skip_block_comment_loop_steps g l2 op cl true (lxl_steps_inv h12)
          split
          · next l3 heq3 =>
            exfalso
            rw [heq3] at hsome2
            simp at hsome2
          · next l3 heq3 =>
            rw [heq3] at hmono3 h3
            dsimp only at hmono3 h3
            have h13 := lxl_steps_trans h12 h3
            split
            · rfl
            · apply ih l3 op cl nb (lxl_steps_inv h13) hop
              have e4 : l3.current ≤ l.src.length := h13.2.2.2.2.2.1
              have e6 : l3.src.length = l.src.length := by rw [h13.1]
              omega
        · next l2 heq2 =>
          rw [heq2] at h2
          have h12 := lxl_steps_trans h1 h2
          have hsbr2 := lxl_match_string_false_sbr l1 op (lxl_steps_inv h1) (by rw [heq2])
          rw [heq2] at hsbr2
          have e3 : l2.current = l1.current := hsbr2.2.1
          have e4 : l2.src.length = l1.src.length := by rw [hsbr2.1]
          have hsp := lxl_advance_spec l2 (lxl_steps_inv h12).1
          have hst := lxl_advance_steps l2 (lxl_steps_inv h12)
          rcases ha : lxl_lexer__advance l2 with ⟨c, l3⟩
          rw [ha] at hsp hst
          have h13 := lxl_steps_trans h12 hst
          dsimp only
          split
          · rfl
          · next hcz =>
            rcases hsp with ⟨_, hpair⟩ | ⟨hlt, _, hc2, hsrc2, _⟩
            · exfalso
              rw [Prod.mk.injEq] at hpair
              exact hcz hpair.1
            · dsimp only at hc2 hsrc2
              apply ih l3 op cl nb (lxl_steps_inv h13) hop
              have e5 : l3.src.length = l2.src.length := by rw [hsrc2]
              omega
      · -- unnestable
        have hsp := lxl_advance_spec l1 (lxl_steps_inv h1).1
        have hst := lxl_advance_steps l1 (lxl_steps_inv h1)
        rcases ha : lxl_lexer__advance l1 with ⟨c, l3⟩
        rw [ha] at hsp hst
        have h13 := lxl_steps_trans h1 hst
        dsimp only
        split
        · rfl
        · next hcz =>
          rcases hsp with ⟨_, hpair⟩ | ⟨hlt, _, hc2, hsrc2, _⟩
          · exfalso
            rw [Prod.mk.injEq] at hpair
            exact hcz hpair.1
          · dsimp only at hc2 hsrc2
            apply ih l3 op cl nb (lxl_steps_inv h13) hop
            have e5 : l3.src.length = l1.src.length := by rw [hsrc2]
            omega

theorem lxl_skip_block_comment_some (l : lxl_lexer) (d : lxl_delim_pair) (nb : Bool)
    (h : lxl_inv l) (hop : d.opener ≠ []) :
    ((lxl_lexer__skip_block_comment l d nb).1).isSome = true := by
  unfold lxl_lexer__skip_block_comment
  have hsome := lxl_skip_block_loop_some (lxl_fuel l) l d.opener d.closer nb h hop
    (by unfold lxl_fuel; omega)
  rcases hs : lxl_skip_block_comment_loop (lxl_fuel l) l d.opener d.closer nb with ⟨r, l1⟩
  rw [hs] at hsome
  cases r
  · simp at hsome
  · rfl

theorem lxl_match_nestable_loop_c9 :
    ∀ (ds : List lxl_delim_pair) (l : lxl_lexer), lxl_inv l →
      (∀ d ∈ ds, d.opener ≠ []) →
      ((lxl_match_nestable_loop l ds).1).isSome = true ∧
        ((lxl_match_nestable_loop l ds).1 = some true →
          l.current < (lxl_match_nestable_loop l ds).2.current) := by
  intro ds
  induction ds with
  | nil =>
    intro l h _
    exact ⟨rfl, by intro hx; simp [lxl_match_nestable_loop] at hx⟩
  | cons d rest ih =>
    intro l h hop
    simp only [lxl_match_nestable_loop]
    have h1 := lxl_match_string_steps l d.opener h
    split
    · next l1 heq =>
      rw [heq] at h1
      have hcons := lxl_match_string_consumes l d.opener h (by rw [heq])
      rw [heq] at hcons
      dsimp only at hcons
      have hoplen : 0 < d.opener.length :=
        List.length_pos.mpr (hop d (List.mem_cons_self d rest))
      have hsome := lxl_skip_block_comment_some l1 d true (lxl_steps_inv h1)
        (hop d (List.mem_cons_self d rest))
      have hmono := lxl_skip_block_comment_mono l1 d true (lxl_steps_inv h1)
      split
      · next l2 heq2 =>
        exfalso
        rw [heq2] at hsome
        simp at hsome
      · next r l2 heq2 =>
        rw [heq2] at hmono
        dsimp only at hmono
        refine ⟨rfl, ?_⟩
        intro _
        show l.current < l2.current
        omega
    · next l1 heq =>
      rw [heq] at h1
      have hsbr := lxl_match_string_false_sbr l d.opener h (by rw [heq])
      rw [heq] at hsbr
      have e1 : l1.current = l.current := hsbr.2.1
      have hih := ih l1 (lxl_steps_inv h1) (fun x hx => hop x (List.mem_cons_of_mem d hx))
      refine ⟨hih.1, ?_⟩
      intro hx
      have := hih.2 hx
      omega

theorem lxl_match_unnestable_loop_c9 :
    ∀ (ds : List lxl_delim_pair) (l : lxl_lexer), lxl_inv l →
      (∀ d ∈ ds, d.opener ≠ []) →
      ((lxl_match_unnestable_loop l ds).1).isSome = true ∧
        ((lxl_match_unnestable_loop l ds).1 = some true →
          l.current < (lxl_match_unnestable_loop l ds).2.current) := by
  intro ds
  induction ds with
  | nil =>
    intro l h _
    exact ⟨rfl, by intro hx; simp [lxl_match_unnestable_loop] at hx⟩
  | cons d rest ih =>
    intro l h hop
    simp only [lxl_match_unnestable_loop]
    have h1 := lxl_match_string_steps l d.opener h
    split
    · next l1 heq =>
      rw [heq] at h1
      have hcons := lxl_match_string_consumes l d.opener h (by rw [heq])
      rw [heq] at hcons
      dsimp only at hcons
      have hoplen : 0 < d.opener.length :=
        List.length_pos.mpr (hop d (List.mem_cons_self d rest))
      have hsome := lxl_skip_block_comment_some l1 d false (lxl_steps_inv h1)
        (hop d (List.mem_cons_self d rest))
      have hmono := lxl_skip_block_comment_mono l1 d false (lxl_steps_inv h1)
      split
      · next l2 heq2 =>
        exfalso
        rw [heq2] at hsome
        simp at hsome
      · next r l2 heq2 =>
        rw [heq2] at hmono
        dsimp only at hmono
        refine ⟨rfl, ?_⟩
        intro _
        show l.current < l2.current
        omega
    · next l1 heq =>
      rw [heq] at h1
      have hsbr := lxl_match_string_false_sbr l d.opener h (by rw [heq])
      rw [heq] at hsbr
      have e1 : l1.current = l.current := hsbr.2.1
      have hih := ih l1 (lxl_steps_inv h1) (fun x hx => hop x (List.mem_cons_of_mem d hx))
      refine ⟨hih.1, ?_⟩
      intro hx
      have := hih.2 hx
      omega

theorem lxl_match_block_comment_c9 (l : lxl_lexer) (h : lxl_inv l)
    (hnest : ∀ d ∈ l.cfg.nestable_comment_delims, d.opener ≠ [])
    (hunnest : ∀ d ∈ l.cfg.unnestable_comment_delims, d.opener ≠ []) :
    ((lxl_lexer__match_block_comment l).1).isSome = true ∧
      ((lxl_lexer__match_block_comment l).1 = some true →
        l.current < (lxl_lexer__match_block_comment l).2.current) := by
  unfold lxl_lexer__match_block_comment
  have hn := lxl_match_nestable_loop_c9 l.cfg.nestable_comment_delims l h hnest
  unfold lxl_lexer__match_nestable_comment
  split
  · next l1 heq =>
    rw [heq] at hn
    exact ⟨rfl, by intro _; exact hn.2 rfl⟩
  · next l1 heq =>
    rw [heq] at hn
    have hsbr := lxl_match_nestable_loop_false_sbr l.cfg.nestable_comment_delims l h (by rw [heq])
    rw [heq] at hsbr
    have hinv1 := lxl_steps_inv (lxl_sbr_steps h hsbr)
    have hu := lxl_match_unnestable_loop_c9 l1.cfg.unnestable_comment_delims l1 hinv1
      (by rw [hsbr.2.2.2.2.1]; exact hunnest)
    unfold lxl_lexer__match_unnestable_comment
    refine ⟨hu.1, ?_⟩
    intro hx
    have := hu.2 hx
    have e1 : l1.current = l.current := hsbr.2.1
    omega
  · next l1 heq =>
    rw [heq] at hn
    exact absurd hn.1 (by simp)

/-! ## C9 — termination: whitespace skipping -/

/-- The configuration facts needed for `skip_whitespace` to terminate: every
line-comment opener and every block-comment opener is a non-empty string. -/
def lxl_c9_ws (c : lxl_config) : Prop :=
  (∀ s ∈ c.line_comment_openers, s ≠ []) ∧
  (∀ d ∈ c.nestable_comment_delims, d.opener ≠ []) ∧
  (∀ d ∈ c.unnestable_comment_delims, d.opener ≠ [])

theorem lxl_skip_whitespace_loop_some :
    ∀ (f : Nat) (l : lxl_lexer), lxl_inv l → lxl_c9_ws l.cfg →
      l.src.length - l.current < f →
      ((lxl_skip_whitespace_loop f l).1).isSome = true := by
  intro f
  induction f with
  | zero => intro l h _ hf; omega
  | succ g ih =>
    intro l h hcw hf
    simp only [lxl_skip_whitespace_loop]
    have h1 := lxl_check_whitespace_sbr l h.1
    split
    · next l1 heq =>
      rw [heq] at h1
      have hs1 : lxl_steps l l1 := lxl_sbr_steps h h1
      have hsp := lxl_advance_spec l1 (lxl_steps_inv hs1).1
      have hst := lxl_advance_steps l1 (lxl_steps_inv hs1)
      rcases ha : lxl_lexer__advance l1 with ⟨c, l2⟩
      rw [ha] at hsp hst
      have hs2 := lxl_steps_trans hs1 hst
      dsimp only
      split
      · rfl
      · next hcz =>
        rcases hsp with ⟨_, hpair⟩ | ⟨hlt, _, hc2, hsrc2, _⟩
        · exfalso
          rw [Prod.mk.injEq] at hpair
          exact hcz hpair.1
        · dsimp only at hc2 hsrc2
          apply ih l2 (lxl_steps_inv hs2) (by rw [hs2.2.1]; exact hcw)
          have e1 : l1.current = l.current := h1.2.1
          have e2 : l1.src.length = l.src.length := by rw [h1.1]
          have e3 : l2.src.length = l1.src.length := by rw [hsrc2]
          omega
    · next l1 heq =>
      rw [heq] at h1
      have hs1 : lxl_steps l l1 := lxl_sbr_steps h h1
      have h2 := lxl_check_string_sbr l1 ['\n'] (lxl_steps_inv hs1).1
      split
      · rfl
      · next l2 heq2 =>
        rw [heq2] at h2
        have hs2 := lxl_steps_sbr hs1 h2
        have hnlf : ¬ lxl_at_lf l2 := by
          intro hx
          have hx1 : lxl_at_lf l1 := (lxl_sbr_at_lf h2).mp hx
          have := (lxl_check_string_lf l1).mpr hx1
          rw [heq2] at this
          simp at this
        have hmlc := lxl_match_line_comment_c9 l2 (lxl_steps_inv hs2)
          (by rw [hs2.2.1]; exact hcw.1) hnlf
        split
        · next l3 heq3 =>
          exfalso
          rw [heq3] at hmlc
          exact absurd hmlc.1 (by simp)
        · next l3 heq3 =>
          rw [heq3] at hmlc
          have hprog := hmlc.2 rfl
          dsimp only at hprog
          have hst3 := lxl_match_line_comment_steps l2 (lxl_steps_inv hs2)
          rw [heq3] at hst3
          dsimp only at hst3
          have hs3 := lxl_steps_trans hs2 hst3
          apply ih l3 (lxl_steps_inv hs3) (by rw [hs3.2.1]; exact hcw)
          have e1 : l2.current = l.current := by
            have a1 : l2.current = l1.current := h2.2.1
            have a2 : l1.current = l.current := h1.2.1
            omega
          have e2 : l2.src.length = l.src.length := by rw [h2.1, h1.1]
          have e3 : l3.current ≤ l.src.length := hs3.2.2.2.2.2.1
          have e4 : l3.src.length = l.src.length := by rw [hs3.1]
          omega
        · next l3 heq3 =>
          rw [heq3] at hmlc
          have hsbr3 := lxl_match_line_comment_false_sbr l2 (lxl_steps_inv hs2) (by rw [heq3])
          rw [heq3] at hsbr3
          have hs3 := lxl_steps_sbr hs2 hsbr3
          have hmbc := lxl_match_block_comment_c9 l3 (lxl_steps_inv hs3)
            (by rw [hs3.2.1]; exact hcw.2.1) (by rw [hs3.2.1]; exact hcw.2.2)
          split
          · next l4 heq4 =>
            exfalso
            rw [heq4] at hmbc
            exact absurd hmbc.1 (by simp)
          · next l4 heq4 =>
            rw [heq4] at hmbc
            have hprog := hmbc.2 rfl
            dsimp only at hprog
            have hst4 := lxl_match_block_comment_steps l3 (lxl_steps_inv hs3)
            rw [heq4] at hst4
            dsimp only at hst4
            have hs4 := lxl_steps_trans hs3 hst4
            apply ih l4 (lxl_steps_inv hs4) (by rw [hs4.2.1]; exact hcw)
            have e1 : l3.current = l.current := by
              have a1 : l3.current = l2.current := hsbr3.2.1
              have a2 : l2.current = l1.current := h2.2.1
              have a3 : l1.current = l.current := h1.2.1
              omega
            have e2 : l3.src.length = l.src.length := by rw [hsbr3.1, h2.1, h1.1]
            have e3 : l4.current ≤ l.src.length := hs4.2.2.2.2.2.1
            have e4 : l4.src.length = l.src.length := by rw [hs4.1]
            omega
          · rfl

theorem lxl_skip_whitespace_some (l : lxl_lexer) (h : lxl_inv l) (hcw : lxl_c9_ws l.cfg) :
    ((lxl_lexer__skip_whitespace l).1).isSome = true := by
  unfold lxl_lexer__skip_whitespace
  have hsome := lxl_skip_whitespace_loop_some (lxl_fuel l) l h hcw
    (by unfold lxl_fuel; omega)
  rcases hs : lxl_skip_whitespace_loop (lxl_fuel l) l with ⟨r, l1⟩
  rw [hs] at hsome
  cases r
  · simp at hsome
  · rfl

/-! ## C9 — termination: the token lexing loops -/

theorem lxl_lex_symbolic_loop_some :
    ∀ (f : Nat) (l : lxl_lexer) (n : Nat), lxl_inv l → l.src.length - l.current < f →
      ((lxl_lex_symbolic_loop f l n).1).isSome = true := by
  intro f
  induction f with
  | zero => intro l n h hf; omega
  | succ g ih =>
    intro l n h hf
    simp only [lxl_lex_symbolic_loop]
    split
    · rfl
    · next hne =>
      have hlt : l.current < l.src.length := by
        simp only [lxl_lexer__is_at_end, decide_eq_true_eq] at hne
        omega
      have h1 := lxl_check_whitespace_sbr l h.1
      split
      · rfl
      · next l1 heq =>
        rw [heq] at h1
        have hs1 : lxl_steps l l1 := lxl_sbr_steps h h1
        have hsp := lxl_advance_spec l1 (lxl_steps_inv hs1).1
        have hst := lxl_advance_steps l1 (lxl_steps_inv hs1)
        rcases ha : lxl_lexer__advance l1 with ⟨c, l2⟩
        rw [ha] at hsp hst
        have hs2 := lxl_steps_trans hs1 hst
        rcases hsp with ⟨hae, _⟩ | ⟨_, _, hc2, hsrc2, _⟩
        · exfalso
          simp only [lxl_lexer__is_at_end, decide_eq_true_eq] at hae
          have e1 : l1.current = l.current := h1.2.1
          have e2 : l1.src.length = l.src.length := by rw [h1.1]
          omega
        · dsimp only at hc2 hsrc2
          apply ih l2 (n + 1) (lxl_steps_inv hs2)
          have e1 : l1.current = l.current := h1.2.1
          have e2 : l1.src.length = l.src.length := by rw [h1.1]
          have e3 : l2.src.length = l1.src.length := by rw [hsrc2]
          omega

theorem lxl_lex_word_loop_some :
    ∀ (f : Nat) (l : lxl_lexer) (n : Nat), lxl_inv l → l.src.length - l.current < f →
      ((lxl_lex_word_loop f l n).1).isSome = true := by
  intro f
  induction f with
  | zero => intro l n h hf; omega
  | succ g ih =>
    intro l n h hf
    simp only [lxl_lex_word_loop]
    split
    · rfl
    · next hne =>
      have hlt : l.current < l.src.length := by
        simp only [lxl_lexer__is_at_end, decide_eq_true_eq] at hne
        omega
      have h1 := lxl_check_reserved_sbr l h.1
      split
      · rfl
      · next l1 heq =>
        rw [heq] at h1
        have hs1 : lxl_steps l l1 := lxl_sbr_steps h h1
        have hsp := lxl_advance_spec l1 (lxl_steps_inv hs1).1
        have hst := lxl_advance_steps l1 (lxl_steps_inv hs1)
        rcases ha : lxl_lexer__advance l1 with ⟨c, l2⟩
        rw [ha] at hsp hst
        have hs2 := lxl_steps_trans hs1 hst
        rcases hsp with ⟨hae, _⟩ | ⟨_, _, hc2, hsrc2, _⟩
        · exfalso
          simp only [lxl_lexer__is_at_end, decide_eq_true_eq] at hae
          have e1 : l1.current = l.current := h1.2.1
          have e2 : l1.src.length = l.src.length := by rw [h1.1]
          omega
        · dsimp only at hc2 hsrc2
          apply ih l2 (n + 1) (lxl_steps_inv hs2)
          have e1 : l1.current = l.current := h1.2.1
          have e2 : l1.src.length = l.src.length := by rw [h1.1]
          have e3 : l2.src.length = l1.src.length := by rw [hsrc2]
          omega

theorem lxl_lex_string_loop_some :
    ∀ (f : Nat) (l : lxl_lexer) (closer : List Char) (st : lxl_string_type), lxl_inv l →
      l.src.length - l.current < f →
      ((lxl_lex_string_loop f l closer st).1).isSome = true := by
  intro f
  induction f with
  | zero => intro l closer st h hf; omega
  | succ g ih =>
    intro l closer st h hf
    simp only [lxl_lex_string_loop]
    have h1 := lxl_match_string_steps l closer h
    split
    · rfl
    · next l1 heq =>
      rw [heq] at h1
      have hsbr1 := lxl_match_string_false_sbr l closer h (by rw [heq])
      rw [heq] at hsbr1
      have e1 : l1.current = l.current := hsbr1.2.1
      have e2 : l1.src.length = l.src.length := by rw [hsbr1.1]
      have h2 := lxl_match_chars_steps l1 l1.cfg.string_escape_chars (lxl_steps_inv h1)
      have hm2 := lxl_match_chars_mono l1 l1.cfg.string_escape_chars (lxl_steps_inv h1)
      rcases hmc : lxl_lexer__match_chars l1 l1.cfg.string_escape_chars with ⟨esc, l2⟩
      rw [hmc] at h2 hm2
      dsimp only at hm2
      have h12 := lxl_steps_trans h1 h2
      dsimp only
      cases esc with
      | false =>
        rw [if_neg Bool.false_ne_true]
        have hsp := lxl_advance_spec l2 (lxl_steps_inv h12).1
        have hst4 := lxl_advance_steps l2 (lxl_steps_inv h12)
        rcases ha : lxl_lexer__advance l2 with ⟨c, l4⟩
        rw [ha] at hsp hst4
        have hs14 := lxl_steps_trans h12 hst4
        split
        · rfl
        · next hcz =>
          rcases hsp with ⟨_, hpair⟩ | ⟨hlt3, _, hc4, hsrc4, _⟩
          · exfalso
            rw [Prod.mk.injEq] at hpair
            exact hcz (Or.inl hpair.1)
          · dsimp only at hc4 hsrc4
            apply ih l4 closer st (lxl_steps_inv hs14)
            have e3 : l2.src.length = l.src.length := by rw [h12.1]
            have e4 : l4.src.length = l2.src.length := by rw [hsrc4]
            omega
      | true =>
        rw [if_pos rfl]
        have hst3 := lxl_match_string_steps l2 closer (lxl_steps_inv h12)
        have hm3 := lxl_match_string_mono l2 closer (lxl_steps_inv h12)
        rcases hms : lxl_lexer__match_string l2 closer with ⟨b3, l3⟩
        rw [hms] at hst3 hm3
        dsimp only at hm3
        have hs13 := lxl_steps_trans h12 hst3
        have hsp := lxl_advance_spec l3 (lxl_steps_inv hs13).1
        have hst4 := lxl_advance_steps l3 (lxl_steps_inv hs13)
        rcases ha : lxl_lexer__advance l3 with ⟨c, l4⟩
        rw [ha] at hsp hst4
        have hs14 := lxl_steps_trans hs13 hst4
        split
        · rfl
        · next hcz =>
          rcases hsp with ⟨_, hpair⟩ | ⟨hlt3, _, hc4, hsrc4, _⟩
          · exfalso
            rw [Prod.mk.injEq] at hpair
            exact hcz (Or.inl hpair.1)
          · dsimp only at hc4 hsrc4
            apply ih l4 closer st (lxl_steps_inv hs14)
            have e3 : l3.src.length = l.src.length := by rw [hs13.1]
            have e4 : l4.src.length = l3.src.length := by rw [hsrc4]
            omega

/-! ## C9 — termination: number lexing -/

theorem lxl_check_digit_separator_true_lt (l : lxl_lexer)
    (hnul : '\x00' ∉ l.cfg.digit_separators)
    (ht : (lxl_lexer__check_digit_separator l).1 = true) : l.current < l.src.length := by
  unfold lxl_lexer__check_digit_separator at ht
  split at ht
  · simp at ht
  · next seps hseps =>
    rw [lxl_check_chars_fst] at ht
    by_contra hge
    push_neg at hge
    rw [lxl_peek_nul_of_at_end l hge] at ht
    exact hnul (lxl_chars_member_true_mem _ _ ht)

theorem lxl_match_digit_true_progress (l : lxl_lexer) (base : Int)
    (h : l.current ≤ l.src.length)
    (ht : (lxl_lexer__match_digit l base).1 = true) :
    l.current < l.src.length ∧
      (lxl_lexer__match_digit l base).2.current = l.current + 1 := by
  unfold lxl_lexer__match_digit at ht ⊢
  have h1 := lxl_check_digit_sbr l base h
  split at ht
  · next l1 heq => simp at ht
  · next l1 heq =>
    rw [heq] at h1
    have hlt : l.current < l.src.length := lxl_check_digit_true_lt l base (by rw [heq])
    refine ⟨hlt, ?_⟩
    rcases lxl_advance_spec l1 (by rw [h1.2.1, h1.1]; exact h) with ⟨hae, _⟩ | ⟨_, _, hc, _⟩
    · exfalso
      simp only [lxl_lexer__is_at_end, decide_eq_true_eq] at hae
      have e1 : l1.current = l.current := h1.2.1
      have e2 : l1.src.length = l.src.length := by rw [h1.1]
      omega
    · show (lxl_lexer__advance l1).2.current = l.current + 1
      rw [hc, h1.2.1]

theorem lxl_match_digit_separator_true_progress (l : lxl_lexer)
    (h : l.current ≤ l.src.length) (hnul : '\x00' ∉ l.cfg.digit_separators)
    (ht : (lxl_lexer__match_digit_separator l).1 = true) :
    l.current < l.src.length ∧
      (lxl_lexer__match_digit_separator l).2.current = l.current + 1 := by
  unfold lxl_lexer__match_digit_separator at ht ⊢
  have h1 := lxl_check_digit_separator_sbr l h
  split at ht
  · next l1 heq => simp at ht
  · next l1 heq =>
    rw [heq] at h1
    have hlt : l.current < l.src.length :=
      lxl_check_digit_separator_true_lt l hnul (by rw [heq])
    refine ⟨hlt, ?_⟩
    rcases lxl_advance_spec l1 (by rw [h1.2.1, h1.1]; exact h) with ⟨hae, _⟩ | ⟨_, _, hc, _⟩
    · exfalso
      simp only [lxl_lexer__is_at_end, decide_eq_true_eq] at hae
      have e1 : l1.current = l.current := h1.2.1
      have e2 : l1.src.length = l.src.length := by rw [h1.1]
      omega
    · show (lxl_lexer__advance l1).2.current = l.current + 1
      rw [hc, h1.2.1]

theorem lxl_match_digit_false_sbr (l : lxl_lexer) (base : Int)
    (h : l.current ≤ l.src.length)
    (hf : (lxl_lexer__match_digit l base).1 = false) :
    lxl_same_but_reads l (lxl_lexer__match_digit l base).2 := by
  unfold lxl_lexer__match_digit at hf ⊢
  have h1 := lxl_check_digit_sbr l base h
  split at hf
  · next l1 heq => rw [heq] at h1; exact h1
  · next l1 heq => simp at hf

theorem lxl_match_digit_separator_false_sbr (l : lxl_lexer)
    (h : l.current ≤ l.src.length)
    (hf : (lxl_lexer__match_digit_separator l).1 = false) :
    lxl_same_but_reads l (lxl_lexer__match_digit_separator l).2 := by
  unfold lxl_lexer__match_digit_separator at hf ⊢
  have h1 := lxl_check_digit_separator_sbr l h
  split at hf
  · next l1 heq => rw [heq] at h1; exact h1
  · next l1 heq => simp at hf

theorem lxl_lex_integer_loop_some :
    ∀ (f : Nat) (l : lxl_lexer) (base : Int) (dc : Nat), lxl_inv l →
      '\x00' ∉ l.cfg.digit_separators → l.src.length - l.current < f →
      ((lxl_lex_integer_loop f l base dc).1).isSome = true := by
  intro f
  induction f with
  | zero => intro l base dc h _ hf; omega
  | succ g ih =>
    intro l base dc h hnul hf
    simp only [lxl_lex_integer_loop]
    have h1 := lxl_match_digit_steps l base h
    split
    · next l1 heq =>
      rw [heq] at h1
      have hpr := lxl_match_digit_true_progress l base h.1 (by rw [heq])
      rw [heq] at hpr
      dsimp only at hpr
      apply ih l1 base (dc + 1) (lxl_steps_inv h1) (by rw [h1.2.1]; exact hnul)
      have e1 : l1.src.length = l.src.length := by rw [h1.1]
      omega
    · next l1 heq =>
      rw [heq] at h1
      have hsbr1 := lxl_match_digit_false_sbr l base h.1 (by rw [heq])
      rw [heq] at hsbr1
      have e1 : l1.current = l.current := hsbr1.2.1
      have e2 : l1.src.length = l.src.length := by rw [hsbr1.1]
      have h2 := lxl_match_digit_separator_steps l1 (lxl_steps_inv h1)
      split
      · next l2 heq2 =>
        rw [heq2] at h2
        have hpr := lxl_match_digit_separator_true_progress l1 (lxl_steps_inv h1).1
          (by rw [hsbr1.2.2.2.2.1]; exact hnul) (by rw [heq2])
        rw [heq2] at hpr
        dsimp only at hpr
        have h12 := lxl_steps_trans h1 h2
        apply ih l2 base dc (lxl_steps_inv h12) (by rw [h12.2.1]; exact hnul)
        have e3 : l2.src.length = l1.src.length := by rw [h2.1]
        omega
      · rfl

/-! ## C9 — termination: the lexing wrappers always return `some` -/

theorem lxl_lex_string_some (l : lxl_lexer) (closer : List Char) (st : lxl_string_type)
    (h : lxl_inv l) : ((lxl_lexer__lex_string l closer st).1).isSome = true := by
  unfold lxl_lexer__lex_string
  have hsome := lxl_lex_string_loop_some (lxl_fuel l) l closer st h (by unfold lxl_fuel; omega)
  rcases hs : lxl_lex_string_loop (lxl_fuel l) l closer st with ⟨r, l1⟩
  rw [hs] at hsome
  cases r
  · simp at hsome
  · rfl

theorem lxl_lex_symbolic_some (l : lxl_lexer) (h : lxl_inv l) :
    ((lxl_lexer__lex_symbolic l).1).isSome = true := by
  unfold lxl_lexer__lex_symbolic
  have hsome := lxl_lex_symbolic_loop_some (lxl_fuel l) l 0 h (by unfold lxl_fuel; omega)
  rcases hs : lxl_lex_symbolic_loop (lxl_fuel l) l 0 with ⟨r, l1⟩
  rw [hs] at hsome
  cases r
  · simp at hsome
  · rfl

theorem lxl_lex_word_some (l : lxl_lexer) (h : lxl_inv l) :
    ((lxl_lexer__lex_word l).1).isSome = true := by
  unfold lxl_lexer__lex_word
  have hsome := lxl_lex_word_loop_some (lxl_fuel l) l 0 h (by unfold lxl_fuel; omega)
  rcases hs : lxl_lex_word_loop (lxl_fuel l) l 0 with ⟨r, l1⟩
  rw [hs] at hsome
  cases r
  · simp at hsome
  · rfl

theorem lxl_lex_integer_some (l : lxl_lexer) (base : Int) (h : lxl_inv l)
    (hnul : '\x00' ∉ l.cfg.digit_separators) :
    ((lxl_lexer__lex_integer l base).1).isSome = true := by
  unfold lxl_lexer__lex_integer
  have hsome := lxl_lex_integer_loop_some (lxl_fuel l) l base 0 h hnul
    (by unfold lxl_fuel; omega)
  rcases hs : lxl_lex_integer_loop (lxl_fuel l) l base 0 with ⟨r, l1⟩
  rw [hs] at hsome
  cases r with
  | none => simp at hsome
  | some dc =>
    dsimp only
    split
    · rfl
    · rfl

theorem lxl_lex_float_some (l : lxl_lexer) (base : Int) (em : List Char) (h : lxl_inv l)
    (hnul : '\x00' ∉ l.cfg.digit_separators) :
    ((lxl_lexer__lex_float l base em).1).isSome = true := by
  by_contra hx
  have hn : (lxl_lexer__lex_float l base em).1 = none := by
    cases ho : (lxl_lexer__lex_float l base em).1
    · rfl
    · rw [ho] at hx; simp at hx
  unfold lxl_lexer__lex_float at hn
  split at hn
  · next l1 heq1 =>
    have hs := lxl_lex_integer_some l base h hnul
    rw [heq1] at hs
    simp at hs
  · next n1 l1 heq1 =>
    have h1 := lxl_lex_integer_steps l base h
    rw [heq1] at h1
    dsimp only at h1
    have h2 := lxl_match_radix_separator_steps l1 (lxl_steps_inv h1)
    rcases hmrs : lxl_lexer__match_radix_separator l1 with ⟨rs, l2⟩
    rw [hmrs] at h2 hn
    dsimp only at h2 hn
    have h12 := lxl_steps_trans h1 h2
    split at hn
    · next l3 heq3 =>
      cases rs
      · rw [if_neg Bool.false_ne_true] at heq3
        simp at heq3
      · rw [if_pos rfl] at heq3
        have hs := lxl_lex_integer_some l2 base (lxl_steps_inv h12)
          (by rw [h12.2.1]; exact hnul)
        rw [heq3] at hs
        simp at hs
    · next n2 l3 heq3 =>
      have h3 : lxl_steps l l3 := by
        cases rs
        · rw [if_neg Bool.false_ne_true] at heq3
          rw [Prod.mk.injEq] at heq3
          rw [← heq3.2]
          exact h12
        · rw [if_pos rfl] at heq3
          have hst := lxl_lex_integer_steps l2 base (lxl_steps_inv h12)
          rw [heq3] at hst
          dsimp only at hst
          exact lxl_steps_trans h12 hst
      have h4 := lxl_match_string_steps l3 em (lxl_steps_inv h3)
      rcases hms : lxl_lexer__match_string l3 em with ⟨emq, l4⟩
      rw [hms] at h4 hn
      dsimp only at h4 hn
      have h34 := lxl_steps_trans h3 h4
      split at hn
      · next l6 heq5 =>
        cases emq
        · rw [if_neg Bool.false_ne_true] at heq5
          simp at heq5
        · rw [if_pos rfl] at heq5
          rcases hes : lxl_lexer__match_exponent_sign l4 with ⟨sg, l5⟩
          rw [hes] at heq5
          dsimp only at heq5
          have h5 := lxl_match_exponent_sign_steps l4 (lxl_steps_inv h34)
          rw [hes] at h5
          dsimp only at h5
          have h345 := lxl_steps_trans h34 h5
          have hs := lxl_lex_integer_some l5 base (lxl_steps_inv h345)
            (by rw [h345.2.1]; exact hnul)
          rw [heq5] at hs
          simp at hs
      · next n3 l6 heq5 =>
        split at hn <;> simp at hn

theorem lxl_finish_int_branch_some (l : lxl_lexer) (tok : lxl_token) (ty : Int) :
    ((lxl_finish_int_branch l tok ty).1).isSome = true := by
  unfold lxl_finish_int_branch
  rcases hms : lxl_lexer__match_int_suffix l with ⟨b, l1⟩
  dsimp only
  rcases hft : lxl_lexer__finish_token l1 { tok with token_type := ty } with ⟨t2, l2⟩
  rfl

theorem lxl_lex_float_branch_some (l : lxl_lexer) (tok : lxl_token) (base : Int)
    (em : List Char) (h : lxl_inv l) (hnul : '\x00' ∉ l.cfg.digit_separators) :
    ((lxl_lex_float_branch l tok base em).1).isSome = true := by
  unfold lxl_lex_float_branch
  have hsome := lxl_lex_float_some l base em h hnul
  rcases hf : lxl_lexer__lex_float l base em with ⟨r, l1⟩
  rw [hf] at hsome
  cases r with
  | none => simp at hsome
  | some n =>
    dsimp only
    rcases hft : lxl_lexer__finish_token l1
      { tok with token_type :=
          if n ≠ 0 then l1.cfg.default_float_type else LXL_LERR_INVALID_FLOAT } with ⟨t2, l2⟩
    rfl

/-! ## C9 — the well-formed-configuration predicate and the dispatch walk -/

/-- The claim's hypotheses on a configuration: every configured string —
comment openers and closers, string delimiters, puncts, number prefixes and
suffixes, signs and (radix) separators — is a non-empty C string.
`digit_separators` is a character *set* in the C API (a NUL-terminated string),
so its representable contents never include the NUL character; that
representability fact is the set's conjunct here. -/
def lxl_c9_config (c : lxl_config) : Prop :=
  (∀ s ∈ c.line_comment_openers, s ≠ []) ∧
  (∀ d ∈ c.nestable_comment_delims, d.opener ≠ [] ∧ d.closer ≠ []) ∧
  (∀ d ∈ c.unnestable_comment_delims, d.opener ≠ [] ∧ d.closer ≠ []) ∧
  (∀ d ∈ c.line_string_delims, d.opener ≠ [] ∧ d.closer ≠ []) ∧
  (∀ d ∈ c.multiline_string_delims, d.opener ≠ [] ∧ d.closer ≠ []) ∧
  (∀ s ∈ c.puncts, s ≠ []) ∧
  (∀ s ∈ c.integer_prefixes, s ≠ []) ∧
  (∀ s ∈ c.integer_suffixes, s ≠ []) ∧
  (∀ s ∈ c.float_prefixes, s ≠ []) ∧
  (∀ s ∈ c.float_suffixes, s ≠ []) ∧
  (∀ s ∈ c.number_signs, s ≠ []) ∧
  (∀ s ∈ c.exponent_signs, s ≠ []) ∧
  (∀ s ∈ c.radix_separators, s ≠ []) ∧
  '\x00' ∉ c.digit_separators

theorem lxl_c9_config_ws {c : lxl_config} (h : lxl_c9_config c) : lxl_c9_ws c :=
  ⟨h.1, fun d hd => (h.2.1 d hd).1, fun d hd => (h.2.2.1 d hd).1⟩

theorem lxl_c9_config_nul {c : lxl_config} (h : lxl_c9_config c) :
    '\x00' ∉ c.digit_separators :=
  h.2.2.2.2.2.2.2.2.2.2.2.2.2

theorem lxl_c9_step (l : lxl_lexer) (h : lxl_inv l) (hcfg : lxl_c9_config l.cfg) :
    ((lxl_lexer_next_token l).1).isSome = true := by
  unfold lxl_lexer_next_token
  split
  · rcases hc : lxl_lexer__create_end_token l with ⟨t, l1⟩
    rfl
  · have hsw := lxl_skip_whitespace_steps l h
    have hsws := lxl_skip_whitespace_some l h (lxl_c9_config_ws hcfg)
    split
    · next l1 heq =>
      rw [heq] at hsws
      simp at hsws
    · next r l1 heq =>
      rw [heq] at hsw
      have hinv1 := lxl_steps_inv hsw
      have hcfg1 : l1.cfg = l.cfg := hsw.2.1
      split
      · rcases hc : lxl_lexer__create_error_token l1 with ⟨t, l2⟩
        rfl
      · split
        · rcases hc : lxl_lexer__create_end_token l1 with ⟨t, l2⟩
          rfl
        · have hst := lxl_start_token_effect l1
          rcases hs : lxl_lexer__start_token l1 with ⟨tok, l2⟩
          rw [hs] at hst
          obtain ⟨htok, b1, b2, b3, b4, b5, b6, b7, b8, b9⟩ := hst
          dsimp only
          have hinv2 : lxl_inv l2 := ⟨by rw [b1, b2]; exact hinv1.1, b5 ▸ hinv1.2⟩
          have hcfg2 : l2.cfg = l.cfg := by rw [b3, hcfg1]
          have hmc := lxl_match_chars_steps l2 ['\n'] hinv2
          split
          · next l3 heq3 =>
            rcases hf : lxl_lexer__finish_token l3
              { tok with token_type := l3.cfg.line_ending_type } with ⟨t2, l4⟩
            rfl
          · next l3 heq3 =>
            rw [heq3] at hmc
            have hinv3 := lxl_steps_inv hmc
            have hcfg3 : l3.cfg = l.cfg := by rw [hmc.2.1, hcfg2]
            have hso := lxl_match_string_opener_steps l3 .LXL_STRING_LINE hinv3
            split
            · next i l4 heq4 =>
              rw [heq4] at hso
              have hinv4 := lxl_steps_inv hso
              have hls := lxl_lex_string_some l4
                (l4.cfg.line_string_delims.getD i ⟨[], []⟩).closer .LXL_STRING_LINE hinv4
              split
              · next l5 heq5 =>
                rw [heq5] at hls
                simp at hls
              · next n l5 heq5 =>
                rcases hf : lxl_lexer__finish_token l5
                  { tok with token_type := l5.cfg.line_string_types.getD i 0 } with ⟨t2, l6⟩
                rfl
            · next l4 heq4 =>
              rw [heq4] at hso
              have hinv4 := lxl_steps_inv hso
              have hcfg4 : l4.cfg = l.cfg := by rw [hso.2.1, hcfg3]
              have hso2 := lxl_match_string_opener_steps l4 .LXL_STRING_MULTILINE hinv4
              split
              · next i l5 heq5 =>
                rw [heq5] at hso2
                have hinv5 := lxl_steps_inv hso2
                have hls := lxl_lex_string_some l5
                  (l5.cfg.multiline_string_delims.getD i ⟨[], []⟩).closer .LXL_STRING_MULTILINE hinv5
                split
                · next l6 heq6 =>
                  rw [heq6] at hls
                  simp at hls
                · next n l6 heq6 =>
                  rcases hf : lxl_lexer__finish_token l6
                    { tok with token_type := l6.cfg.multiline_string_types.getD i 0 } with ⟨t2, l7⟩
                  rfl
              · next l5 heq5 =>
                rw [heq5] at hso2
                have hinv5 := lxl_steps_inv hso2
                have hcfg5 : l5.cfg = l.cfg := by rw [hso2.2.1, hcfg4]
                have hip := lxl_match_int_prefix_steps l5 hinv5
                rcases hi : lxl_lexer__match_int_prefix' l5 with ⟨ibase, l6⟩
                rw [hi] at hip
                have hinv6 := lxl_steps_inv hip
                have hcfg6 : l6.cfg = l.cfg := by rw [hip.2.1, hcfg5]
                dsimp only
                split
                · -- integer branch
                  have hli := lxl_lex_integer_some l6 ibase hinv6
                    (by rw [hcfg6]; exact lxl_c9_config_nul hcfg)
                  have hlis := lxl_lex_integer_steps l6 ibase hinv6
                  split
                  · next l7 heq7 =>
                    rw [heq7] at hli
                    simp at hli
                  · next n l7 heq7 =>
                    rw [heq7] at hlis
                    have hinv7 := lxl_steps_inv hlis
                    have hcfg7 : l7.cfg = l.cfg := by rw [hlis.2.1, hcfg6]
                    split
                    · have hrs := lxl_check_radix_separator_sbr l7 hinv7.1
                      rcases hr : lxl_lexer__check_radix_separator l7 with ⟨rs, l8⟩
                      rw [hr] at hrs
                      have hinv8 : lxl_inv l8 := lxl_steps_inv (lxl_sbr_steps hinv7 hrs)
                      have hcfg8 : l8.cfg = l.cfg := by rw [hrs.2.2.2.2.1, hcfg7]
                      dsimp only
                      split
                      · have hul := lxl_unlex_steps l8 hinv8
                        have hinv9 := lxl_steps_inv hul
                        have hcfg9 : (lxl_lexer__unlex l8).cfg = l.cfg := by rw [hul.2.1, hcfg8]
                        have hfp2 := lxl_match_float_prefix_steps (lxl_lexer__unlex l8) hinv9
                        rcases hfpr : lxl_lexer__match_float_prefix' (lxl_lexer__unlex l8)
                          with ⟨⟨fbase, marker⟩, l10⟩
                        rw [hfpr] at hfp2
                        have hinv10 := lxl_steps_inv hfp2
                        have hcfg10 : l10.cfg = l.cfg := by rw [hfp2.2.1, hcfg9]
                        dsimp only
                        split
                        · exact lxl_lex_float_branch_some l10 tok fbase marker hinv10
                            (by rw [hcfg10]; exact lxl_c9_config_nul hcfg)
                        · exact lxl_finish_int_branch_some l10 tok LXL_LERR_INVALID_INTEGER
                      · exact lxl_finish_int_branch_some l8 tok l8.cfg.default_int_type
                    · exact lxl_finish_int_branch_some l7 tok LXL_LERR_INVALID_INTEGER
                · -- float / punct / word branches
                  have hfp2 := lxl_match_float_prefix_steps l6 hinv6
                  rcases hfpr : lxl_lexer__match_float_prefix' l6 with ⟨⟨fbase, marker⟩, l7⟩
                  rw [hfpr] at hfp2
                  have hinv7 := lxl_steps_inv hfp2
                  have hcfg7 : l7.cfg = l.cfg := by rw [hfp2.2.1, hcfg6]
                  dsimp only
                  split
                  · exact lxl_lex_float_branch_some l7 tok fbase marker hinv7
                      (by rw [hcfg7]; exact lxl_c9_config_nul hcfg)
                  · have hpc := lxl_match_punct_steps l7 hinv7
                    split
                    · next i l8 heq8 =>
                      rcases hf : lxl_lexer__finish_token l8
                        { tok with token_type := l8.cfg.punct_types.getD i 0 } with ⟨t2, l9⟩
                      rfl
                    · next l8 heq8 =>
                      rw [heq8] at hpc
                      have hinv8 := lxl_steps_inv hpc
                      have hwls : (((match l8.cfg.word_lexing_rule with
                          | .LXL_LEX_SYMBOLIC => lxl_lexer__lex_symbolic l8
                          | .LXL_LEX_WORD => lxl_lexer__lex_word l8)).1).isSome = true := by
                        cases hw : l8.cfg.word_lexing_rule
                        · exact lxl_lex_symbolic_some l8 hinv8
                        · exact lxl_lex_word_some l8 hinv8
                      split
                      · next l9 heq9 =>
                        rw [heq9] at hwls
                        simp at hwls
                      · next n l9 heq9 =>
                        rcases hg : lxl_lexer__get_word_type l9 tok.start with ⟨wty, l10⟩
                        rcases hf : lxl_lexer__finish_token l10
                          { tok with token_type := wty } with ⟨t2, l11⟩
                        rfl

/-- C9 (confirmed): for every source and every configuration in which all
configured strings (comment openers and closers, string delimiters, puncts,
prefixes, suffixes, signs, separators) are non-empty C strings,
`lxl_lexer_next_token` terminates: the fuelled embedding — every internal loop
runs on the canonical fuel `lxl_fuel`, and a fuel-exhausted loop reports
`none` — always returns an actual token, for every lexer state whose cursor is
inside the view.  (Each loop iteration either consumes at least one byte or
exits, and each nested `skip_block_comment` call strictly decreases the
remaining tail, so the canonical fuel `2 * |src| + 8` is never exhausted.) -/
theorem claim_C9_confirmed (l : lxl_lexer) (h : lxl_inv l) (hcfg : lxl_c9_config l.cfg) :
    ((lxl_lexer_next_token l).1).isSome = true :=
  lxl_c9_step l h hcfg

def lexer_c9w : lxl_lexer :=
  let l := lxl_lexer_new (("# note\nax").toList)
  { l with cfg := { l.cfg with line_comment_openers := [['#']] } }

/-- Witness for `claim_C9_confirmed`: on the source `"# note\nax"` with the
line-comment opener `"#"` configured, the first `lxl_lexer_next_token` call
(which skips the comment, the line feed, and lexes the word `"ax"`) returns a
token. -/
theorem claim_C9_witness : ((lxl_lexer_next_token lexer_c9w).1).isSome = true :=
  claim_C9_confirmed lexer_c9w ⟨by decide, Or.inl rfl⟩
    ⟨by decide, by decide, by decide, by decide, by decide, by decide, by decide,
     by decide, by decide, by decide, by decide, by decide, by decide, by decide⟩
